import Mathlib

/-!
Shallow embedding of the go-headless-term terminal emulator
(github.com/danielgatis/go-headless-term), used to check the repository's
natural-language specification against its source.

Conventions of the embedding:
* Go `int` values are modelled as `Int`; `uint16` bitmasks as `Nat`
  with all arithmetic taken modulo 2^16 where the source can overflow.
* Go slices are `List`s; out-of-range reads yield the listed default
  (the source either guards its indices or would panic, and every panic
  site is unreachable under the invariants proved here).
* Go maps (used by the image store) are modelled as association lists;
  map iteration is modelled as iteration in insertion order (Go map
  iteration order is unspecified, so insertion order is one refinement).
* `time.Now()` is modelled by an explicit `now : Nat` argument.
* The external `uniwidth.RuneWidth` dependency is modelled by passing a
  character's display width alongside the character.
* Strings extracted from the screen are modelled as `List Nat` of rune
  codepoints (`'\n'` = 10 separates joined lines).
-/

namespace HeadlessTerm

/-! ## Cells (cell.go) -/

/-- Color model for cell colors: the source uses `image/color.Color` with two
private implementations `IndexedColor` and `NamedColor` plus `color.RGBA`. -/
inductive Color where
  | rgba (r g b a : Nat)
  | indexed (n : Int)
  | named (n : Int)
deriving Repr, DecidableEq

/-- `NamedColorForeground = 256` (colors.go). -/
def NamedColorForeground : Int := 256
/-- `NamedColorBackground = 257` (colors.go). -/
def NamedColorBackground : Int := 257

/-- Hyperlink (OSC 8) attached to a cell. -/
structure Hyperlink where
  id : String
  uri : String
deriving Repr, DecidableEq

/-- Reference from a cell to an image placement (`CellImage` in image.go).
The `float32` UV texture coordinates of the source are omitted from the
embedding: no claim concerns them and floating point is not modelled. -/
structure CellImageRef where
  placementID : Nat
  imageID : Nat
  zIndex : Int
deriving Repr, DecidableEq

/-- `CellFlags` constants, `1 << iota` in declaration order (cell.go). -/
def CellFlagBold : Nat := 1
def CellFlagDim : Nat := 2
def CellFlagItalic : Nat := 4
def CellFlagUnderline : Nat := 8
def CellFlagDoubleUnderline : Nat := 16
def CellFlagCurlyUnderline : Nat := 32
def CellFlagDottedUnderline : Nat := 64
def CellFlagDashedUnderline : Nat := 128
def CellFlagBlinkSlow : Nat := 256
def CellFlagBlinkFast : Nat := 512
def CellFlagReverse : Nat := 1024
def CellFlagHidden : Nat := 2048
def CellFlagStrike : Nat := 4096
def CellFlagWideChar : Nat := 8192
def CellFlagWideCharSpacer : Nat := 16384
def CellFlagDirty : Nat := 32768

/-- One grid position (`Cell` in cell.go). `Char` is the rune codepoint. -/
structure Cell where
  char : Nat
  fg : Option Color
  bg : Option Color
  underlineColor : Option Color
  flags : Nat
  hyperlink : Option Hyperlink
  image : Option CellImageRef
deriving Repr, DecidableEq

namespace Cell

/-- `NewCell()`: space character, named default foreground/background. -/
def new : Cell :=
  { char := 32
    fg := some (Color.named NamedColorForeground)
    bg := some (Color.named NamedColorBackground)
    underlineColor := none
    flags := 0
    hyperlink := none
    image := none }

/-- `Cell.HasFlag`. -/
def hasFlag (c : Cell) (f : Nat) : Bool := c.flags &&& f != 0

/-- `Cell.SetFlag` (`Flags |= flag`). -/
def setFlag (c : Cell) (f : Nat) : Cell := { c with flags := c.flags ||| f }

/-- `Cell.ClearFlag` (`Flags &^= flag`, on a `uint16`). -/
def clearFlag (c : Cell) (f : Nat) : Cell :=
  { c with flags := c.flags &&& (65535 ^^^ f) }

/-- `Cell.Reset`: default state. -/
def reset (_c : Cell) : Cell := Cell.new

/-- `Cell.MarkDirty`. -/
def markDirty (c : Cell) : Cell := c.setFlag CellFlagDirty

/-- `Cell.ClearDirty`. -/
def clearDirty (c : Cell) : Cell := c.clearFlag CellFlagDirty

/-- `Cell.IsDirty`. -/
def isDirty (c : Cell) : Bool := c.hasFlag CellFlagDirty

/-- `Cell.IsWide`. -/
def isWide (c : Cell) : Bool := c.hasFlag CellFlagWideChar

/-- `Cell.IsWideSpacer`. -/
def isWideSpacer (c : Cell) : Bool := c.hasFlag CellFlagWideCharSpacer

end Cell

/-! ## Scrollback provider (providers.go)

The primary buffer's scrollback provider is external.  The repository ships
`MemoryScrollback` (lines plus a max capacity, trimming oldest on overflow);
the embedding uses its semantics for provider state, and additionally every
buffer operation returns the ordered list of lines it `Push`ed, so that
claims about *which* rows reach the provider are independent of the concrete
provider implementation. -/

structure Scrollback where
  lines : List (List Cell)
  maxLines : Int
deriving Repr, DecidableEq

namespace Scrollback

/-- `MemoryScrollback.Push`: append, then trim oldest lines over capacity. -/
def push (s : Scrollback) (line : List Cell) : Scrollback :=
  let ls := s.lines ++ [line]
  if 0 < s.maxLines ∧ s.maxLines < (ls.length : Int) then
    { s with lines := ls.drop (ls.length - s.maxLines.toNat) }
  else
    { s with lines := ls }

/-- `MemoryScrollback.Len`. -/
def len (s : Scrollback) : Int := (s.lines.length : Int)

/-- `MemoryScrollback.Line`: `0` is the oldest line, `nil` out of range. -/
def line (s : Scrollback) (index : Int) : Option (List Cell) :=
  if 0 ≤ index ∧ index < (s.lines.length : Int) then s.lines.get? index.toNat
  else none

end Scrollback

/-! ## Buffer (buffer.go) -/

/-- `Buffer`: 2D grid of cells, wrapped-line flags, tab stops, optional
scrollback storage.  `scrollback = none` models a `nil` provider. -/
structure Buffer where
  rows : Int
  cols : Int
  cells : List (List Cell)
  wrapped : List Bool
  tabStop : List Bool
  scrollback : Option Scrollback
  hasDirty : Bool
deriving Repr, DecidableEq

namespace Buffer

/-- Row `i` of the grid (out-of-range reads give the empty row). -/
def rowAt (b : Buffer) (i : Int) : List Cell :=
  if 0 ≤ i then (b.cells.get? i.toNat).getD [] else []

/-- `wrapped[i]` (out-of-range reads give `false`). -/
def wrappedAt (b : Buffer) (i : Int) : Bool :=
  if 0 ≤ i then (b.wrapped.get? i.toNat).getD false else false

/-- `tabStop[i]` (out-of-range reads give `false`). -/
def tabStopAt (b : Buffer) (i : Int) : Bool :=
  if 0 ≤ i then (b.tabStop.get? i.toNat).getD false else false

/-- Cell at `(row, col)`; `none` when out of bounds (`Buffer.Cell`). -/
def cellAt (b : Buffer) (row col : Int) : Option Cell :=
  if row < 0 ∨ row ≥ b.rows ∨ col < 0 ∨ col ≥ b.cols then none
  else ((b.rowAt row).get? col.toNat)

/-- Default tab stops: every 8th column set (`NewBufferWithStorage`). -/
def defaultTabStops (cols : Nat) : List Bool :=
  (List.range cols).map (fun i => i % 8 = 0)

/-- `NewBufferWithStorage(rows, cols, storage)`. -/
def newWith (rows cols : Nat) (storage : Option Scrollback) : Buffer :=
  { rows := (rows : Int)
    cols := (cols : Int)
    cells := List.replicate rows (List.replicate cols Cell.new)
    wrapped := List.replicate rows false
    tabStop := defaultTabStops cols
    scrollback := storage
    hasDirty := false }

/-- `NewBuffer(rows, cols)`: no-op scrollback, modelled as a provider with
`MaxLines() = 0` (the source's `NoopScrollback`). -/
def new (rows cols : Nat) : Buffer :=
  newWith rows cols (some { lines := [], maxLines := 0 })

/-- Replace row `i` of a list. -/
def setIdx {α : Type} (l : List α) (i : Nat) (a : α) : List α := l.set i a

/-- Update the cell at `(row, col)` with `f`, if in bounds of the stored grid. -/
def modifyCell (b : Buffer) (row col : Int) (f : Cell → Cell) : Buffer :=
  if 0 ≤ row ∧ 0 ≤ col then
    { b with cells := b.cells.set row.toNat ((b.rowAt row).modify f col.toNat) }
  else b

/-- `Buffer.MarkDirty(row, col)`: ignored out of bounds. -/
def markDirtyAt (b : Buffer) (row col : Int) : Buffer :=
  if row < 0 ∨ row ≥ b.rows ∨ col < 0 ∨ col ≥ b.cols then b
  else { (b.modifyCell row col Cell.markDirty) with hasDirty := true }

/-- `Buffer.SetCell(row, col, cell)`: mark dirty and store; ignored OOB. -/
def setCell (b : Buffer) (row col : Int) (cell : Cell) : Buffer :=
  if row < 0 ∨ row ≥ b.rows ∨ col < 0 ∨ col ≥ b.cols then b
  else { (b.modifyCell row col (fun _ => cell.markDirty)) with hasDirty := true }

/-- Reset and mark dirty every cell of a row (`Buffer.ClearRow` body). -/
def clearedRow (row : List Cell) : List Cell :=
  row.map (fun c => (Cell.reset c).markDirty)

/-- `Buffer.ClearRow(row)`. -/
def clearRow (b : Buffer) (row : Int) : Buffer :=
  if row < 0 ∨ row ≥ b.rows then b
  else { b with
          cells := b.cells.set row.toNat (clearedRow (b.rowAt row))
          hasDirty := true }

/-- `Buffer.ClearRowRange(row, startCol, endCol)`: clears `[startCol, endCol)`
clamped to `[0, cols)` (the source indexes the row directly; rows shorter
than `cols` simply have no cells at the missing positions here). -/
def clearRowRange (b : Buffer) (row startCol endCol : Int) : Buffer :=
  if row < 0 ∨ row ≥ b.rows then b
  else
    let s := max startCol 0
    let e := min endCol b.cols
    let newRow := (b.rowAt row).mapIdx (fun i c =>
      if s ≤ (i : Int) ∧ (i : Int) < e then (Cell.reset c).markDirty else c)
    { b with cells := b.cells.set row.toNat newRow, hasDirty := true }

/-- `Buffer.ClearAll`: `ClearRow` on every row. -/
def clearAll (b : Buffer) : Buffer :=
  { b with cells := b.cells.map clearedRow
           hasDirty := if b.rows ≤ 0 then b.hasDirty else true }

/-- Mark every cell of a row dirty (used by the scroll move loops). -/
def dirtyRow (row : List Cell) : List Cell := row.map Cell.markDirty

/-- A fresh blank row of `n` dirty default cells (the scroll clear loops). -/
def blankDirtyRow (n : Nat) : List Cell :=
  List.replicate n (Cell.markDirty Cell.new)

/-- `Buffer.ScrollUp(top, bottom, n)`.  Returns the new buffer and the list
of rows pushed to the scrollback provider, in push order.  The source's
ascending row-move loop assigns `cells[row] = cells[row+n]` and dirties it;
its net effect, written per index, is the mapping below. -/
def scrollUp (b : Buffer) (top bottom n : Int) : Buffer × List (List Cell) :=
  if n ≤ 0 ∨ top ≥ bottom then (b, [])
  else
    let top := max top 0
    let bottom := min bottom b.rows
    let n := min n (bottom - top)
    let doPush := b.scrollback.isSome ∧
      0 < ((b.scrollback.map Scrollback.maxLines).getD 0) ∧ top = 0
    let pushed := if doPush then (List.range n.toNat).map (fun i => b.rowAt i)
      else []
    let sb := if doPush then b.scrollback.map (fun s => pushed.foldl Scrollback.push s)
      else b.scrollback
    let newCells := b.cells.mapIdx (fun r row =>
      if top ≤ (r : Int) ∧ (r : Int) < bottom - n then dirtyRow (b.rowAt ((r : Int) + n))
      else if bottom - n ≤ (r : Int) ∧ (r : Int) < bottom then blankDirtyRow b.cols.toNat
      else row)
    let newWrapped := b.wrapped.mapIdx (fun r w =>
      if top ≤ (r : Int) ∧ (r : Int) < bottom - n then b.wrappedAt ((r : Int) + n)
      else if bottom - n ≤ (r : Int) ∧ (r : Int) < bottom then false
      else w)
    ({ b with cells := newCells, wrapped := newWrapped, scrollback := sb
              hasDirty := true }, pushed)

/-- `Buffer.ScrollDown(top, bottom, n)`: symmetric, never pushes. -/
def scrollDown (b : Buffer) (top bottom n : Int) : Buffer :=
  if n ≤ 0 ∨ top ≥ bottom then b
  else
    let top := max top 0
    let bottom := min bottom b.rows
    let n := min n (bottom - top)
    let newCells := b.cells.mapIdx (fun r row =>
      if top + n ≤ (r : Int) ∧ (r : Int) < bottom then dirtyRow (b.rowAt ((r : Int) - n))
      else if top ≤ (r : Int) ∧ (r : Int) < top + n then blankDirtyRow b.cols.toNat
      else row)
    let newWrapped := b.wrapped.mapIdx (fun r w =>
      if top + n ≤ (r : Int) ∧ (r : Int) < bottom then b.wrappedAt ((r : Int) - n)
      else if top ≤ (r : Int) ∧ (r : Int) < top + n then false
      else w)
    { b with cells := newCells, wrapped := newWrapped, hasDirty := true }

/-- `Buffer.InsertLines(row, n, bottom)` ≡ guarded `ScrollDown`. -/
def insertLines (b : Buffer) (row n bottom : Int) : Buffer :=
  if row < 0 ∨ row ≥ bottom ∨ n ≤ 0 then b
  else b.scrollDown row bottom n

/-- `Buffer.DeleteLines(row, n, bottom)` ≡ guarded `ScrollUp` (may push). -/
def deleteLines (b : Buffer) (row n bottom : Int) : Buffer × List (List Cell) :=
  if row < 0 ∨ row ≥ bottom ∨ n ≤ 0 then (b, [])
  else b.scrollUp row bottom n

/-- `Buffer.InsertBlanks(row, col, n)`: shift right within the row, reset the
`n` positions at `col`, everything touched marked dirty. -/
def insertBlanks (b : Buffer) (row col n : Int) : Buffer :=
  if row < 0 ∨ row ≥ b.rows ∨ col < 0 ∨ col ≥ b.cols ∨ n ≤ 0 then b
  else
    let old := b.rowAt row
    let get := fun (i : Int) => (if 0 ≤ i then (old.get? i.toNat).getD Cell.new else Cell.new)
    let newRow := old.mapIdx (fun i c =>
      if col + n ≤ (i : Int) ∧ (i : Int) < b.cols then Cell.markDirty (get ((i : Int) - n))
      else if col ≤ (i : Int) ∧ (i : Int) < col + n ∧ (i : Int) < b.cols then
        Cell.markDirty (Cell.reset c)
      else c)
    { b with cells := b.cells.set row.toNat newRow, hasDirty := true }

/-- `Buffer.DeleteChars(row, col, n)`: shift left within the row, reset the
last `n` positions, everything touched marked dirty. -/
def deleteChars (b : Buffer) (row col n : Int) : Buffer :=
  if row < 0 ∨ row ≥ b.rows ∨ col < 0 ∨ col ≥ b.cols ∨ n ≤ 0 then b
  else
    let old := b.rowAt row
    let get := fun (i : Int) => (if 0 ≤ i then (old.get? i.toNat).getD Cell.new else Cell.new)
    let newRow := old.mapIdx (fun i c =>
      if col ≤ (i : Int) ∧ (i : Int) < b.cols - n then Cell.markDirty (get ((i : Int) + n))
      else if b.cols - n ≤ (i : Int) ∧ (i : Int) < b.cols ∧ 0 ≤ (i : Int) then
        Cell.markDirty (Cell.reset c)
      else c)
    { b with cells := b.cells.set row.toNat newRow, hasDirty := true }

/-- `Buffer.Resize(rows, cols)`: keep the top-left corner, blank the rest,
mark everything dirty, extend tab stops every 8 columns past the old width. -/
def resize (b : Buffer) (rows cols : Int) : Buffer :=
  if rows ≤ 0 ∨ cols ≤ 0 then b
  else
    let newCells := (List.range rows.toNat).map (fun (i : Nat) =>
      (List.range cols.toNat).map (fun (j : Nat) =>
        Cell.markDirty (if (i : Int) < b.rows ∧ (j : Int) < b.cols then
          ((b.rowAt (i : Int)).get? j).getD Cell.new else Cell.new)))
    let newWrapped := (List.range rows.toNat).map
      (fun (i : Nat) => (b.wrapped.get? i).getD false)
    let newTabStop := (List.range cols.toNat).map (fun (i : Nat) =>
      if i < b.tabStop.length then (b.tabStop.get? i).getD false
      else i % 8 = 0)
    { b with rows := (rows.toNat : Int), cols := (cols.toNat : Int)
             cells := newCells, wrapped := newWrapped, tabStop := newTabStop
             hasDirty := true }

/-- `Buffer.GrowRows(n)`: append `n` blank dirty rows. -/
def growRows (b : Buffer) (n : Int) : Buffer :=
  if n ≤ 0 then b
  else
    { b with rows := b.rows + n
             cells := b.cells ++ List.replicate n.toNat (blankDirtyRow b.cols.toNat)
             wrapped := b.wrapped ++ List.replicate n.toNat false }
             -- hasDirty := true in the source
    |> fun b' => { b' with hasDirty := true }

/-- `Buffer.GrowCols(row, minCols)`: widen one row to `minCols`, update
`cols` to the new maximum and extend tab stops if raised. -/
def growCols (b : Buffer) (row minCols : Int) : Buffer :=
  if row < 0 ∨ row ≥ b.rows then b
  else
    let old := b.rowAt row
    if minCols ≤ (old.length : Int) then b
    else
      let newRow := old ++ List.replicate (minCols.toNat - old.length)
        (Cell.markDirty Cell.new)
      let b := { b with cells := b.cells.set row.toNat newRow }
      let b :=
        if b.cols < minCols then
          { b with cols := minCols
                   tabStop := (List.range minCols.toNat).map (fun i =>
                     if i < b.tabStop.length then (b.tabStop.get? i).getD false
                     else i % 8 = 0) }
        else b
      { b with hasDirty := true }

/-- `Buffer.SetTabStop(col)`. -/
def setTabStop (b : Buffer) (col : Int) : Buffer :=
  if 0 ≤ col ∧ col < b.cols then { b with tabStop := b.tabStop.set col.toNat true }
  else b

/-- `Buffer.ClearTabStop(col)`. -/
def clearTabStop (b : Buffer) (col : Int) : Buffer :=
  if 0 ≤ col ∧ col < b.cols then { b with tabStop := b.tabStop.set col.toNat false }
  else b

/-- `Buffer.ClearAllTabStops`. -/
def clearAllTabStops (b : Buffer) : Buffer :=
  { b with tabStop := b.tabStop.map (fun _ => false) }

/-- `Buffer.NextTabStop(col)`: first enabled stop in `(col, cols)`, else
`cols - 1`. -/
def nextTabStop (b : Buffer) (col : Int) : Int :=
  match (List.range b.cols.toNat).find? (fun c => col < (c : Int) ∧ b.tabStopAt (c : Int)) with
  | some c => (c : Int)
  | none => b.cols - 1

/-- `Buffer.PrevTabStop(col)`: scanning `col-1` down to `0`, the first
enabled stop, else `0`. -/
def prevTabStop (b : Buffer) (col : Int) : Int :=
  match ((List.range b.cols.toNat).reverse).find?
      (fun c => (c : Int) < col ∧ b.tabStopAt (c : Int)) with
  | some c => (c : Int)
  | none => 0

/-- `Buffer.FillWithE`: every cell reset, `Char = 'E'`, dirty. -/
def fillWithE (b : Buffer) : Buffer :=
  { b with cells := b.cells.map (fun row => row.map (fun _ =>
      Cell.markDirty { Cell.new with char := 69 }))
           hasDirty := true }

/-- `Buffer.ScrollbackLen`. -/
def scrollbackLen (b : Buffer) : Int :=
  match b.scrollback with
  | some s => s.len
  | none => 0

/-- `Buffer.ScrollbackLine(index)`. -/
def scrollbackLine (b : Buffer) (index : Int) : Option (List Cell) :=
  match b.scrollback with
  | some s => s.line index
  | none => none

/-- `Buffer.IsWrapped(row)`. -/
def isWrapped (b : Buffer) (row : Int) : Bool :=
  if row < 0 ∨ row ≥ b.rows then false else b.wrappedAt row

/-- `Buffer.SetWrapped(row, wrapped)`. -/
def setWrapped (b : Buffer) (row : Int) (w : Bool) : Buffer :=
  if row < 0 ∨ row ≥ b.rows then b
  else { b with wrapped := b.wrapped.set row.toNat w }

/-- `Buffer.LineContent(row)`: trailing blanks trimmed, wide spacers
skipped, `Char = 0` rendered as a space.  Result is the rune list. -/
def lineContent (b : Buffer) (row : Int) : List Nat :=
  if row < 0 ∨ row ≥ b.rows then []
  else
    let cells := b.rowAt row
    let isTextCell := fun (c : Cell) => c.char ≠ 32 ∧ c.char ≠ 0 ∧ ¬ c.isWideSpacer
    match (cells.reverse).findIdx? (fun c => isTextCell c) with
    | none => []
    | some k =>
        let upto := cells.take (cells.length - k)
        (upto.filter (fun c => ¬ c.isWideSpacer)).map
          (fun c => if c.char = 0 then 32 else c.char)

end Buffer

/-! ## Image store (image.go: `ImageManager`) -/

/-- `ImageData`: decoded pixels and metadata.  The SHA-256 hash is modelled
by the byte content itself (hash collisions are not modelled), and times by
`Nat` instants. -/
structure ImageData where
  id : Nat
  width : Nat
  height : Nat
  data : List Nat
  createdAt : Nat
  accessedAt : Nat
deriving Repr, DecidableEq

/-- `ImagePlacement`: one displayed instance of an image. -/
structure ImagePlacement where
  id : Nat
  imageID : Nat
  row : Int
  col : Int
  cols : Int
  rows : Int
  srcX : Nat
  srcY : Nat
  srcW : Nat
  srcH : Nat
  zIndex : Int
  offsetX : Nat
  offsetY : Nat
deriving Repr, DecidableEq

/-- `ImageManager`: content-addressed image data, placements, and the memory
budget.  The Go maps are association lists in insertion order; the Kitty
chunk accumulator keeps the raw payload bytes. -/
structure ImageManager where
  images : List (Nat × ImageData)
  placements : List (Nat × ImagePlacement)
  hashToID : List (List Nat × Nat)
  nextImageID : Nat
  nextPlacementID : Nat
  maxMemory : Int
  usedMemory : Int
  accumulator : List Nat
  accumulatorID : Nat
  accumulatorMore : Bool
deriving Repr, DecidableEq

namespace ImageManager

/-- `NewImageManager()`: empty maps, 320MB budget. -/
def new : ImageManager :=
  { images := [], placements := [], hashToID := [], nextImageID := 0
    nextPlacementID := 0, maxMemory := 320 * 1024 * 1024, usedMemory := 0
    accumulator := [], accumulatorID := 0, accumulatorMore := false }

/-- Association-list lookup (Go map read). -/
def lookup {α β : Type} [DecidableEq α] (l : List (α × β)) (k : α) : Option β :=
  match l.find? (fun p => p.1 = k) with
  | some p => some p.2
  | none => none

/-- Association-list insert/overwrite (Go map write): replaces an existing
binding in place, otherwise appends. -/
def insert {α β : Type} [DecidableEq α] (l : List (α × β)) (k : α) (v : β) :
    List (α × β) :=
  if (l.find? (fun p => p.1 = k)).isSome then
    l.map (fun p => if p.1 = k then (k, v) else p)
  else l ++ [(k, v)]

/-- Association-list delete (Go map delete). -/
def erase {α β : Type} [DecidableEq α] (l : List (α × β)) (k : α) :
    List (α × β) :=
  l.filter (fun p => ¬ p.1 = k)

/-- Image ids referenced by at least one current placement (the `referenced`
set built by `pruneLocked`). -/
def referenced (m : ImageManager) (id : Nat) : Bool :=
  m.placements.any (fun p => p.2.imageID = id)

/-- One pruning candidate `(id, accessedAt, size)`. -/
structure Candidate where
  id : Nat
  time : Nat
  size : Int
deriving Repr, DecidableEq

/-- Insert into a list sorted ascending by `time` (strictly-before moves
earlier, matching the source's strict `time.Before` exchange sort; the
relative order of equal times is unspecified in Go — map iteration — and
insertion order is the refinement used here). -/
def insertByTime (c : Candidate) : List Candidate → List Candidate
  | [] => [c]
  | d :: ds => if c.time < d.time then c :: d :: ds else d :: insertByTime c ds

/-- Sort candidates ascending by `accessedAt`. -/
def sortByTime : List Candidate → List Candidate
  | [] => []
  | c :: cs => insertByTime c (sortByTime cs)

/-- The pruning candidates: unreferenced images, ascending by access time. -/
def pruneCandidates (m : ImageManager) : List Candidate :=
  sortByTime ((m.images.filter (fun p => ¬ m.referenced p.1)).map
    (fun p => { id := p.1, time := p.2.accessedAt, size := (p.2.data.length : Int) }))

/-- The removal loop of `pruneLocked`: drop candidates in order until
`usedMemory ≤ maxMemory`. -/
def pruneRemove (m : ImageManager) : List Candidate → ImageManager
  | [] => m
  | c :: cs =>
      if m.usedMemory ≤ m.maxMemory then m
      else
        match lookup m.images c.id with
        | some img =>
            pruneRemove { m with hashToID := erase m.hashToID img.data
                                 images := erase m.images c.id
                                 usedMemory := m.usedMemory - c.size } cs
        | none => pruneRemove m cs

/-- `pruneLocked`: evict least-recently-used unreferenced images until under
budget. -/
def pruneLocked (m : ImageManager) : ImageManager :=
  pruneRemove m (pruneCandidates m)

/-- `Store(width, height, data)`: content-addressed insert returning the
image id.  `now` stands for `time.Now()`. -/
def store (m : ImageManager) (width height : Nat) (data : List Nat) (now : Nat) :
    Nat × ImageManager :=
  match lookup m.hashToID data with
  | some existingID =>
      match lookup m.images existingID with
      | some img =>
          (existingID,
           { m with images := insert m.images existingID { img with accessedAt := now } })
      | none => storeFresh m width height data now
  | none => storeFresh m width height data now
where
  /-- The fresh-insert path of `Store` (no live duplicate found). -/
  storeFresh (m : ImageManager) (width height : Nat) (data : List Nat) (now : Nat) :
      Nat × ImageManager :=
    let id := m.nextImageID + 1
    let img : ImageData :=
      { id := id, width := width, height := height, data := data
        createdAt := now, accessedAt := now }
    let m := { m with nextImageID := id
                      images := insert m.images id img
                      hashToID := insert m.hashToID data id
                      usedMemory := m.usedMemory + (data.length : Int) }
    (id, if m.maxMemory < m.usedMemory then pruneLocked m else m)

/-- `StoreWithID(id, width, height, data)`: unconditional insert at a fixed
id, removing any previous entry at that id first. -/
def storeWithID (m : ImageManager) (id width height : Nat) (data : List Nat)
    (now : Nat) : ImageManager :=
  let m :=
    match lookup m.images id with
    | some old =>
        { m with usedMemory := m.usedMemory - (old.data.length : Int)
                 hashToID := erase m.hashToID old.data }
    | none => m
  let img : ImageData :=
    { id := id, width := width, height := height, data := data
      createdAt := now, accessedAt := now }
  let m := { m with images := insert m.images id img
                    hashToID := insert m.hashToID data id
                    usedMemory := m.usedMemory + (data.length : Int)
                    nextImageID := if m.nextImageID ≤ id then id + 1 else m.nextImageID }
  if m.maxMemory < m.usedMemory then pruneLocked m else m

/-- `Place(p)`: assign the next placement id and insert. -/
def place (m : ImageManager) (p : ImagePlacement) : Nat × ImageManager :=
  let id := m.nextPlacementID + 1
  (id, { m with nextPlacementID := id
                placements := insert m.placements id { p with id := id } })

/-- `RemovePlacement(id)`. -/
def removePlacement (m : ImageManager) (id : Nat) : ImageManager :=
  { m with placements := erase m.placements id }

/-- `RemovePlacementsForImage(imageID)`. -/
def removePlacementsForImage (m : ImageManager) (imageID : Nat) : ImageManager :=
  { m with placements := m.placements.filter (fun p => ¬ p.2.imageID = imageID) }

/-- `DeleteImage(id)`: drop data, hash index, memory, and placements. -/
def deleteImage (m : ImageManager) (id : Nat) : ImageManager :=
  let m :=
    match lookup m.images id with
    | some img =>
        { m with usedMemory := m.usedMemory - (img.data.length : Int)
                 hashToID := erase m.hashToID img.data
                 images := erase m.images id }
    | none => m
  { m with placements := m.placements.filter (fun p => ¬ p.2.imageID = id) }

/-- `Clear()`: drop all images, placements, hash index, reset the memory
counter and the accumulator. -/
def clear (m : ImageManager) : ImageManager :=
  { m with images := [], placements := [], hashToID := [], usedMemory := 0
           accumulator := [] }

/-- `ImageCount()`. -/
def imageCount (m : ImageManager) : Nat := m.images.length

/-- `PlacementCount()`. -/
def placementCount (m : ImageManager) : Nat := m.placements.length

/-- `DeletePlacementsByPosition(row, col)`. -/
def deletePlacementsByPosition (m : ImageManager) (row col : Int) : ImageManager :=
  { m with placements := m.placements.filter (fun p =>
      ¬ (p.2.row ≤ row ∧ row < p.2.row + p.2.rows ∧
         p.2.col ≤ col ∧ col < p.2.col + p.2.cols)) }

/-- `DeletePlacementsByZIndex(z)`. -/
def deletePlacementsByZIndex (m : ImageManager) (z : Int) : ImageManager :=
  { m with placements := m.placements.filter (fun p => ¬ p.2.zIndex = z) }

/-- `DeletePlacementsInRow(row)`. -/
def deletePlacementsInRow (m : ImageManager) (row : Int) : ImageManager :=
  { m with placements := m.placements.filter (fun p =>
      ¬ (p.2.row ≤ row ∧ row < p.2.row + p.2.rows)) }

/-- `DeletePlacementsInColumn(col)`. -/
def deletePlacementsInColumn (m : ImageManager) (col : Int) : ImageManager :=
  { m with placements := m.placements.filter (fun p =>
      ¬ (p.2.col ≤ col ∧ col < p.2.col + p.2.cols)) }

end ImageManager

/-! ## Terminal state (terminal.go, cursor.go) -/

/-- `Charset` (cursor.go). -/
inductive Charset where
  | ascii
  | lineDrawing
deriving Repr, DecidableEq

/-- Cursor (`Cursor` in cursor.go); `style` is the `CursorStyle` ordinal. -/
structure Cursor where
  row : Int
  col : Int
  style : Int
  visible : Bool
deriving Repr, DecidableEq

/-- `NewCursor()`: (0,0), blinking block, visible. -/
def Cursor.new : Cursor := { row := 0, col := 0, style := 0, visible := true }

/-- `SavedCursor` (cursor.go): position, template, origin mode, charsets. -/
structure SavedCursor where
  row : Int
  col : Int
  attrs : Cell
  originMode : Bool
  charsetIndex : Int
  charsets : List Charset
deriving Repr, DecidableEq

/-- The terminal's internal mode bitmask (`TerminalMode`), modelled as one
Boolean per flag. -/
structure Modes where
  cursorKeys : Bool := false
  columnMode : Bool := false
  insert : Bool := false
  origin : Bool := false
  lineWrap : Bool := false
  blinkingCursor : Bool := false
  lineFeedNewLine : Bool := false
  showCursor : Bool := false
  reportMouseClicks : Bool := false
  reportCellMouseMotion : Bool := false
  reportAllMouseMotion : Bool := false
  reportFocusInOut : Bool := false
  utf8Mouse : Bool := false
  sgrMouse : Bool := false
  alternateScroll : Bool := false
  urgencyHints : Bool := false
  swapScreen : Bool := false
  bracketedPaste : Bool := false
  keypadApplication : Bool := false
deriving Repr, DecidableEq

/-- The incoming `ansicode.TerminalMode` values recognised by
`setModeLocked`; `other` covers every unrecognised mode (silently ignored). -/
inductive AnsiMode where
  | cursorKeys | columnMode | insert | origin | lineWrap | blinkingCursor
  | lineFeedNewLine | showCursor | reportMouseClicks | reportCellMouseMotion
  | reportAllMouseMotion | reportFocusInOut | utf8Mouse | sgrMouse
  | alternateScroll | urgencyHints | swapScreenAndSetRestoreCursor
  | bracketedPaste | other
deriving Repr, DecidableEq

/-- `ansicode.LineClearMode`. -/
inductive LineClearMode where
  | right | left | all
deriving Repr, DecidableEq

/-- `ansicode.ClearMode`. -/
inductive ClearMode where
  | below | above | all | saved
deriving Repr, DecidableEq

/-- `ansicode.TabulationClearMode`. -/
inductive TabClearMode where
  | current | all
deriving Repr, DecidableEq

/-- Shell-integration mark types (`ansicode.ShellIntegrationMark`). -/
inductive MarkType where
  | promptStart | commandStart | commandExecuted | commandFinished
deriving Repr, DecidableEq

/-- `PromptMark` (shell_integration.go): type, absolute row, exit code. -/
structure PromptMark where
  type : MarkType
  row : Int
  exitCode : Int
deriving Repr, DecidableEq

/-- `Position` (buffer.go): 0-based grid location. -/
structure Position where
  row : Int
  col : Int
deriving Repr, DecidableEq

/-- `Position.Before`: reading order (top-to-bottom, left-to-right). -/
def Position.before (p other : Position) : Bool :=
  if p.row < other.row then true
  else if p.row = other.row ∧ p.col < other.col then true
  else false

/-- `Selection` (terminal.go). -/
structure Selection where
  start : Position
  stop : Position
  active : Bool
deriving Repr, DecidableEq

/-- The SGR attribute cases handled by `setTerminalCharAttributeInternal`.
Color payloads carry the already-resolved `resolveColor` input: `some c`
when the attribute supplied a color, `none` otherwise. -/
inductive CharAttr where
  | reset | bold | dim | italic
  | underline | doubleUnderline | curlyUnderline | dottedUnderline | dashedUnderline
  | blinkSlow | blinkFast | reverse | hidden | strike
  | cancelBold | cancelBoldDim | cancelItalic | cancelUnderline | cancelBlink
  | cancelReverse | cancelHidden | cancelStrike
  | foreground (c : Option Color) | background (c : Option Color)
  | underlineColor (c : Option Color)
deriving Repr, DecidableEq

/-- A parsed Kitty graphics command, as consumed by `kittyDisplay` /
`kittyDelete` (the APC parse and base64/PNG decode layers are external to
the handler logic embedded here). -/
structure KittyInfo where
  imageID : Nat
  cols : Nat
  rows : Nat
  srcX : Nat
  srcY : Nat
  srcW : Nat
  srcH : Nat
  zIndex : Int
  offsetX : Nat
  offsetY : Nat
  doNotMoveCursor : Bool
deriving Repr, DecidableEq

/-- The Kitty `d=` delete operand cases of `kittyDelete`. -/
inductive KittyDeleteKind where
  | all | byID (withData : Bool) (imageID : Nat) | atCursor | byCol | byRow
  | byZIndex (z : Int)
deriving Repr, DecidableEq

/-- Terminal state (`Terminal` in terminal.go).  External providers (bell,
title, clipboard, response, recording, APC/PM/SOS sinks) only observe the
terminal and are not part of the state; the scrollback provider state lives
inside `primary.scrollback`. -/
structure Term where
  rows : Int
  cols : Int
  primary : Buffer
  alternate : Buffer
  altActive : Bool
  cursor : Cursor
  savedCursor : Option SavedCursor
  template : Cell
  charsets : List Charset
  activeCharset : Int
  scrollTop : Int
  scrollBottom : Int
  modes : Modes
  title : String
  titleStack : List String
  colors : List (Int × Color)
  currentHyperlink : Option Hyperlink
  keyboardModes : List Nat
  modifyOtherKeys : Int
  selection : Selection
  autoResize : Bool
  promptMarks : List PromptMark
  workingDir : String
  images : ImageManager
  sixelEnabled : Bool
  kittyEnabled : Bool
deriving Repr, DecidableEq

namespace Term

/-- `New(WithSize(rows, cols))` with defaults: primary buffer carries the
scrollback provider (capacity `sbMax`, `0` = the no-op default), alternate
buffer has none worth counting; modes `LineWrap|ShowCursor`. -/
def new (rows cols : Nat) (sbMax : Int) : Term :=
  { rows := (rows : Int)
    cols := (cols : Int)
    primary := Buffer.newWith rows cols (some { lines := [], maxLines := sbMax })
    alternate := Buffer.new rows cols
    altActive := false
    cursor := Cursor.new
    savedCursor := none
    template := Cell.new
    charsets := [Charset.ascii, Charset.ascii, Charset.ascii, Charset.ascii]
    activeCharset := 0
    scrollTop := 0
    scrollBottom := (rows : Int)
    modes := { lineWrap := true, showCursor := true }
    title := ""
    titleStack := []
    colors := []
    currentHyperlink := none
    keyboardModes := []
    modifyOtherKeys := 0
    selection := { start := ⟨0, 0⟩, stop := ⟨0, 0⟩, active := false }
    autoResize := false
    promptMarks := []
    workingDir := ""
    images := ImageManager.new
    sixelEnabled := true
    kittyEnabled := true }

/-- The buffer currently receiving writes. -/
def activeBuf (t : Term) : Buffer := if t.altActive then t.alternate else t.primary

/-- Store back the active buffer. -/
def setActiveBuf (t : Term) (b : Buffer) : Term :=
  if t.altActive then { t with alternate := b } else { t with primary := b }

/-- `clamp(val, min, max)` (terminal.go). -/
def clampInt (val lo hi : Int) : Int := if val < lo then lo else if hi < val then hi else val

/-- `effectiveRow(row)`: offset by `scrollTop` under origin mode. -/
def effectiveRow (t : Term) (row : Int) : Int :=
  if t.modes.origin then row + t.scrollTop else row

/-- Charset slot lookup (`t.charsets[i]`, guarded by callers). -/
def charsetAt (t : Term) (i : Int) : Charset :=
  if 0 ≤ i then (t.charsets.get? i.toNat).getD Charset.ascii else Charset.ascii

/-- `scrollIfNeeded`: scroll (or, in auto-resize mode, grow) when the cursor
left the scroll region. -/
def scrollIfNeeded (t : Term) : Term :=
  if t.scrollBottom ≤ t.cursor.row then
    if t.autoResize then
      let rowsToAdd := t.cursor.row - t.scrollBottom + 1
      let b := (t.activeBuf).growRows rowsToAdd
      let t := t.setActiveBuf b
      { t with rows := b.rows, scrollBottom := b.rows }
    else
      let linesToScroll := t.cursor.row - t.scrollBottom + 1
      let b := ((t.activeBuf).scrollUp t.scrollTop t.scrollBottom linesToScroll).1
      let t := t.setActiveBuf b
      { t with cursor := { t.cursor with row := t.scrollBottom - 1 } }
  else if t.cursor.row < t.scrollTop then
    let linesToScroll := t.scrollTop - t.cursor.row
    let b := (t.activeBuf).scrollDown t.scrollTop t.scrollBottom linesToScroll
    let t := t.setActiveBuf b
    { t with cursor := { t.cursor with row := t.scrollTop } }
  else t

/-- `translateLineDrawing` (handler.go): the fixed DEC line-drawing table,
on rune codepoints. -/
def translateLineDrawing (r : Nat) : Nat :=
  if r = 106 then 9496        -- j ┘
  else if r = 107 then 9488   -- k ┐
  else if r = 108 then 9484   -- l ┌
  else if r = 109 then 9492   -- m └
  else if r = 110 then 9532   -- n ┼
  else if r = 113 then 9472   -- q ─
  else if r = 116 then 9500   -- t ├
  else if r = 117 then 9508   -- u ┤
  else if r = 118 then 9524   -- v ┴
  else if r = 119 then 9516   -- w ┬
  else if r = 120 then 9474   -- x │
  else r

/-- Apply `f` to the cell at `(row, col)` and mark it dirty, when the source
would have obtained a non-nil cell pointer there (`Buffer.Cell` bounds). -/
def writeCell (b : Buffer) (row col : Int) (f : Cell → Cell) : Buffer :=
  if (b.cellAt row col).isSome then (b.modifyCell row col f).markDirtyAt row col
  else b

set_option maxHeartbeats 1000000 in
/-- `inputInternal(r)`: write one character at the cursor.  `width` is the
display width `uniwidth.RuneWidth(r)` of the (untranslated) rune, supplied
by the external width library. -/
def inputInternal (t : Term) (r0 : Nat) (width : Nat) : Term :=
  let r := if 0 ≤ t.activeCharset ∧ t.activeCharset < 4 ∧
      t.charsetAt t.activeCharset = Charset.lineDrawing
    then translateLineDrawing r0 else r0
  if width = 0 then t
  else if t.cols < t.cursor.col + (width : Int) ∧ ¬ t.autoResize ∧
      ¬ t.modes.lineWrap ∧ width = 2 then
    t -- wide character dropped entirely at the end of a non-wrapping line
  else
    -- wrap / grow / clamp stage
    let t : Term :=
      if t.cols < t.cursor.col + (width : Int) then
        if t.autoResize then
          let b := (t.activeBuf).growCols t.cursor.row (t.cursor.col + (width : Int))
          let t : Term := t.setActiveBuf b
          let t : Term := { t with cols := b.cols }
          if t.cols ≤ t.cursor.col then
            { t with cursor := { t.cursor with col := t.cols - 1 } }
          else t
        else if t.modes.lineWrap then
          let t : Term := t.setActiveBuf ((t.activeBuf).setWrapped t.cursor.row true)
          let t : Term := { t with cursor := { t.cursor with col := 0, row := t.cursor.row + 1 } }
          if t.rows ≤ t.cursor.row then t.scrollIfNeeded else t
        else
          -- width = 2 handled above; width = 1 clamps to the last column
          { t with cursor := { t.cursor with col := t.cols - 1 } }
      else t
    -- insert mode shift
    let t : Term :=
      if t.modes.insert then
        t.setActiveBuf ((t.activeBuf).insertBlanks t.cursor.row t.cursor.col (width : Int))
      else t
    -- validation
    if t.cursor.row < 0 ∨ t.rows ≤ t.cursor.row ∨ t.cursor.col < 0 then t
    else
      -- write the character
      let t : Term :=
        if t.cursor.col < t.cols then
          t.setActiveBuf (writeCell (t.activeBuf) t.cursor.row t.cursor.col (fun c =>
            let c := { c with char := r
                              fg := t.template.fg
                              bg := t.template.bg
                              underlineColor := t.template.underlineColor
                              flags := t.template.flags
                              hyperlink := t.currentHyperlink }
            if width = 2 then c.setFlag CellFlagWideChar
            else c.clearFlag (CellFlagWideChar ||| CellFlagWideCharSpacer)))
        else t
      let t : Term := { t with cursor := { t.cursor with col := t.cursor.col + 1 } }
      -- wide-character spacer cell
      let t : Term :=
        if width = 2 ∧ t.cursor.col < t.cols then
          let t : Term := t.setActiveBuf (writeCell (t.activeBuf) t.cursor.row t.cursor.col (fun c =>
            let c := Cell.reset c
            let c := { c with fg := t.template.fg, bg := t.template.bg }
            c.setFlag CellFlagWideCharSpacer))
          { t with cursor := { t.cursor with col := t.cursor.col + 1 } }
        else t
      -- final safety clamps
      let t : Term :=
        if t.cols ≤ t.cursor.col ∧ ¬ t.autoResize ∧ ¬ t.modes.lineWrap then
          { t with cursor := { t.cursor with col := t.cols - 1 } }
        else t
      let t : Term :=
        if t.rows ≤ t.cursor.row ∧ ¬ t.autoResize then
          if (t.activeBuf).rows ≤ t.cursor.row then
            { t with cursor := { t.cursor with row := (t.activeBuf).rows - 1 } }
          else t
        else t
      let t : Term := if t.cursor.col < 0 then { t with cursor := { t.cursor with col := 0 } } else t
      if t.cursor.row < 0 then { t with cursor := { t.cursor with row := 0 } } else t

/-- `backspaceInternal`. -/
def backspaceInternal (t : Term) : Term :=
  if 0 < t.cursor.col then { t with cursor := { t.cursor with col := t.cursor.col - 1 } }
  else t

/-- `carriageReturnInternal`. -/
def carriageReturnInternal (t : Term) : Term :=
  { t with cursor := { t.cursor with col := 0 } }

/-- `lineFeedInternal`. -/
def lineFeedInternal (t : Term) : Term :=
  let t := t.setActiveBuf ((t.activeBuf).setWrapped t.cursor.row false)
  let t := if t.modes.lineFeedNewLine then { t with cursor := { t.cursor with col := 0 } }
    else t
  let t := { t with cursor := { t.cursor with row := t.cursor.row + 1 } }
  t.scrollIfNeeded

/-- `clearLineInternal(mode)`. -/
def clearLineInternal (t : Term) (mode : LineClearMode) : Term :=
  match mode with
  | LineClearMode.right =>
      t.setActiveBuf ((t.activeBuf).clearRowRange t.cursor.row t.cursor.col t.cols)
  | LineClearMode.left =>
      t.setActiveBuf ((t.activeBuf).clearRowRange t.cursor.row 0 (t.cursor.col + 1))
  | LineClearMode.all => t.setActiveBuf ((t.activeBuf).clearRow t.cursor.row)

/-- Clear the rows of `[lo, hi)` (the `ClearRow` loops of
`clearScreenInternal`). -/
def clearRowsRange (b : Buffer) (lo hi : Int) : Buffer :=
  (List.range b.rows.toNat).foldl (fun b r =>
    if lo ≤ (r : Int) ∧ (r : Int) < hi then b.clearRow (r : Int) else b) b

/-- `clearScreenInternal(mode)`. -/
def clearScreenInternal (t : Term) (mode : ClearMode) : Term :=
  match mode with
  | ClearMode.below =>
      let b := (t.activeBuf).clearRowRange t.cursor.row t.cursor.col t.cols
      t.setActiveBuf (clearRowsRange b (t.cursor.row + 1) t.rows)
  | ClearMode.above =>
      let b := clearRowsRange (t.activeBuf) 0 t.cursor.row
      t.setActiveBuf (b.clearRowRange t.cursor.row 0 (t.cursor.col + 1))
  | ClearMode.all => t.setActiveBuf ((t.activeBuf).clearAll)
  | ClearMode.saved => t.setActiveBuf ((t.activeBuf).clearAll)

/-- `clearTabsInternal(mode)`. -/
def clearTabsInternal (t : Term) (mode : TabClearMode) : Term :=
  match mode with
  | TabClearMode.current => t.setActiveBuf ((t.activeBuf).clearTabStop t.cursor.col)
  | TabClearMode.all => t.setActiveBuf ((t.activeBuf).clearAllTabStops)

/-- `gotoInternal(row, col)`. -/
def gotoInternal (t : Term) (row col : Int) : Term :=
  { t with cursor := { t.cursor with
      row := clampInt (t.effectiveRow row) 0 (t.rows - 1)
      col := clampInt col 0 (t.cols - 1) } }

/-- `gotoLineInternal(row)`. -/
def gotoLineInternal (t : Term) (row : Int) : Term :=
  { t with cursor := { t.cursor with row := clampInt (t.effectiveRow row) 0 (t.rows - 1) } }

/-- `gotoColInternal(col)`. -/
def gotoColInternal (t : Term) (col : Int) : Term :=
  { t with cursor := { t.cursor with col := clampInt col 0 (t.cols - 1) } }

/-- `horizontalTabSetInternal`. -/
def horizontalTabSetInternal (t : Term) : Term :=
  t.setActiveBuf ((t.activeBuf).setTabStop t.cursor.col)

/-- `insertBlankInternal(n)`. -/
def insertBlankInternal (t : Term) (n : Int) : Term :=
  t.setActiveBuf ((t.activeBuf).insertBlanks t.cursor.row t.cursor.col n)

/-- `insertBlankLinesInternal(n)`. -/
def insertBlankLinesInternal (t : Term) (n : Int) : Term :=
  if t.scrollTop ≤ t.cursor.row ∧ t.cursor.row < t.scrollBottom then
    t.setActiveBuf ((t.activeBuf).insertLines t.cursor.row n t.scrollBottom)
  else t

/-- `deleteCharsInternal(n)`. -/
def deleteCharsInternal (t : Term) (n : Int) : Term :=
  t.setActiveBuf ((t.activeBuf).deleteChars t.cursor.row t.cursor.col n)

/-- `deleteLinesInternal(n)`. -/
def deleteLinesInternal (t : Term) (n : Int) : Term :=
  if t.scrollTop ≤ t.cursor.row ∧ t.cursor.row < t.scrollBottom then
    t.setActiveBuf (((t.activeBuf).deleteLines t.cursor.row n t.scrollBottom).1)
  else t

/-- `eraseCharsInternal(n)`: reset up to `n` cells at the cursor. -/
def eraseCharsInternal (t : Term) (n : Int) : Term :=
  t.setActiveBuf ((List.range (max n 0).toNat).foldl (fun b i =>
    if t.cursor.col + (i : Int) < t.cols then
      if (b.cellAt t.cursor.row (t.cursor.col + (i : Int))).isSome then
        b.modifyCell t.cursor.row (t.cursor.col + (i : Int)) Cell.reset
      else b
    else b) (t.activeBuf))

/-- `moveUpInternal(n)` / `moveDownInternal(n)` etc. all clamp into bounds. -/
def moveUpInternal (t : Term) (n : Int) : Term :=
  { t with cursor := { t.cursor with row := clampInt (t.cursor.row - n) 0 (t.rows - 1) } }

def moveDownInternal (t : Term) (n : Int) : Term :=
  { t with cursor := { t.cursor with row := clampInt (t.cursor.row + n) 0 (t.rows - 1) } }

def moveForwardInternal (t : Term) (n : Int) : Term :=
  { t with cursor := { t.cursor with col := clampInt (t.cursor.col + n) 0 (t.cols - 1) } }

def moveBackwardInternal (t : Term) (n : Int) : Term :=
  { t with cursor := { t.cursor with col := clampInt (t.cursor.col - n) 0 (t.cols - 1) } }

def moveUpCrInternal (t : Term) (n : Int) : Term :=
  { t with cursor := { t.cursor with row := clampInt (t.cursor.row - n) 0 (t.rows - 1)
                                     col := 0 } }

def moveDownCrInternal (t : Term) (n : Int) : Term :=
  { t with cursor := { t.cursor with row := clampInt (t.cursor.row + n) 0 (t.rows - 1)
                                     col := 0 } }

/-- `tabInternal(n)` / `moveForwardTabsInternal(n)`: advance to `n` tab
stops. -/
def tabInternal (t : Term) (n : Int) : Term :=
  (List.range (max n 0).toNat).foldl (fun t _ =>
    { t with cursor := { t.cursor with col := (t.activeBuf).nextTabStop t.cursor.col } }) t

/-- `moveBackwardTabsInternal(n)`. -/
def moveBackwardTabsInternal (t : Term) (n : Int) : Term :=
  (List.range (max n 0).toNat).foldl (fun t _ =>
    { t with cursor := { t.cursor with col := (t.activeBuf).prevTabStop t.cursor.col } }) t

/-- `saveCursorPositionLocked`. -/
def saveCursorPositionLocked (t : Term) : Term :=
  let s : SavedCursor :=
    { row := t.cursor.row, col := t.cursor.col, attrs := t.template
      originMode := t.modes.origin, charsetIndex := t.activeCharset
      charsets := t.charsets }
  { t with savedCursor := some s }

/-- `restoreCursorPositionLocked`. -/
def restoreCursorPositionLocked (t : Term) : Term :=
  match t.savedCursor with
  | none => t
  | some s =>
      { t with cursor := { t.cursor with row := s.row, col := s.col }
               template := s.attrs
               modes := { t.modes with origin := s.originMode }
               activeCharset := s.charsetIndex
               charsets := s.charsets }

/-- `reverseIndexInternal`. -/
def reverseIndexInternal (t : Term) : Term :=
  if t.cursor.row = t.scrollTop then
    t.setActiveBuf ((t.activeBuf).scrollDown t.scrollTop t.scrollBottom 1)
  else if 0 < t.cursor.row then
    { t with cursor := { t.cursor with row := t.cursor.row - 1 } }
  else t

/-- `resetStateInternal` (RIS). -/
def resetStateInternal (t : Term) : Term :=
  let t := t.setActiveBuf ((t.activeBuf).clearAll)
  { t with cursor := { row := 0, col := 0, style := 0, visible := true }
           template := Cell.new
           scrollTop := 0
           scrollBottom := t.rows
           modes := { lineWrap := true, showCursor := true }
           charsets := [Charset.ascii, Charset.ascii, Charset.ascii, Charset.ascii]
           activeCharset := 0
           colors := []
           keyboardModes := []
           currentHyperlink := none }

/-- `scrollUpInternal(n)` (CSI S). -/
def scrollUpInternal (t : Term) (n : Int) : Term :=
  t.setActiveBuf (((t.activeBuf).scrollUp t.scrollTop t.scrollBottom n).1)

/-- `scrollDownInternal(n)` (CSI T). -/
def scrollDownInternal (t : Term) (n : Int) : Term :=
  t.setActiveBuf ((t.activeBuf).scrollDown t.scrollTop t.scrollBottom n)

/-- `setActiveCharsetInternal(n)`. -/
def setActiveCharsetInternal (t : Term) (n : Int) : Term :=
  if 0 ≤ n ∧ n < 4 then { t with activeCharset := n } else t

/-- `configureCharsetInternal(index, charset)`. -/
def configureCharsetInternal (t : Term) (index : Int) (cs : Charset) : Term :=
  if 0 ≤ index ∧ index ≤ 3 then
    { t with charsets := t.charsets.set index.toNat cs }
  else t

/-- `setModeLocked(mode, set)`: map the incoming mode to the internal flag;
side effects for `Origin`, `ShowCursor` and the 1049 screen swap. -/
def setModeLocked (t : Term) (mode : AnsiMode) (set : Bool) : Term :=
  match mode with
  | AnsiMode.cursorKeys => { t with modes := { t.modes with cursorKeys := set } }
  | AnsiMode.columnMode => { t with modes := { t.modes with columnMode := set } }
  | AnsiMode.insert => { t with modes := { t.modes with insert := set } }
  | AnsiMode.origin =>
      let t := if set then
          { t with cursor := { t.cursor with row := t.scrollTop, col := 0 } }
        else t
      { t with modes := { t.modes with origin := set } }
  | AnsiMode.lineWrap => { t with modes := { t.modes with lineWrap := set } }
  | AnsiMode.blinkingCursor => { t with modes := { t.modes with blinkingCursor := set } }
  | AnsiMode.lineFeedNewLine => { t with modes := { t.modes with lineFeedNewLine := set } }
  | AnsiMode.showCursor =>
      { t with cursor := { t.cursor with visible := set }
               modes := { t.modes with showCursor := set } }
  | AnsiMode.reportMouseClicks => { t with modes := { t.modes with reportMouseClicks := set } }
  | AnsiMode.reportCellMouseMotion =>
      { t with modes := { t.modes with reportCellMouseMotion := set } }
  | AnsiMode.reportAllMouseMotion =>
      { t with modes := { t.modes with reportAllMouseMotion := set } }
  | AnsiMode.reportFocusInOut => { t with modes := { t.modes with reportFocusInOut := set } }
  | AnsiMode.utf8Mouse => { t with modes := { t.modes with utf8Mouse := set } }
  | AnsiMode.sgrMouse => { t with modes := { t.modes with sgrMouse := set } }
  | AnsiMode.alternateScroll => { t with modes := { t.modes with alternateScroll := set } }
  | AnsiMode.urgencyHints => { t with modes := { t.modes with urgencyHints := set } }
  | AnsiMode.swapScreenAndSetRestoreCursor =>
      let t :=
        if set then
          let t := t.saveCursorPositionLocked
          let t := { t with altActive := true }
          t.setActiveBuf ((t.activeBuf).clearAll)
        else
          let t := { t with altActive := false }
          t.restoreCursorPositionLocked
      { t with modes := { t.modes with swapScreen := set } }
  | AnsiMode.bracketedPaste => { t with modes := { t.modes with bracketedPaste := set } }
  | AnsiMode.other => t

/-- `setScrollingRegionInternal(top, bottom)` (1-based arguments). -/
def setScrollingRegionInternal (t : Term) (top bottom : Int) : Term :=
  let top := top - 1
  let bottom := bottom - 1
  let top := if top < 0 then 0 else top
  let bottom := if bottom ≤ 0 ∨ t.rows < bottom then t.rows else bottom
  if bottom ≤ top then t
  else
    let t := { t with scrollTop := top, scrollBottom := bottom }
    { t with cursor := { t.cursor with
        row := if t.modes.origin then t.scrollTop else 0
        col := 0 } }

/-- `setTerminalCharAttributeInternal(attr)`: SGR edits to the template.
`resolveColor` is folded in: a `some` payload is the resolved color, `none`
resolves to the named default for the attribute. -/
def setTerminalCharAttributeInternal (t : Term) (attr : CharAttr) : Term :=
  let tmplSet := fun (f : Nat) => { t with template := t.template.setFlag f }
  let tmplClear := fun (f : Nat) => { t with template := t.template.clearFlag f }
  match attr with
  | CharAttr.reset => { t with template := Cell.new }
  | CharAttr.bold => tmplSet CellFlagBold
  | CharAttr.dim => tmplSet CellFlagDim
  | CharAttr.italic => tmplSet CellFlagItalic
  | CharAttr.underline =>
      let f := (CellFlagDoubleUnderline ||| CellFlagCurlyUnderline |||
        CellFlagDottedUnderline ||| CellFlagDashedUnderline)
      { t with template := (t.template.setFlag CellFlagUnderline).clearFlag f }
  | CharAttr.doubleUnderline =>
      let f := (CellFlagUnderline ||| CellFlagCurlyUnderline |||
        CellFlagDottedUnderline ||| CellFlagDashedUnderline)
      { t with template := (t.template.setFlag CellFlagDoubleUnderline).clearFlag f }
  | CharAttr.curlyUnderline =>
      let f := (CellFlagUnderline ||| CellFlagDoubleUnderline |||
        CellFlagDottedUnderline ||| CellFlagDashedUnderline)
      { t with template := (t.template.setFlag CellFlagCurlyUnderline).clearFlag f }
  | CharAttr.dottedUnderline =>
      let f := (CellFlagUnderline ||| CellFlagDoubleUnderline |||
        CellFlagCurlyUnderline ||| CellFlagDashedUnderline)
      { t with template := (t.template.setFlag CellFlagDottedUnderline).clearFlag f }
  | CharAttr.dashedUnderline =>
      let f := (CellFlagUnderline ||| CellFlagDoubleUnderline |||
        CellFlagCurlyUnderline ||| CellFlagDottedUnderline)
      { t with template := (t.template.setFlag CellFlagDashedUnderline).clearFlag f }
  | CharAttr.blinkSlow => tmplSet CellFlagBlinkSlow
  | CharAttr.blinkFast => tmplSet CellFlagBlinkFast
  | CharAttr.reverse => tmplSet CellFlagReverse
  | CharAttr.hidden => tmplSet CellFlagHidden
  | CharAttr.strike => tmplSet CellFlagStrike
  | CharAttr.cancelBold => tmplClear CellFlagBold
  | CharAttr.cancelBoldDim => tmplClear (CellFlagBold ||| CellFlagDim)
  | CharAttr.cancelItalic => tmplClear CellFlagItalic
  | CharAttr.cancelUnderline =>
      tmplClear (CellFlagUnderline ||| CellFlagDoubleUnderline |||
        CellFlagCurlyUnderline ||| CellFlagDottedUnderline ||| CellFlagDashedUnderline)
  | CharAttr.cancelBlink => tmplClear (CellFlagBlinkSlow ||| CellFlagBlinkFast)
  | CharAttr.cancelReverse => tmplClear CellFlagReverse
  | CharAttr.cancelHidden => tmplClear CellFlagHidden
  | CharAttr.cancelStrike => tmplClear CellFlagStrike
  | CharAttr.foreground c =>
      { t with template := { t.template with
          fg := some (c.getD (Color.named NamedColorForeground)) } }
  | CharAttr.background c =>
      { t with template := { t.template with
          bg := some (c.getD (Color.named NamedColorBackground)) } }
  | CharAttr.underlineColor c =>
      { t with template := { t.template with underlineColor := c } }

/-- `substituteInternal`: `Char = '?'` at the cursor (no dirty marking in
the source). -/
def substituteInternal (t : Term) : Term :=
  if ((t.activeBuf).cellAt t.cursor.row t.cursor.col).isSome then
    t.setActiveBuf ((t.activeBuf).modifyCell t.cursor.row t.cursor.col
      (fun c => { c with char := 63 }))
  else t

/-- `decalnInternal` (DECALN). -/
def decalnInternal (t : Term) : Term := t.setActiveBuf ((t.activeBuf).fillWithE)

/-- `setHyperlinkInternal`. -/
def setHyperlinkInternal (t : Term) (h : Option Hyperlink) : Term :=
  { t with currentHyperlink := h }

/-- `setTitleInternal`. -/
def setTitleInternal (t : Term) (s : String) : Term := { t with title := s }

/-- `pushTitleInternal`. -/
def pushTitleInternal (t : Term) : Term :=
  { t with titleStack := t.titleStack ++ [t.title] }

/-- `popTitleInternal`. -/
def popTitleInternal (t : Term) : Term :=
  match t.titleStack.getLast? with
  | some s => { t with title := s, titleStack := t.titleStack.dropLast }
  | none => t

/-- `pushKeyboardModeInternal`. -/
def pushKeyboardModeInternal (t : Term) (mode : Nat) : Term :=
  { t with keyboardModes := t.keyboardModes ++ [mode] }

/-- `popKeyboardModeInternal(n)`: pop up to `n` entries. -/
def popKeyboardModeInternal (t : Term) (n : Int) : Term :=
  let keep := t.keyboardModes.length - min (max n 0).toNat t.keyboardModes.length
  { t with keyboardModes := t.keyboardModes.take keep }

/-- `ansicode.KeyboardModeBehavior`. -/
inductive KBehavior where
  | replace | union | difference
deriving Repr, DecidableEq

/-- `setKeyboardModeInternal(mode, behavior)`: edit the stack top (a fresh
entry when the stack is empty); `x &^ y = x &&& (x ^^^ y)` on bitmasks. -/
def setKeyboardModeInternal (t : Term) (mode : Nat) (behavior : KBehavior) : Term :=
  let currentMode := (t.keyboardModes.getLast?).getD 0
  let newMode : Nat :=
    match behavior with
    | KBehavior.replace => mode
    | KBehavior.union => currentMode ||| mode
    | KBehavior.difference => currentMode &&& (currentMode ^^^ mode)
  if t.keyboardModes.length = 0 then { t with keyboardModes := [newMode] }
  else { t with keyboardModes := t.keyboardModes.dropLast ++ [newMode] }

/-- `setModifyOtherKeysInternal`. -/
def setModifyOtherKeysInternal (t : Term) (modify : Int) : Term :=
  { t with modifyOtherKeys := modify }

/-- `setCursorStyleInternal`. -/
def setCursorStyleInternal (t : Term) (style : Int) : Term :=
  { t with cursor := { t.cursor with style := style } }

/-- `setColorInternal(index, c)`. -/
def setColorInternal (t : Term) (index : Int) (c : Color) : Term :=
  { t with colors := ImageManager.insert t.colors index c }

/-- `resetColorInternal(i)`. -/
def resetColorInternal (t : Term) (i : Int) : Term :=
  { t with colors := ImageManager.erase t.colors i }

/-- `setWorkingDirectoryInternal`. -/
def setWorkingDirectoryInternal (t : Term) (uri : String) : Term :=
  { t with workingDir := uri }

/-- `setKeypadApplicationModeInternal` / `unsetKeypadApplicationModeInternal`. -/
def setKeypadApplicationModeInternal (t : Term) (set : Bool) : Term :=
  { t with modes := { t.modes with keypadApplication := set } }

/-- `shellIntegrationMarkInternal(mark, exitCode)`: record the mark at the
absolute row `cursor.Row + primary scrollback length`. -/
def shellIntegrationMarkInternal (t : Term) (mark : MarkType) (exitCode : Int) : Term :=
  let absoluteRow := t.cursor.row + t.primary.scrollbackLen
  { t with promptMarks := t.promptMarks ++
      [{ type := mark, row := absoluteRow, exitCode := exitCode }] }

/-! ### Graphics handlers (handler.go: Kitty and Sixel paths)

The APC `G…` parse, base64, and RGBA/RGB/PNG decode layers are external to
the handler logic embedded here; handler constructors carry their outputs
(`decoded` stands for the result of `cmd.DecodeImageData()` on the complete
payload).  Universally quantifying over those outputs covers every actual
outcome of the external layers. -/

/-- `getCellSizePixels` for provider values `(pw, ph)` (a `nil` provider
reports non-positive values here): positive provider values, else 10×20. -/
def getCellSizePixels (pw ph : Int) : Int × Int :=
  if 0 < pw ∧ 0 < ph then (pw, ph) else (10, 20)

/-- `assignImageToCells`: stamp a `CellImage` reference and dirty-mark every
in-bounds cell covered by the placement (UV computation omitted with the
`float32` fields). -/
def assignImageToCells (t : Term) (imageID placementID : Nat) (p : ImagePlacement) :
    Term :=
  (List.range (max p.rows 0).toNat).foldl (fun t i =>
    (List.range (max p.cols 0).toNat).foldl (fun t j =>
      let cellRow := p.row + (i : Int)
      let cellCol := p.col + (j : Int)
      if cellRow < 0 ∨ t.rows ≤ cellRow ∨ cellCol < 0 ∨ t.cols ≤ cellCol then t
      else
        let ref : CellImageRef :=
          { placementID := placementID, imageID := imageID, zIndex := p.zIndex }
        let b := (t.activeBuf).modifyCell cellRow cellCol (fun c =>
          Cell.markDirty { c with image := some ref })
        t.setActiveBuf { b with hasDirty := true }) t) t

/-- uint32 subtraction `a - b` (wraps modulo 2^32, as in the source's
`img.Width - cmd.SrcX`). -/
def u32sub (a b : Nat) : Nat := (a + 4294967296 - b % 4294967296) % 4294967296

/-- `kittyTransmit(cmd)`: accumulate chunks; on the final chunk decode and
store (`StoreWithID` when the command carries an id, `Store` otherwise).
Returns the possibly-updated `cmd.ImageID`. -/
def kittyTransmit (t : Term) (more : Bool) (imageID : Nat) (payload : List Nat)
    (decoded : Option (Nat × Nat × List Nat)) (now : Nat) : Nat × Term :=
  if more then
    (imageID, { t with images := { t.images with
        accumulator := t.images.accumulator ++ payload
        accumulatorID := imageID
        accumulatorMore := true } })
  else
    let t :=
      if t.images.accumulatorMore then
        { t with images := { t.images with accumulator := [], accumulatorMore := false } }
      else t
    match decoded with
    | none => (imageID, t)    -- decode error or zero dimensions: ENODATA response only
    | some (width, height, rgba) =>
        if width = 0 ∨ height = 0 then (imageID, t)
        else if 0 < imageID then
          (imageID, { t with images := t.images.storeWithID imageID width height rgba now })
        else
          let r := t.images.store width height rgba now
          (r.1, { t with images := r.2 })

/-- `kittyDisplay(cmd)`: look up the image (refreshing its access time as
`ImageManager.Image` does), derive the source region and cell coverage,
place at the cursor, stamp cells, advance the cursor unless suppressed. -/
def kittyDisplay (t : Term) (info : KittyInfo) (pw ph : Int) (now : Nat) : Term :=
  match ImageManager.lookup t.images.images info.imageID with
  | none => t    -- ENOENT response only
  | some img =>
      let t := { t with images := { t.images with
        images := ImageManager.insert t.images.images info.imageID
          { img with accessedAt := now } } }
      let cell := getCellSizePixels pw ph
      let cellW := cell.1
      let cellH := cell.2
      let srcW := if info.srcW = 0 then u32sub img.width info.srcX else info.srcW
      let srcH := if info.srcH = 0 then u32sub img.height info.srcY else info.srcH
      let cols : Int := if info.cols = 0
        then (((srcW : Int) + cellW - 1) / cellW) else (info.cols : Int)
      let rows : Int := if info.rows = 0
        then (((srcH : Int) + cellH - 1) / cellH) else (info.rows : Int)
      let placement : ImagePlacement :=
        { id := 0, imageID := info.imageID, row := t.cursor.row, col := t.cursor.col
          cols := cols, rows := rows, srcX := info.srcX, srcY := info.srcY
          srcW := srcW, srcH := srcH, zIndex := info.zIndex
          offsetX := info.offsetX, offsetY := info.offsetY }
      let r := t.images.place placement
      let t := { t with images := r.2 }
      let t := assignImageToCells t info.imageID r.1 placement
      if info.doNotMoveCursor then t
      else
        let t := { t with cursor := { t.cursor with col := t.cursor.col + cols } }
        if t.cols ≤ t.cursor.col then
          let t := { t with cursor := { t.cursor with col := 0, row := t.cursor.row + 1 } }
          if t.rows ≤ t.cursor.row then
            { t with cursor := { t.cursor with row := t.rows - 1 } }
          else t
        else t

/-- `kittyDelete(cmd)`. -/
def kittyDelete (t : Term) (kind : KittyDeleteKind) : Term :=
  match kind with
  | KittyDeleteKind.all => { t with images := t.images.clear }
  | KittyDeleteKind.byID withData imageID =>
      let t := { t with images := t.images.removePlacementsForImage imageID }
      if withData then { t with images := t.images.deleteImage imageID } else t
  | KittyDeleteKind.atCursor =>
      { t with images := t.images.deletePlacementsByPosition t.cursor.row t.cursor.col }
  | KittyDeleteKind.byCol =>
      { t with images := t.images.deletePlacementsInColumn t.cursor.col }
  | KittyDeleteKind.byRow =>
      { t with images := t.images.deletePlacementsInRow t.cursor.row }
  | KittyDeleteKind.byZIndex z =>
      { t with images := t.images.deletePlacementsByZIndex z }

/-- `sixelReceivedInternal`: `img` is the `ParseSixel` outcome (`none` for a
parse error); store, place at the cursor with z-index 0, stamp cells, move
the cursor down by the covered rows and clamp to the last row. -/
def sixelReceivedInternal (t : Term) (img : Option (Nat × Nat × List Nat))
    (pw ph : Int) (now : Nat) : Term :=
  match img with
  | none => t
  | some (width, height, data) =>
      if width = 0 ∨ height = 0 then t
      else
        let r := t.images.store width height data now
        let imageID := r.1
        let t := { t with images := r.2 }
        let cell := getCellSizePixels pw ph
        let cols : Int := ((width : Int) + cell.1 - 1) / cell.1
        let rows : Int := ((height : Int) + cell.2 - 1) / cell.2
        let placement : ImagePlacement :=
          { id := 0, imageID := imageID, row := t.cursor.row, col := t.cursor.col
            cols := cols, rows := rows, srcX := 0, srcY := 0
            srcW := width, srcH := height, zIndex := 0, offsetX := 0, offsetY := 0 }
        let pr := t.images.place placement
        let t := { t with images := pr.2 }
        let t := assignImageToCells t imageID pr.1 placement
        let t := { t with cursor := { t.cursor with row := t.cursor.row + rows } }
        if t.rows ≤ t.cursor.row then
          { t with cursor := { t.cursor with row := t.rows - 1 } }
        else t

/-! ### Library mutators (terminal.go) -/

/-- `Terminal.Resize(rows, cols)`: shrink-time scrollback push when the
cursor would be pushed off the primary screen, grid resize of both buffers,
cursor clamp, scroll-region reset. -/
def resize (t : Term) (rows cols : Int) : Term :=
  if rows ≤ 0 ∨ cols ≤ 0 then t
  else
    let oldRows := t.rows
    let t : Term :=
      if rows < oldRows ∧ ¬ t.altActive then
        let linesToScroll := oldRows - rows
        if rows ≤ t.cursor.row then
          let t : Term := { t with primary := (t.primary.scrollUp 0 oldRows linesToScroll).1 }
          let newRow := t.cursor.row - linesToScroll
          { t with cursor := { t.cursor with row := if newRow < 0 then 0 else newRow } }
        else t
      else t
    let t : Term :=
      { t with rows := rows, cols := cols
               primary := t.primary.resize rows cols
               alternate := t.alternate.resize rows cols }
    let t : Term := if t.rows ≤ t.cursor.row then
        { t with cursor := { t.cursor with row := t.rows - 1 } } else t
    let t : Term := if t.cursor.row < 0 then
        { t with cursor := { t.cursor with row := 0 } } else t
    let t : Term := if t.cols ≤ t.cursor.col then
        { t with cursor := { t.cursor with col := t.cols - 1 } } else t
    let t : Term := if t.cursor.col < 0 then
        { t with cursor := { t.cursor with col := 0 } } else t
    { t with scrollTop := 0, scrollBottom := rows }

/-- `SetSelection(start, end)`: normalize so start is not after end. -/
def setSelection (t : Term) (start stop : Position) : Term :=
  let p := if stop.before start then (stop, start) else (start, stop)
  { t with selection := { start := p.1, stop := p.2, active := true } }

/-- `ClearSelection`. -/
def clearSelection (t : Term) : Term :=
  { t with selection := { t.selection with active := false } }

/-! ### Shell-integration queries (shell_integration.go) -/

/-- `cellsToString(cells)`: trailing blanks trimmed, wide spacers skipped,
`Char = 0` rendered as a space (rune list). -/
def cellsToString (cells : List Cell) : List Nat :=
  let isTextCell := fun (c : Cell) => c.char ≠ 32 ∧ c.char ≠ 0 ∧ ¬ c.isWideSpacer
  match (cells.reverse).findIdx? (fun c => isTextCell c) with
  | none => []
  | some k =>
      let upto := cells.take (cells.length - k)
      (upto.filter (fun c => ¬ c.isWideSpacer)).map
        (fun c => if c.char = 0 then 32 else c.char)

/-- One absolute row of `extractTextBetweenRows`: scrollback rows decode via
`cellsToString`, visible rows via the active buffer's `LineContent`. -/
def extractRow (t : Term) (absRow : Int) : List Nat :=
  let scrollbackLen := t.primary.scrollbackLen
  if absRow < scrollbackLen then
    match t.primary.scrollbackLine absRow with
    | some line => cellsToString line
    | none => []
  else
    let bufferRow := absRow - scrollbackLen
    if 0 ≤ bufferRow ∧ bufferRow < t.rows then (t.activeBuf).lineContent bufferRow
    else []

/-- Join rune-list lines with `'\n'`. -/
def joinLines : List (List Nat) → List Nat
  | [] => []
  | [l] => l
  | l :: ls => l ++ 10 :: joinLines ls

/-- `extractTextBetweenRows(startRow, endRow)`: rows `[startRow, endRow)`,
joined with newlines after trimming trailing empty lines. -/
def extractTextBetweenRows (t : Term) (startRow endRow : Int) : List Nat :=
  let lines := (List.range (endRow - startRow).toNat).map
    (fun i => extractRow t (startRow + (i : Int)))
  match (lines.reverse).findIdx? (fun l => ¬ l = []) with
  | none => []
  | some k => joinLines (lines.take (lines.length - k))

/-- The backward scan of `GetLastCommandOutput`: walk the marks from the
latest to the oldest carrying the most recent unmatched `CommandFinished`
and `CommandExecuted`; the moment both are held, accept them when the
executed row is strictly below the finished row, else discard both and
continue. -/
def scanPair : List PromptMark → Option PromptMark → Option PromptMark →
    Option (PromptMark × PromptMark)
  | [], optF, optE =>
      -- the source extracts whenever both survive to the end of the scan
      match optF, optE with
      | some f, some e => some (e, f)
      | _, _ => none
  | mark :: rest, optF, optE =>
      -- `rest` here is the *earlier* part of the reversed list
      let optF := if optF.isNone ∧ mark.type = MarkType.commandFinished
        then some mark else optF
      let optE := if optE.isNone ∧ mark.type = MarkType.commandExecuted
        then some mark else optE
      match optF, optE with
      | some f, some e =>
          if e.row < f.row then some (e, f)
          else scanPair rest none none
      | f, e => scanPair rest f e

/-- `GetLastCommandOutput()`. -/
def getLastCommandOutput (t : Term) : List Nat :=
  if t.promptMarks.length = 0 then []
  else
    match scanPair t.promptMarks.reverse none none with
    | none => []
    | some (e, f) => extractTextBetweenRows t e.row f.row

/-! ### The handler step relation

`HCall` enumerates every VT handler entry point implemented in handler.go
(and `ShellIntegrationMark` from shell_integration.go), one constructor per
internal implementation, carrying the handler's arguments.  Handlers whose
implementation only reads state to emit a response or to call an external
provider (`Bell`, `DeviceStatus`, `IdentifyTerminal`, `SetDynamicColor`,
clipboard load/store, `ReportKeyboardMode`, `ReportModifyOtherKeys`,
`TextAreaSize{Chars,Pixels}`, `CellSizePixels`, APC/PM/SOS forwarding)
change no terminal state and are grouped under `responseOnly`.  Middleware
is absent (`nil`), so each public wrapper is its internal implementation. -/
inductive HCall where
  | input (r width : Nat)
  | responseOnly
  | backspace
  | carriageReturn
  | lineFeed
  | tab (n : Int)
  | horizontalTabSet
  | clearLine (m : LineClearMode)
  | clearScreen (m : ClearMode)
  | clearTabs (m : TabClearMode)
  | goto (row col : Int)
  | gotoLine (row : Int)
  | gotoCol (col : Int)
  | moveUp (n : Int)
  | moveDown (n : Int)
  | moveForward (n : Int)
  | moveBackward (n : Int)
  | moveUpCr (n : Int)
  | moveDownCr (n : Int)
  | moveForwardTabs (n : Int)
  | moveBackwardTabs (n : Int)
  | insertBlank (n : Int)
  | insertBlankLines (n : Int)
  | deleteChars (n : Int)
  | deleteLines (n : Int)
  | eraseChars (n : Int)
  | scrollUp (n : Int)
  | scrollDown (n : Int)
  | setScrollingRegion (top bottom : Int)
  | setMode (m : AnsiMode)
  | unsetMode (m : AnsiMode)
  | setCharAttribute (a : CharAttr)
  | saveCursorPosition
  | restoreCursorPosition
  | reverseIndex
  | resetState
  | substitute
  | decaln
  | configureCharset (index : Int) (cs : Charset)
  | setActiveCharset (n : Int)
  | setKeypadApplicationMode
  | unsetKeypadApplicationMode
  | setColor (index : Int) (c : Color)
  | resetColor (index : Int)
  | setHyperlink (h : Option Hyperlink)
  | setTitle (s : String)
  | pushTitle
  | popTitle
  | pushKeyboardMode (mode : Nat)
  | popKeyboardMode (n : Int)
  | setKeyboardMode (mode : Nat) (behavior : KBehavior)
  | setModifyOtherKeys (modify : Int)
  | setCursorStyle (style : Int)
  | shellIntegrationMark (mark : MarkType) (exitCode : Int)
  | setWorkingDirectory (uri : String)
  | sixelReceived (img : Option (Nat × Nat × List Nat)) (pw ph : Int) (now : Nat)
  | kittyTransmit (more : Bool) (imageID : Nat) (payload : List Nat)
      (decoded : Option (Nat × Nat × List Nat)) (now : Nat)
  | kittyTransmitDisplay (more : Bool) (payload : List Nat)
      (decoded : Option (Nat × Nat × List Nat)) (info : KittyInfo) (pw ph : Int) (now : Nat)
  | kittyDisplay (info : KittyInfo) (pw ph : Int) (now : Nat)
  | kittyDelete (kind : KittyDeleteKind)
  | kittyQuery
deriving Repr

/-- One handler call: dispatch to the internal implementation. -/
def step (t : Term) (c : HCall) : Term :=
  match c with
  | HCall.input r width => t.inputInternal r width
  | HCall.responseOnly => t
  | HCall.backspace => t.backspaceInternal
  | HCall.carriageReturn => t.carriageReturnInternal
  | HCall.lineFeed => t.lineFeedInternal
  | HCall.tab n => t.tabInternal n
  | HCall.horizontalTabSet => t.horizontalTabSetInternal
  | HCall.clearLine m => t.clearLineInternal m
  | HCall.clearScreen m => t.clearScreenInternal m
  | HCall.clearTabs m => t.clearTabsInternal m
  | HCall.goto row col => t.gotoInternal row col
  | HCall.gotoLine row => t.gotoLineInternal row
  | HCall.gotoCol col => t.gotoColInternal col
  | HCall.moveUp n => t.moveUpInternal n
  | HCall.moveDown n => t.moveDownInternal n
  | HCall.moveForward n => t.moveForwardInternal n
  | HCall.moveBackward n => t.moveBackwardInternal n
  | HCall.moveUpCr n => t.moveUpCrInternal n
  | HCall.moveDownCr n => t.moveDownCrInternal n
  | HCall.moveForwardTabs n => t.tabInternal n
  | HCall.moveBackwardTabs n => t.moveBackwardTabsInternal n
  | HCall.insertBlank n => t.insertBlankInternal n
  | HCall.insertBlankLines n => t.insertBlankLinesInternal n
  | HCall.deleteChars n => t.deleteCharsInternal n
  | HCall.deleteLines n => t.deleteLinesInternal n
  | HCall.eraseChars n => t.eraseCharsInternal n
  | HCall.scrollUp n => t.scrollUpInternal n
  | HCall.scrollDown n => t.scrollDownInternal n
  | HCall.setScrollingRegion top bottom => t.setScrollingRegionInternal top bottom
  | HCall.setMode m => t.setModeLocked m true
  | HCall.unsetMode m => t.setModeLocked m false
  | HCall.setCharAttribute a => t.setTerminalCharAttributeInternal a
  | HCall.saveCursorPosition => t.saveCursorPositionLocked
  | HCall.restoreCursorPosition => t.restoreCursorPositionLocked
  | HCall.reverseIndex => t.reverseIndexInternal
  | HCall.resetState => t.resetStateInternal
  | HCall.substitute => t.substituteInternal
  | HCall.decaln => t.decalnInternal
  | HCall.configureCharset index cs => t.configureCharsetInternal index cs
  | HCall.setActiveCharset n => t.setActiveCharsetInternal n
  | HCall.setKeypadApplicationMode => t.setKeypadApplicationModeInternal true
  | HCall.unsetKeypadApplicationMode => t.setKeypadApplicationModeInternal false
  | HCall.setColor index c => t.setColorInternal index c
  | HCall.resetColor index => t.resetColorInternal index
  | HCall.setHyperlink h => t.setHyperlinkInternal h
  | HCall.setTitle s => t.setTitleInternal s
  | HCall.pushTitle => t.pushTitleInternal
  | HCall.popTitle => t.popTitleInternal
  | HCall.pushKeyboardMode mode => t.pushKeyboardModeInternal mode
  | HCall.popKeyboardMode n => t.popKeyboardModeInternal n
  | HCall.setKeyboardMode mode behavior => t.setKeyboardModeInternal mode behavior
  | HCall.setModifyOtherKeys modify => t.setModifyOtherKeysInternal modify
  | HCall.setCursorStyle style => t.setCursorStyleInternal style
  | HCall.shellIntegrationMark mark exitCode => t.shellIntegrationMarkInternal mark exitCode
  | HCall.setWorkingDirectory uri => t.setWorkingDirectoryInternal uri
  | HCall.sixelReceived img pw ph now => t.sixelReceivedInternal img pw ph now
  | HCall.kittyTransmit more imageID payload decoded now =>
      (t.kittyTransmit more imageID payload decoded now).2
  | HCall.kittyTransmitDisplay more payload decoded info pw ph now =>
      let r := t.kittyTransmit more info.imageID payload decoded now
      if more then r.2
      else (r.2).kittyDisplay { info with imageID := r.1 } pw ph now
  | HCall.kittyDisplay info pw ph now => t.kittyDisplay info pw ph now
  | HCall.kittyDelete kind => t.kittyDelete kind
  | HCall.kittyQuery => t

end Term

/-! ## Well-formedness -/

/-- Structural well-formedness of a buffer: list lengths agree with the
declared dimensions (rows of differing width arise only under auto-resize
growth and are excluded where a claim needs a regular grid). -/
def Buffer.WF (b : Buffer) : Prop :=
  0 ≤ b.rows ∧ 0 ≤ b.cols ∧
  b.cells.length = b.rows.toNat ∧
  (∀ row ∈ b.cells, row.length = b.cols.toNat) ∧
  b.wrapped.length = b.rows.toNat ∧
  b.tabStop.length = b.cols.toNat

/-! ## Claims -/

namespace Claims

open Term

/-- `Position.before` decides strict row-major order. -/
theorem before_iff (p q : Position) :
    p.before q = true ↔ (p.row < q.row ∨ (p.row = q.row ∧ p.col < q.col)) := by
  unfold Position.before
  split_ifs with h1 h2 <;> simp_all

/-- The selection stored by `SetSelection`. -/
theorem setSelection_selection (t : Term) (a b : Position) :
    (Term.setSelection t a b).selection =
      if b.before a then ⟨b, a, true⟩ else ⟨a, b, true⟩ := by
  unfold Term.setSelection
  split_ifs <;> rfl

/-- Row-major order on positions is trichotomous. -/
theorem before_trichotomy (a b : Position) :
    a.before b = true ∨ b.before a = true ∨ a = b := by
  obtain ⟨ar, ac⟩ := a
  obtain ⟨br, bc⟩ := b
  by_cases h : ar < br ∨ (ar = br ∧ ac < bc)
  · left; rw [before_iff]; exact h
  · by_cases h' : br < ar ∨ (br = ar ∧ bc < ac)
    · right; left; rw [before_iff]; exact h'
    · right; right
      have : ar = br ∧ ac = bc := by constructor <;> omega
      simp [this.1, this.2]

/-- **C10.** For every pair of positions `a` and `b`, `SetSelection(a, b)`
and `SetSelection(b, a)` produce the same active selection, whose `Start`
position is before or equal to its `End` position in row-major order. -/
theorem setSelection_symmetric_normalized (t : Term) (a b : Position) :
    (Term.setSelection t a b).selection = (Term.setSelection t b a).selection ∧
    (Term.setSelection t a b).selection.active = true ∧
    ((Term.setSelection t a b).selection.start.before
        (Term.setSelection t a b).selection.stop = true ∨
      (Term.setSelection t a b).selection.start =
        (Term.setSelection t a b).selection.stop) := by
  rw [setSelection_selection, setSelection_selection]
  rcases before_trichotomy a b with h | h | h
  · have h' : b.before a = false := by
      rw [Bool.eq_false_iff]
      intro hb
      rw [before_iff] at h hb
      obtain ⟨ar, ac⟩ := a
      obtain ⟨br, bc⟩ := b
      simp only at h hb
      omega
    simp [h, h']
  · have h' : a.before b = false := by
      rw [Bool.eq_false_iff]
      intro hb
      rw [before_iff] at h hb
      obtain ⟨ar, ac⟩ := a
      obtain ⟨br, bc⟩ := b
      simp only at h hb
      omega
    simp [h, h']
  · subst h
    by_cases haa : a.before a = true <;> simp [haa]

/-- Normal form of `setScrollingRegionInternal` with the lets expanded. -/
theorem setScrollingRegionInternal_eq (t : Term) (top bottom : Int) :
    t.setScrollingRegionInternal top bottom =
      (if (if bottom - 1 ≤ 0 ∨ t.rows < bottom - 1 then t.rows else bottom - 1) ≤
          (if top - 1 < 0 then 0 else top - 1) then t
       else
         { t with
            scrollTop := (if top - 1 < 0 then 0 else top - 1)
            scrollBottom := (if bottom - 1 ≤ 0 ∨ t.rows < bottom - 1 then t.rows
              else bottom - 1)
            cursor := { t.cursor with
              row := if t.modes.origin then (if top - 1 < 0 then 0 else top - 1) else 0
              col := 0 } }) := rfl

/-- **C9.** `SetScrollingRegion(top, bottom)` takes 1-based arguments,
converts both to 0-based with `bottom` exclusive, clamps `top` to `≥ 0` and
`bottom` into `(0, rows]`; a resulting `top ≥ bottom` changes nothing;
otherwise the region is set and the cursor moves to `(scroll_top, 0)` under
origin mode and to `(0, 0)` otherwise. -/
theorem setScrollingRegion_spec (t : Term) (top bottom : Int) (hrows : 1 ≤ t.rows) :
    let tp := max (top - 1) 0
    let bt := if bottom - 1 ≤ 0 ∨ t.rows < bottom - 1 then t.rows else bottom - 1
    (0 ≤ tp ∧ 0 < bt ∧ bt ≤ t.rows) ∧
    (bt ≤ tp → t.setScrollingRegionInternal top bottom = t) ∧
    (tp < bt → t.setScrollingRegionInternal top bottom =
      { t with scrollTop := tp, scrollBottom := bt
               cursor := { t.cursor with
                 row := if t.modes.origin then tp else 0, col := 0 } }) := by
  intro tp bt
  have htp : tp = if top - 1 < 0 then 0 else top - 1 := by
    simp only [tp, Int.max_def]
    split_ifs <;> omega
  have hbt : bt = if bottom - 1 ≤ 0 ∨ t.rows < bottom - 1 then t.rows else bottom - 1 :=
    rfl
  refine ⟨⟨?_, ?_, ?_⟩, ?_, ?_⟩
  · rw [htp]; split_ifs <;> omega
  · rw [hbt]; split_ifs <;> omega
  · rw [hbt]; split_ifs <;> omega
  · intro h
    rw [setScrollingRegionInternal_eq, ← htp, ← hbt, if_pos h]
  · intro h
    rw [setScrollingRegionInternal_eq, ← htp, ← hbt, if_neg (by omega)]

/-- A 2×2 terminal holding one stored image and one placement (the setup of
`TestAlternateScreenClearsImages`, shrunk). -/
def c1Start : Term :=
  let t := Term.new 2 2 0
  let r := t.images.store 1 1 [255] 0
  let pr := r.2.place
    { id := 0, imageID := r.1, row := 0, col := 0, cols := 1, rows := 1
      srcX := 0, srcY := 0, srcW := 1, srcH := 1, zIndex := 0
      offsetX := 0, offsetY := 0 }
  { t with images := pr.2 }

/-- `c1Start` after CSI ?1049h. -/
def c1AfterSet : Term :=
  Term.step c1Start (Term.HCall.setMode AnsiMode.swapScreenAndSetRestoreCursor)

/-- `c1AfterSet` after CSI ?1049l. -/
def c1AfterUnset : Term :=
  Term.step c1AfterSet (Term.HCall.unsetMode AnsiMode.swapScreenAndSetRestoreCursor)

/-- **C1.** The spec (and the repository's own `TestAlternateScreenClearsImages`)
require that setting mode 1049 clears every placement while retaining image
data, and that unsetting it clears every placement again.  The code's
`setModeLocked` does neither: it saves the cursor, switches to the cleared
alternate buffer, and leaves the image store — placements included —
entirely untouched; the inverse switch also leaves the store untouched.
Evaluated at the failing input: one placement before, one placement (not
zero) after the switch, and again after switching back. -/
theorem swapScreen_leaves_placements :
    c1Start.images.placementCount = 1 ∧
    c1AfterSet.altActive = true ∧ c1AfterSet.images = c1Start.images ∧
    c1AfterSet.images.placementCount = 1 ∧
    c1AfterUnset.altActive = false ∧ c1AfterUnset.images = c1Start.images ∧
    c1AfterUnset.images.placementCount = 1 := by
  refine ⟨rfl, rfl, rfl, rfl, rfl, rfl, rfl⟩

/-- Cons equation for association-list lookup. -/
theorem lookup_cons {α β : Type} [DecidableEq α] (p : α × β) (ps : List (α × β))
    (k : α) :
    ImageManager.lookup (p :: ps) k = if p.1 = k then some p.2
      else ImageManager.lookup ps k := by
  unfold ImageManager.lookup
  by_cases hp : p.1 = k <;> simp [List.find?_cons, hp]

/-- Lookup right after an insert finds the inserted value. -/
theorem lookup_insert_self {α β : Type} [DecidableEq α]
    (l : List (α × β)) (k : α) (v : β) :
    ImageManager.lookup (ImageManager.insert l k v) k = some v := by
  unfold ImageManager.insert
  split_ifs with h
  · induction l with
    | nil => simp at h
    | cons p ps ih =>
        by_cases hp : p.1 = k
        · simp [List.map_cons, hp, lookup_cons]
        · have h' : (ps.find? (fun q => q.1 = k)).isSome := by
            simpa [List.find?_cons, hp] using h
          simp only [List.map_cons, if_neg hp, lookup_cons, hp, if_false]
          exact ih h'
  · induction l with
    | nil => simp [lookup_cons]
    | cons p ps ih =>
        by_cases hp : p.1 = k
        · exact absurd (by simp [List.find?_cons, hp] : (((p :: ps).find?
            (fun q => q.1 = k)).isSome = true)) h
        · have h' : ¬ (ps.find? (fun q => q.1 = k)).isSome = true := by
            intro hs
            exact h (by simpa [List.find?_cons, hp] using hs)
          simp only [List.cons_append, lookup_cons, hp, if_false]
          exact ih h'

/-- The image store with a zero memory budget: the first store's pruning
immediately evicts the unreferenced fresh image. -/
def c6m : ImageManager := { ImageManager.new with maxMemory := 0 }

/-- **C6, counterexample.** With a zero budget (any budget smaller than the
payload behaves the same) `store(1, 1, [7])` twice does *not* return the
same id: the first store overshoots the budget, pruning evicts the fresh
unreferenced image together with its hash-index entry, and the second store
allocates a new id.  This falsifies the claim as stated for stores that
push `used_memory` above `max_memory`. -/
theorem store_dedup_counterexample :
    (c6m.store 1 1 [7] 0).1 = 1 ∧
    (((c6m.store 1 1 [7] 0).2).store 1 1 [7] 1).1 = 2 ∧
    (c6m.store 1 1 [7] 0).1 ≠ (((c6m.store 1 1 [7] 0).2).store 1 1 [7] 1).1 := by
  refine ⟨rfl, rfl, by decide⟩

/-- **C6, amended.** For every image store state whose used memory plus the
payload size stays within the budget (so the first store cannot trigger an
eviction of the stored image): calling `store(w, h, X)` twice yields the
same image id both times, does not increase used memory on the second call,
and the second call refreshes the stored image's `accessed_at` timestamp. -/
theorem store_dedup (m : ImageManager) (w h : Nat) (data : List Nat)
    (now1 now2 : Nat)
    (hbudget : m.usedMemory + (data.length : Int) ≤ m.maxMemory) :
    ((m.store w h data now1).2.store w h data now2).1 = (m.store w h data now1).1 ∧
    ((m.store w h data now1).2.store w h data now2).2.usedMemory =
      (m.store w h data now1).2.usedMemory ∧
    ImageManager.lookup ((m.store w h data now1).2.store w h data now2).2.images
        (m.store w h data now1).1 =
      (ImageManager.lookup (m.store w h data now1).2.images
        (m.store w h data now1).1).map (fun img => { img with accessedAt := now2 }) := by
  have fresh_case : ∀ (m' : ImageManager), m'.usedMemory = m.usedMemory →
      m'.maxMemory = m.maxMemory → m'.nextImageID = m.nextImageID →
      (ImageManager.store.storeFresh m' w h data now1).2.images =
        ImageManager.insert m'.images (m'.nextImageID + 1)
          { id := m'.nextImageID + 1, width := w, height := h, data := data
            createdAt := now1, accessedAt := now1 } ∧
      (ImageManager.store.storeFresh m' w h data now1).2.hashToID =
        ImageManager.insert m'.hashToID data (m'.nextImageID + 1) ∧
      (ImageManager.store.storeFresh m' w h data now1).2.usedMemory =
        m'.usedMemory + (data.length : Int) ∧
      (ImageManager.store.storeFresh m' w h data now1).1 = m'.nextImageID + 1 := by
    intro m' hu hm _hn
    unfold ImageManager.store.storeFresh
    have : ¬ m'.maxMemory < m'.usedMemory + (data.length : Int) := by
      rw [hu, hm]; omega
    simp [this]
  unfold ImageManager.store
  rcases h1 : ImageManager.lookup m.hashToID data with _ | id0
  · -- fresh path on the first store
    obtain ⟨hi, hh, hu, hid⟩ := fresh_case m rfl rfl rfl
    simp only [h1]
    rcases hfre : ImageManager.store.storeFresh m w h data now1 with ⟨id1, m1⟩
    have hid1 : id1 = m.nextImageID + 1 := by rw [← hid, hfre]
    have hm1i : m1.images = ImageManager.insert m.images (m.nextImageID + 1)
        { id := m.nextImageID + 1, width := w, height := h, data := data
          createdAt := now1, accessedAt := now1 } := by rw [← hi, hfre]
    have hm1h : m1.hashToID = ImageManager.insert m.hashToID data (m.nextImageID + 1) := by
      rw [← hh, hfre]
    have h2 : ImageManager.lookup m1.hashToID data = some (m.nextImageID + 1) := by
      rw [hm1h]; exact lookup_insert_self _ _ _
    have h3 : ImageManager.lookup m1.images (m.nextImageID + 1) =
        some { id := m.nextImageID + 1, width := w, height := h, data := data
               createdAt := now1, accessedAt := now1 } := by
      rw [hm1i]; exact lookup_insert_self _ _ _
    refine ⟨by simp [h2, h3, hid1], by simp [h2, h3], ?_⟩
    simp only [hid1, h2, h3, lookup_insert_self]
    simp
  · -- duplicate hash on the first store
    rcases h2 : ImageManager.lookup m.images id0 with _ | img
    · -- stale hash entry, still the fresh path
      obtain ⟨hi, hh, hu, hid⟩ := fresh_case m rfl rfl rfl
      simp only [h1, h2]
      rcases hfre : ImageManager.store.storeFresh m w h data now1 with ⟨id1, m1⟩
      have hid1 : id1 = m.nextImageID + 1 := by rw [← hid, hfre]
      have hm1i : m1.images = ImageManager.insert m.images (m.nextImageID + 1)
          { id := m.nextImageID + 1, width := w, height := h, data := data
            createdAt := now1, accessedAt := now1 } := by rw [← hi, hfre]
      have hm1h : m1.hashToID = ImageManager.insert m.hashToID data (m.nextImageID + 1) := by
        rw [← hh, hfre]
      have h2' : ImageManager.lookup m1.hashToID data = some (m.nextImageID + 1) := by
        rw [hm1h]; exact lookup_insert_self _ _ _
      have h3 : ImageManager.lookup m1.images (m.nextImageID + 1) =
          some { id := m.nextImageID + 1, width := w, height := h, data := data
                 createdAt := now1, accessedAt := now1 } := by
        rw [hm1i]; exact lookup_insert_self _ _ _
      refine ⟨by simp [h2', h3, hid1], by simp [h2', h3], ?_⟩
      simp only [hid1, h2', h3, lookup_insert_self]
      simp
    · -- live duplicate: both stores take the access-refresh path
      simp only [h1, h2]
      have h3 : ImageManager.lookup
          (ImageManager.insert m.images id0 { img with accessedAt := now1 }) id0 =
          some { img with accessedAt := now1 } := lookup_insert_self _ _ _
      refine ⟨by simp [h1, h3], by simp [h1, h3], ?_⟩
      simp only [h1, h3, lookup_insert_self]
      simp

/-- Witness for `setScrollingRegion_spec` at a 3×2 terminal and the call
`SetScrollingRegion(1, 2)`. -/
theorem setScrollingRegion_spec_witness :
    (1 : Int) ≤ (Term.new 3 2 0).rows ∧
    ((Term.new 3 2 0).setScrollingRegionInternal 1 2).scrollTop = 0 ∧
    ((Term.new 3 2 0).setScrollingRegionInternal 1 2).scrollBottom = 1 ∧
    ((Term.new 3 2 0).setScrollingRegionInternal 1 2).cursor.row = 0 := by
  have h := setScrollingRegion_spec (Term.new 3 2 0) 1 2 (by decide)
  refine ⟨by decide, ?_, ?_, ?_⟩ <;>
    rw [h.2.2 (by decide)] <;> rfl

/-- Witness for `store_dedup` on a fresh store and payload `[7]`. -/
theorem store_dedup_witness :
    ImageManager.new.usedMemory + (([7] : List Nat).length : Int) ≤
      ImageManager.new.maxMemory ∧
    ((ImageManager.new.store 1 1 [7] 0).2.store 1 1 [7] 1).1 =
      (ImageManager.new.store 1 1 [7] 0).1 :=
  ⟨by decide, (store_dedup ImageManager.new 1 1 [7] 0 1 (by decide)).1⟩

/-! ### Pruning lemmas (for C7) -/

/-- Absence from an association list, elementwise. -/
theorem lookup_eq_none_iff {α β : Type} [DecidableEq α] (l : List (α × β)) (k : α) :
    ImageManager.lookup l k = none ↔ ∀ p ∈ l, p.1 ≠ k := by
  unfold ImageManager.lookup
  rcases h : l.find? (fun p => p.1 = k) with _ | p
  all_goals rw [h]
  · constructor
    · intro _ p hp
      have := List.find?_eq_none.1 h p hp
      simpa using this
    · intro _; rfl
  · constructor
    · intro hc; exact absurd hc (by simp)
    · intro hall
      exfalso
      have hm := List.mem_of_find?_eq_some h
      have hk := List.find?_some h
      exact (hall p hm) (by simpa using hk)

/-- Erasing one key leaves lookups of other keys unchanged. -/
theorem lookup_erase_ne {α β : Type} [DecidableEq α] (l : List (α × β)) (k q : α)
    (h : q ≠ k) :
    ImageManager.lookup (ImageManager.erase l k) q = ImageManager.lookup l q := by
  unfold ImageManager.erase
  induction l with
  | nil => rfl
  | cons p ps ih =>
      by_cases hpk : p.1 = k
      · rw [List.filter_cons, if_neg (by simp [hpk])]
        rw [ih, lookup_cons]
        have hne : ¬ p.1 = q := fun hh => h (hh.symm.trans hpk)
        rw [if_neg hne]
      · rw [List.filter_cons, if_pos (by simp [hpk])]
        rw [lookup_cons, lookup_cons, ih]

/-- Membership in the insertion step of the candidate sort. -/
theorem mem_insertByTime (x c : ImageManager.Candidate)
    (cs : List ImageManager.Candidate) :
    x ∈ ImageManager.insertByTime c cs ↔ x = c ∨ x ∈ cs := by
  induction cs with
  | nil => simp [ImageManager.insertByTime]
  | cons d ds ih =>
      unfold ImageManager.insertByTime
      split_ifs with h
      · simp [or_comm, or_assoc, or_left_comm]
      · simp only [List.mem_cons, ih]
        tauto

/-- The candidate sort permutes its input. -/
theorem sortByTime_perm (cs : List ImageManager.Candidate) :
    (ImageManager.sortByTime cs).Perm cs := by
  induction cs with
  | nil => simp [ImageManager.sortByTime]
  | cons c ds ih =>
      unfold ImageManager.sortByTime
      have hperm : (ImageManager.insertByTime c (ImageManager.sortByTime ds)).Perm
          (c :: ImageManager.sortByTime ds) := by
        clear ih
        induction ImageManager.sortByTime ds with
        | nil => simp [ImageManager.insertByTime]
        | cons d es ihe =>
            unfold ImageManager.insertByTime
            split_ifs with h
            · rfl
            · exact (ihe.cons d).trans (List.Perm.swap c d es)
      exact hperm.trans (ih.cons c)

/-- Inserting into a list sorted by access time keeps it sorted. -/
theorem insertByTime_sorted (c : ImageManager.Candidate)
    (cs : List ImageManager.Candidate)
    (h : cs.Sorted (fun a b => a.time ≤ b.time)) :
    (ImageManager.insertByTime c cs).Sorted (fun a b => a.time ≤ b.time) := by
  induction cs with
  | nil => simp [ImageManager.insertByTime, List.sorted_singleton]
  | cons d ds ih =>
      rw [List.sorted_cons] at h
      obtain ⟨hd, hds⟩ := h
      unfold ImageManager.insertByTime
      split_ifs with hc
      · rw [List.sorted_cons]
        refine ⟨?_, List.sorted_cons.2 ⟨hd, hds⟩⟩
        intro x hx
        rcases List.mem_cons.1 hx with rfl | hx
        · omega
        · have := hd x hx
          omega
      · rw [List.sorted_cons]
        refine ⟨?_, ih hds⟩
        intro x hx
        rcases (mem_insertByTime x c ds).1 hx with rfl | hx
        · omega
        · exact hd x hx

/-- The candidate sort sorts ascending by access time. -/
theorem sortByTime_sorted (cs : List ImageManager.Candidate) :
    (ImageManager.sortByTime cs).Sorted (fun a b => a.time ≤ b.time) := by
  induction cs with
  | nil => simp [ImageManager.sortByTime]
  | cons c ds ih => exact insertByTime_sorted c _ ih

/-- The prune removal loop leaves placements and the budget untouched. -/
theorem pruneRemove_placements_max (m : ImageManager)
    (cs : List ImageManager.Candidate) :
    (m.pruneRemove cs).placements = m.placements ∧
    (m.pruneRemove cs).maxMemory = m.maxMemory := by
  induction cs generalizing m with
  | nil => exact ⟨rfl, rfl⟩
  | cons c ds ih =>
      unfold ImageManager.pruneRemove
      split_ifs with h
      · exact ⟨rfl, rfl⟩
      · rcases hl : ImageManager.lookup m.images c.id with _ | img
        · exact ih m
        · exact ih _

/-- The prune removal loop only erases ids listed among its candidates. -/
theorem pruneRemove_keeps (m : ImageManager) (cs : List ImageManager.Candidate)
    (id : Nat) (hid : id ∉ cs.map ImageManager.Candidate.id) :
    ImageManager.lookup (m.pruneRemove cs).images id = ImageManager.lookup m.images id := by
  induction cs generalizing m with
  | nil => rfl
  | cons c ds ih =>
      have hne : id ≠ c.id := by
        intro h; exact hid (by simp [h])
      have hds : id ∉ ds.map ImageManager.Candidate.id := by
        intro h; exact hid (by simp [h])
      unfold ImageManager.pruneRemove
      split_ifs with h
      · rfl
      · rcases hl : ImageManager.lookup m.images c.id with _ | img
        · exact ih m hds
        · rw [ih _ hds]
          exact lookup_erase_ne _ _ _ hne

/-- An id absent before the removal loop is absent after it. -/
theorem pruneRemove_none_mono (m : ImageManager) (cs : List ImageManager.Candidate)
    (id : Nat) (h : ImageManager.lookup m.images id = none) :
    ImageManager.lookup (m.pruneRemove cs).images id = none := by
  induction cs generalizing m with
  | nil => exact h
  | cons c ds ih =>
      unfold ImageManager.pruneRemove
      split_ifs with hb
      · exact h
      · rcases hl : ImageManager.lookup m.images c.id with _ | img
        · exact ih m h
        · apply ih
          rw [lookup_eq_none_iff] at h ⊢
          intro p hp
          exact h p (List.mem_of_mem_filter hp)


/-- When the removal loop ends still over budget, every candidate id has
been erased. -/
theorem pruneRemove_exhaust (m : ImageManager) (cs : List ImageManager.Candidate)
    (hover : ¬ (m.pruneRemove cs).usedMemory ≤ (m.pruneRemove cs).maxMemory) :
    ∀ c ∈ cs, ImageManager.lookup (m.pruneRemove cs).images c.id = none := by
  induction cs generalizing m with
  | nil => simp
  | cons c ds ih =>
      intro d hd
      by_cases hb : m.usedMemory ≤ m.maxMemory
      · exfalso
        apply hover
        unfold ImageManager.pruneRemove
        simp [hb]
      · rcases hl : ImageManager.lookup m.images c.id with _ | img
        · have hstep : m.pruneRemove (c :: ds) = m.pruneRemove ds := by
            conv_lhs => rw [ImageManager.pruneRemove]
            rw [if_neg hb, hl]
          rw [hstep] at hover ⊢
          rcases List.mem_cons.1 hd with rfl | hd'
          · exact pruneRemove_none_mono _ _ _ hl
          · exact ih _ hover d hd'
        · have hstep : m.pruneRemove (c :: ds) = ImageManager.pruneRemove
              { m with hashToID := ImageManager.erase m.hashToID img.data
                       images := ImageManager.erase m.images c.id
                       usedMemory := m.usedMemory - c.size } ds := by
            conv_lhs => rw [ImageManager.pruneRemove]
            rw [if_neg hb, hl]
          rw [hstep] at hover ⊢
          rcases List.mem_cons.1 hd with rfl | hd'
          · apply pruneRemove_none_mono
            rw [lookup_eq_none_iff]
            intro p hp
            simp only [ImageManager.erase, List.mem_filter] at hp
            simpa using hp.2
          · exact ih _ hover d hd'

/-- Lookup succeeds exactly on present keys. -/
theorem lookup_isSome_of_mem {α β : Type} [DecidableEq α]
    (l : List (α × β)) (p : α × β) (hp : p ∈ l) :
    ImageManager.lookup l p.1 ≠ none := by
  intro h
  rw [lookup_eq_none_iff] at h
  exact (h p hp) rfl

/-- The removal loop can only shrink the image map. -/
theorem pruneRemove_images_sub (m : ImageManager) (cs : List ImageManager.Candidate)
    (p : Nat × ImageData) (hp : p ∈ (m.pruneRemove cs).images) : p ∈ m.images := by
  induction cs generalizing m with
  | nil => exact hp
  | cons c ds ih =>
      by_cases hb : m.usedMemory ≤ m.maxMemory
      · have hstep : m.pruneRemove (c :: ds) = m := by
          conv_lhs => rw [ImageManager.pruneRemove]
          rw [if_pos hb]
        rwa [hstep] at hp
      · rcases hl : ImageManager.lookup m.images c.id with _ | img
        · have hstep : m.pruneRemove (c :: ds) = m.pruneRemove ds := by
            conv_lhs => rw [ImageManager.pruneRemove]
            rw [if_neg hb, hl]
          rw [hstep] at hp
          exact ih _ hp
        · have hstep : m.pruneRemove (c :: ds) = ImageManager.pruneRemove
              { m with hashToID := ImageManager.erase m.hashToID img.data
                       images := ImageManager.erase m.images c.id
                       usedMemory := m.usedMemory - c.size } ds := by
            conv_lhs => rw [ImageManager.pruneRemove]
            rw [if_neg hb, hl]
          rw [hstep] at hp
          exact List.mem_of_mem_filter (ih _ hp)

/-- Inserting an absent key appends. -/
theorem insert_append_of_none {α β : Type} [DecidableEq α]
    (l : List (α × β)) (k : α) (v : β)
    (h : ImageManager.lookup l k = none) :
    ImageManager.insert l k v = l ++ [(k, v)] := by
  unfold ImageManager.insert
  rw [if_neg]
  intro hs
  unfold ImageManager.lookup at h
  rcases hf : l.find? (fun p => p.1 = k) with _ | p
  · rw [hf] at hs; simp at hs
  · rw [hf] at h; simp at h

/-- Membership in the pruning candidate list. -/
theorem mem_pruneCandidates (m : ImageManager) (c : ImageManager.Candidate) :
    c ∈ m.pruneCandidates ↔ ∃ p ∈ m.images, m.referenced p.1 = false ∧
      c = { id := p.1, time := p.2.accessedAt, size := (p.2.data.length : Int) } := by
  unfold ImageManager.pruneCandidates
  rw [(sortByTime_perm _).mem_iff, List.mem_map]
  constructor
  · rintro ⟨p, hp, rfl⟩
    rw [List.mem_filter] at hp
    exact ⟨p, hp.1, by simpa using hp.2, rfl⟩
  · rintro ⟨p, hp, href, rfl⟩
    exact ⟨p, List.mem_filter.2 ⟨hp, by simpa using href⟩, rfl⟩

/-- The removal loop erases a prefix of its (time-ordered) candidate list:
the surviving images are those whose id is not among the first `k`
candidates, for some `k`. -/
theorem pruneRemove_prefix (m : ImageManager) (cs : List ImageManager.Candidate)
    (hnd : (cs.map ImageManager.Candidate.id).Nodup)
    (hpresent : ∀ c ∈ cs, ImageManager.lookup m.images c.id ≠ none) :
    ∃ k, (m.pruneRemove cs).images = m.images.filter
      (fun p => decide (p.1 ∉ (cs.take k).map ImageManager.Candidate.id)) := by
  induction cs generalizing m with
  | nil =>
      refine ⟨0, ?_⟩
      simp [ImageManager.pruneRemove]
  | cons c ds ih =>
      by_cases hb : m.usedMemory ≤ m.maxMemory
      · have hstep : m.pruneRemove (c :: ds) = m := by
          conv_lhs => rw [ImageManager.pruneRemove]
          rw [if_pos hb]
        refine ⟨0, ?_⟩
        rw [hstep]
        simp
      · rcases hl : ImageManager.lookup m.images c.id with _ | img
        · exact absurd hl (hpresent c (by simp))
        · have hstep : m.pruneRemove (c :: ds) = ImageManager.pruneRemove
              { m with hashToID := ImageManager.erase m.hashToID img.data
                       images := ImageManager.erase m.images c.id
                       usedMemory := m.usedMemory - c.size } ds := by
            conv_lhs => rw [ImageManager.pruneRemove]
            rw [if_neg hb, hl]
          have hcd : c.id ∉ ds.map ImageManager.Candidate.id := by
            have := hnd
            simp only [List.map_cons, List.nodup_cons] at this
            exact this.1
          have hnd' : (ds.map ImageManager.Candidate.id).Nodup := by
            have := hnd
            simp only [List.map_cons, List.nodup_cons] at this
            exact this.2
          have hpresent' : ∀ d ∈ ds, ImageManager.lookup
              (ImageManager.erase m.images c.id) d.id ≠ none := by
            intro d hd
            have hne : d.id ≠ c.id := by
              intro h
              exact hcd (h ▸ List.mem_map_of_mem ImageManager.Candidate.id hd)
            rw [lookup_erase_ne _ _ _ hne]
            exact hpresent d (by simp [hd])
          obtain ⟨k', hk'⟩ := ih
            { m with hashToID := ImageManager.erase m.hashToID img.data
                     images := ImageManager.erase m.images c.id
                     usedMemory := m.usedMemory - c.size } hnd' hpresent'
          refine ⟨k' + 1, ?_⟩
          rw [hstep, hk']
          unfold ImageManager.erase
          rw [List.filter_filter]
          apply List.filter_congr
          intro p _
          by_cases h1 : p.1 = c.id <;>
            by_cases h2 : p.1 ∈ (ds.take k').map ImageManager.Candidate.id <;>
              simp [h1, h2]

/-- The state after the raw insert step of a fresh `Store` (before any
pruning). -/
def storeInserted (m : ImageManager) (width height : Nat) (data : List Nat)
    (now : Nat) : ImageManager :=
  { m with nextImageID := m.nextImageID + 1
           images := ImageManager.insert m.images (m.nextImageID + 1)
             { id := m.nextImageID + 1, width := width, height := height
               data := data, createdAt := now, accessedAt := now }
           hashToID := ImageManager.insert m.hashToID data (m.nextImageID + 1)
           usedMemory := m.usedMemory + (data.length : Int) }

/-- A fresh overshooting `Store` is the insert step followed by pruning. -/
theorem store_eq_prune (m : ImageManager) (w h : Nat) (data : List Nat) (now : Nat)
    (hfresh : ImageManager.lookup m.hashToID data = none)
    (hover : m.maxMemory < m.usedMemory + (data.length : Int)) :
    (m.store w h data now).2 = (storeInserted m w h data now).pruneLocked := by
  unfold ImageManager.store
  simp only [hfresh]
  unfold ImageManager.store.storeFresh
  simp only [if_pos hover]
  rfl

/-- **C7.** After every fresh `store` that pushes `used_memory` above
`max_memory`, pruning runs and afterwards either `used_memory ≤ max_memory`
or every remaining image is referenced by at least one placement; an image
referenced by a current placement is never evicted; and eviction proceeds
over the unreferenced images in ascending `accessed_at` order (the
candidate list is exactly the unreferenced images sorted ascending by
access time, and the evicted ids form a prefix of it).  The no-duplicate
hypotheses hold for every store reachable through the `ImageManager` API
(map keys are unique and fresh ids exceed every stored id). -/
theorem store_prune_bound (m : ImageManager) (w h : Nat) (data : List Nat) (now : Nat)
    (hfresh : ImageManager.lookup m.hashToID data = none)
    (hover : m.maxMemory < m.usedMemory + (data.length : Int))
    (hnodup : (m.images.map Prod.fst).Nodup)
    (hnew : ImageManager.lookup m.images (m.nextImageID + 1) = none) :
    ((m.store w h data now).2.usedMemory ≤ (m.store w h data now).2.maxMemory ∨
      ∀ p ∈ (m.store w h data now).2.images,
        (m.store w h data now).2.referenced p.1 = true) ∧
    (∀ idr, m.referenced idr = true →
      ImageManager.lookup (storeInserted m w h data now).images idr ≠ none →
      ImageManager.lookup (m.store w h data now).2.images idr ≠ none) ∧
    ((storeInserted m w h data now).pruneCandidates.Sorted
      (fun a b => a.time ≤ b.time)) ∧
    (∀ c ∈ (storeInserted m w h data now).pruneCandidates,
      (storeInserted m w h data now).referenced c.id = false) ∧
    (∃ k, (m.store w h data now).2.images =
      (storeInserted m w h data now).images.filter (fun p => decide (p.1 ∉
        (((storeInserted m w h data now).pruneCandidates.take k).map
          ImageManager.Candidate.id)))) := by
  set mIns := storeInserted m w h data now with hmIns
  have heq := store_eq_prune m w h data now hfresh hover
  have hplac : mIns.placements = m.placements := rfl
  have himg : mIns.images = m.images ++
      [(m.nextImageID + 1,
        { id := m.nextImageID + 1, width := w, height := h, data := data
          createdAt := now, accessedAt := now })] := by
    simp only [hmIns, storeInserted]
    exact insert_append_of_none _ _ _ hnew
  have hkeys : (mIns.images.map Prod.fst).Nodup := by
    rw [himg, List.map_append, List.nodup_append]
    refine ⟨hnodup, by simp, ?_⟩
    intro x hx
    simp only [List.map_cons, List.map_nil, List.mem_singleton]
    intro hx1
    rw [List.mem_map] at hx
    obtain ⟨p, hp, rfl⟩ := hx
    rw [lookup_eq_none_iff] at hnew
    exact hnew p hp (by simpa using hx1)
  have hrefsame : ∀ idr, mIns.referenced idr = m.referenced idr := fun _ => rfl
  have hcands_unref : ∀ c ∈ mIns.pruneCandidates, mIns.referenced c.id = false := by
    intro c hc
    rw [mem_pruneCandidates] at hc
    obtain ⟨p, _, href, rfl⟩ := hc
    exact href
  have hcands_present : ∀ c ∈ mIns.pruneCandidates,
      ImageManager.lookup mIns.images c.id ≠ none := by
    intro c hc
    rw [mem_pruneCandidates] at hc
    obtain ⟨p, hp, _, rfl⟩ := hc
    exact lookup_isSome_of_mem _ p hp
  have hcands_nodup : (mIns.pruneCandidates.map ImageManager.Candidate.id).Nodup := by
    unfold ImageManager.pruneCandidates
    have hperm := (sortByTime_perm ((mIns.images.filter
      (fun p => ¬ mIns.referenced p.1)).map (fun p =>
        ({ id := p.1, time := p.2.accessedAt
           size := (p.2.data.length : Int) } : ImageManager.Candidate)))).map
      ImageManager.Candidate.id
    rw [hperm.nodup_iff]
    rw [List.map_map]
    have : ((fun c => ImageManager.Candidate.id c) ∘ (fun (p : Nat × ImageData) =>
        ({ id := p.1, time := p.2.accessedAt
           size := (p.2.data.length : Int) } : ImageManager.Candidate))) =
        (fun (p : Nat × ImageData) => p.1) := rfl
    rw [this]
    exact (hkeys.sublist (List.Sublist.map _ (List.filter_sublist _)))
  refine ⟨?_, ?_, ?_, hcands_unref, ?_⟩
  · -- budget met or everything referenced
    rw [heq]
    by_cases hend : (mIns.pruneLocked).usedMemory ≤ (mIns.pruneLocked).maxMemory
    · exact Or.inl hend
    · right
      intro p hp
      by_cases href : (mIns.pruneLocked).referenced p.1 = true
      · exact href
      · exfalso
        have hpIns : p ∈ mIns.images :=
          pruneRemove_images_sub mIns mIns.pruneCandidates p hp
        have hrefIns : mIns.referenced p.1 = false := by
          have : (mIns.pruneLocked).placements = mIns.placements :=
            (pruneRemove_placements_max mIns mIns.pruneCandidates).1
          unfold ImageManager.referenced at href ⊢
          rw [← this]
          simpa using href
        have hc : (⟨p.1, p.2.accessedAt, (p.2.data.length : Int)⟩ :
            ImageManager.Candidate) ∈ mIns.pruneCandidates := by
          rw [mem_pruneCandidates]
          exact ⟨p, hpIns, hrefIns, rfl⟩
        have := pruneRemove_exhaust mIns mIns.pruneCandidates hend _ hc
        exact lookup_isSome_of_mem _ p hp this
  · -- referenced images survive
    intro idr href hsome
    rw [heq]
    unfold ImageManager.pruneLocked
    rw [pruneRemove_keeps]
    · exact hsome
    · intro hmem
      rw [List.mem_map] at hmem
      obtain ⟨c, hc, rfl⟩ := hmem
      have := hcands_unref c hc
      rw [hrefsame] at this
      rw [href] at this
      simp at this
  · -- ascending by access time
    unfold ImageManager.pruneCandidates
    exact sortByTime_sorted _
  · -- prefix eviction
    rw [heq]
    exact pruneRemove_prefix mIns mIns.pruneCandidates hcands_nodup hcands_present

/-- A zero-budget store for exercising the pruning path. -/
def c7m : ImageManager := { ImageManager.new with maxMemory := 0 }

/-- Witness for `store_prune_bound`: a store of one byte into a zero-budget
empty store. -/
theorem store_prune_bound_witness :
    (c7m.store 1 1 [5] 0).2.usedMemory ≤ (c7m.store 1 1 [5] 0).2.maxMemory ∨
      ∀ p ∈ (c7m.store 1 1 [5] 0).2.images,
        (c7m.store 1 1 [5] 0).2.referenced p.1 = true :=
  (store_prune_bound c7m 1 1 [5] 0 (by decide) (by decide) (by decide) (by decide)).1

/-! ### C3: ScrollUp's scrollback contract -/

/-- `get?` through `mapIdx`. -/
theorem get?_mapIdx {α β : Type} (l : List α) (f : Nat → α → β) (k : Nat) :
    (l.mapIdx f).get? k = (l.get? k).map (f k) := by
  simp [List.get?_eq_getElem?]

/-- The buffer's mutating operations, reified so that "no other operation
populates scrollback" is a statement about every operation at once.
`apply` returns the ordered list of rows the operation pushed. -/
inductive BufferOp where
  | modifyCell (row col : Int) (f : Cell → Cell)
  | markDirtyAt (row col : Int)
  | setCell (row col : Int) (cell : Cell)
  | clearRow (row : Int)
  | clearRowRange (row startCol endCol : Int)
  | clearAll
  | scrollUp (top bottom n : Int)
  | scrollDown (top bottom n : Int)
  | insertLines (row n bottom : Int)
  | deleteLines (row n bottom : Int)
  | insertBlanks (row col n : Int)
  | deleteChars (row col n : Int)
  | resize (rows cols : Int)
  | growRows (n : Int)
  | growCols (row minCols : Int)
  | setTabStop (col : Int)
  | clearTabStop (col : Int)
  | clearAllTabStops
  | fillWithE
  | setWrapped (row : Int) (w : Bool)

/-- `ScrollUp`, and `DeleteLines` which delegates to it, are the only buffer
operations whose source bodies reach `scrollback.Push`. -/
def BufferOp.viaScrollUp : BufferOp → Bool
  | .scrollUp _ _ _ => true
  | .deleteLines _ _ _ => true
  | _ => false

/-- Run a reified buffer operation; the second component is the ordered list
of rows it pushed to the scrollback provider. -/
def BufferOp.apply (b : Buffer) : BufferOp → Buffer × List (List Cell)
  | .modifyCell r c f => (b.modifyCell r c f, [])
  | .markDirtyAt r c => (b.markDirtyAt r c, [])
  | .setCell r c cell => (b.setCell r c cell, [])
  | .clearRow r => (b.clearRow r, [])
  | .clearRowRange r s e => (b.clearRowRange r s e, [])
  | .clearAll => (b.clearAll, [])
  | .scrollUp t bo n => b.scrollUp t bo n
  | .scrollDown t bo n => (b.scrollDown t bo n, [])
  | .insertLines r n bo => (b.insertLines r n bo, [])
  | .deleteLines r n bo => b.deleteLines r n bo
  | .insertBlanks r c n => (b.insertBlanks r c n, [])
  | .deleteChars r c n => (b.deleteChars r c n, [])
  | .resize r c => (b.resize r c, [])
  | .growRows n => (b.growRows n, [])
  | .growCols r m => (b.growCols r m, [])
  | .setTabStop c => (b.setTabStop c, [])
  | .clearTabStop c => (b.clearTabStop c, [])
  | .clearAllTabStops => (b.clearAllTabStops, [])
  | .fillWithE => (b.fillWithE, [])
  | .setWrapped r w => (b.setWrapped r w, [])

set_option maxHeartbeats 1000000 in
/-- **C3.** For every well-formed buffer and every `ScrollUp(top, bottom, n)`
call with in-range `top`/`bottom` and `n ≥ 1`, writing `n'` for `n` clamped to
`bottom - top`: the rows pushed to scrollback are exactly rows `[0, n')` in
order when a provider is installed, its max capacity is positive and
`top = 0`, and nothing otherwise; destination rows `[top, bottom - n')` get
the old rows shifted up by `n'`, marked dirty, with their wrapped flags moved
alongside; rows `[bottom - n', bottom)` become blank dirty cells with
`wrapped = false`; rows outside `[top, bottom)` are untouched; and of all
reified buffer operations only `ScrollUp` (and `DeleteLines`, which delegates
to it) ever produces a nonempty push trace. -/
theorem scrollUp_scrollback_contract (b : Buffer) (top bottom n n' : Int)
    (hWF : b.WF) (htop : 0 ≤ top) (hbot : bottom ≤ b.rows) (hlt : top < bottom)
    (hn : 1 ≤ n) (hn' : n' = min n (bottom - top)) :
    ((b.scrollUp top bottom n).2 =
      (if b.scrollback.isSome ∧
          0 < ((b.scrollback.map Scrollback.maxLines).getD 0) ∧ top = 0 then
        (List.range n'.toNat).map (fun i => b.rowAt i) else [])) ∧
    (∀ i : Int, top ≤ i → i < bottom - n' →
      (b.scrollUp top bottom n).1.rowAt i = Buffer.dirtyRow (b.rowAt (i + n')) ∧
      (b.scrollUp top bottom n).1.wrappedAt i = b.wrappedAt (i + n')) ∧
    (∀ i : Int, bottom - n' ≤ i → i < bottom →
      (b.scrollUp top bottom n).1.rowAt i = Buffer.blankDirtyRow b.cols.toNat ∧
      (b.scrollUp top bottom n).1.wrappedAt i = false) ∧
    (∀ i : Int, 0 ≤ i → (i < top ∨ bottom ≤ i) →
      (b.scrollUp top bottom n).1.rowAt i = b.rowAt i ∧
      (b.scrollUp top bottom n).1.wrappedAt i = b.wrappedAt i) ∧
    (∀ (b2 : Buffer) (op : BufferOp),
      (BufferOp.apply b2 op).2 ≠ [] → op.viaScrollUp = true) := by
  subst hn'
  obtain ⟨hr0, hc0, hclen, hrlen, hwlen, htlen⟩ := hWF
  have hguard : ¬ (n ≤ 0 ∨ top ≥ bottom) := by omega
  have htopc : max top 0 = top := by omega
  have hbotc : min bottom b.rows = bottom := by omega
  have hN1 : 1 ≤ min n (bottom - top) := by omega
  have hN2 : min n (bottom - top) ≤ bottom - top := by omega
  have hcells : (b.scrollUp top bottom n).1.cells = b.cells.mapIdx (fun r row =>
      if top ≤ (r : Int) ∧ (r : Int) < bottom - min n (bottom - top) then
        Buffer.dirtyRow (b.rowAt ((r : Int) + min n (bottom - top)))
      else if bottom - min n (bottom - top) ≤ (r : Int) ∧ (r : Int) < bottom then
        Buffer.blankDirtyRow b.cols.toNat
      else row) := by
    unfold Buffer.scrollUp
    rw [if_neg hguard]
    simp only [htopc, hbotc]
  have hwrapped : (b.scrollUp top bottom n).1.wrapped = b.wrapped.mapIdx (fun r w =>
      if top ≤ (r : Int) ∧ (r : Int) < bottom - min n (bottom - top) then
        b.wrappedAt ((r : Int) + min n (bottom - top))
      else if bottom - min n (bottom - top) ≤ (r : Int) ∧ (r : Int) < bottom then
        false
      else w) := by
    unfold Buffer.scrollUp
    rw [if_neg hguard]
    simp only [htopc, hbotc]
  have hrow : ∀ i : Int, 0 ≤ i →
      (b.scrollUp top bottom n).1.rowAt i =
        (if top ≤ i ∧ i < bottom - min n (bottom - top) then
          Buffer.dirtyRow (b.rowAt (i + min n (bottom - top)))
        else if bottom - min n (bottom - top) ≤ i ∧ i < bottom then
          Buffer.blankDirtyRow b.cols.toNat
        else b.rowAt i) := by
    intro i hi0
    have hic : ((i.toNat : Nat) : Int) = i := Int.toNat_of_nonneg hi0
    by_cases hir : i < b.rows
    · have hik : i.toNat < b.cells.length := by rw [hclen]; omega
      have hbase : b.cells.get ⟨i.toNat, hik⟩ = b.rowAt i := by
        rw [Buffer.rowAt, if_pos hi0, List.get?_eq_get hik]
        rfl
      conv_lhs => rw [Buffer.rowAt]
      rw [if_pos hi0, hcells, get?_mapIdx, List.get?_eq_get hik]
      simp only [Option.map_some', Option.getD_some, hic]
      rw [hbase]
    · have hik : b.cells.length ≤ i.toNat := by rw [hclen]; omega
      have h1 : ¬ (top ≤ i ∧ i < bottom - min n (bottom - top)) := by omega
      have h2 : ¬ (bottom - min n (bottom - top) ≤ i ∧ i < bottom) := by omega
      rw [if_neg h1, if_neg h2]
      simp only [Buffer.rowAt, hi0, if_true, hcells]
      rw [get?_mapIdx, List.get?_eq_none.2 hik]
      rfl
  have hwrap : ∀ i : Int, 0 ≤ i →
      (b.scrollUp top bottom n).1.wrappedAt i =
        (if top ≤ i ∧ i < bottom - min n (bottom - top) then
          b.wrappedAt (i + min n (bottom - top))
        else if bottom - min n (bottom - top) ≤ i ∧ i < bottom then
          false
        else b.wrappedAt i) := by
    intro i hi0
    have hic : ((i.toNat : Nat) : Int) = i := Int.toNat_of_nonneg hi0
    by_cases hir : i < b.rows
    · have hik : i.toNat < b.wrapped.length := by rw [hwlen]; omega
      have hbase : b.wrapped.get ⟨i.toNat, hik⟩ = b.wrappedAt i := by
        rw [Buffer.wrappedAt, if_pos hi0, List.get?_eq_get hik]
        rfl
      conv_lhs => rw [Buffer.wrappedAt]
      rw [if_pos hi0, hwrapped, get?_mapIdx, List.get?_eq_get hik]
      simp only [Option.map_some', Option.getD_some, hic]
      rw [hbase]
    · have hik : b.wrapped.length ≤ i.toNat := by rw [hwlen]; omega
      have h1 : ¬ (top ≤ i ∧ i < bottom - min n (bottom - top)) := by omega
      have h2 : ¬ (bottom - min n (bottom - top) ≤ i ∧ i < bottom) := by omega
      rw [if_neg h1, if_neg h2]
      simp only [Buffer.wrappedAt, hi0, if_true, hwrapped]
      rw [get?_mapIdx, List.get?_eq_none.2 hik]
      rfl
  refine ⟨?_, ?_, ?_, ?_, ?_⟩
  · unfold Buffer.scrollUp
    rw [if_neg hguard]
    simp only [htopc, hbotc]
  · intro i h1 h2
    have hi0 : 0 ≤ i := le_trans htop h1
    exact ⟨by rw [hrow i hi0, if_pos ⟨h1, h2⟩],
           by rw [hwrap i hi0, if_pos ⟨h1, h2⟩]⟩
  · intro i h1 h2
    have hi0 : 0 ≤ i := by omega
    have hc1 : ¬ (top ≤ i ∧ i < bottom - min n (bottom - top)) := by omega
    exact ⟨by rw [hrow i hi0, if_neg hc1, if_pos ⟨h1, h2⟩],
           by rw [hwrap i hi0, if_neg hc1, if_pos ⟨h1, h2⟩]⟩
  · intro i hi0 hside
    have hc1 : ¬ (top ≤ i ∧ i < bottom - min n (bottom - top)) := by omega
    have hc2 : ¬ (bottom - min n (bottom - top) ≤ i ∧ i < bottom) := by omega
    exact ⟨by rw [hrow i hi0, if_neg hc1, if_neg hc2],
           by rw [hwrap i hi0, if_neg hc1, if_neg hc2]⟩
  · intro b2 op h
    cases op <;> first | rfl | exact absurd rfl h

/-- A 2×2 buffer with an installed scrollback provider of capacity 4. -/
def c3b : Buffer := Buffer.newWith 2 2 (some { lines := [], maxLines := 4 })

/-- Witness for `scrollUp_scrollback_contract`: scrolling the 2×2 buffer up
by one moves the old row 1 into row 0, dirty. -/
theorem scrollUp_scrollback_contract_witness :
    Buffer.WF c3b ∧
    (c3b.scrollUp 0 2 1).1.rowAt 0 = Buffer.dirtyRow (c3b.rowAt (0 + min 1 (2 - 0))) :=
  ⟨⟨by decide, by decide, by decide, by decide, by decide, by decide⟩,
   ((scrollUp_scrollback_contract c3b 0 2 1 (min 1 (2 - 0))
      ⟨by decide, by decide, by decide, by decide, by decide, by decide⟩
      (by decide) (by decide) (by decide) (by decide) rfl).2.1 0
      (by decide) (by decide)).1⟩

/-! ### C8: input at the right margin without wrap -/

/-- `SetActiveBuffer` leaves the cursor alone. -/
theorem setActiveBuf_cursor (t : Term) (b : Buffer) :
    (t.setActiveBuf b).cursor = t.cursor := by
  by_cases h : t.altActive <;> simp [Term.setActiveBuf, h]

/-- `SetActiveBuffer` stores exactly the given buffer. -/
theorem setActiveBuf_activeBuf (t : Term) (b : Buffer) :
    (t.setActiveBuf b).activeBuf = b := by
  by_cases h : t.altActive <;> simp [Term.setActiveBuf, Term.activeBuf, h]

/-- `SetActiveBuffer` leaves the terminal's column count alone. -/
theorem setActiveBuf_cols (t : Term) (b : Buffer) :
    (t.setActiveBuf b).cols = t.cols := by
  by_cases h : t.altActive <;> simp [Term.setActiveBuf, h]

/-- `SetActiveBuffer` leaves the terminal's row count alone. -/
theorem setActiveBuf_rows (t : Term) (b : Buffer) :
    (t.setActiveBuf b).rows = t.rows := by
  by_cases h : t.altActive <;> simp [Term.setActiveBuf, h]

/-- `SetActiveBuffer` leaves `autoResize` alone. -/
theorem setActiveBuf_autoResize (t : Term) (b : Buffer) :
    (t.setActiveBuf b).autoResize = t.autoResize := by
  by_cases h : t.altActive <;> simp [Term.setActiveBuf, h]

/-- `SetActiveBuffer` leaves the mode flags alone. -/
theorem setActiveBuf_modes (t : Term) (b : Buffer) :
    (t.setActiveBuf b).modes = t.modes := by
  by_cases h : t.altActive <;> simp [Term.setActiveBuf, h]

/-- Moving the cursor does not change which buffer is active. -/
theorem activeBuf_setCursor (t : Term) (v : Cursor) :
    ({ t with cursor := v } : Term).activeBuf = t.activeBuf := rfl

/-- A cell read only succeeds inside the buffer's bounds. -/
theorem cellAt_some_bounds (b : Buffer) (row col : Int) (c0 : Cell)
    (h : b.cellAt row col = some c0) :
    ¬ (row < 0 ∨ row ≥ b.rows ∨ col < 0 ∨ col ≥ b.cols) := by
  intro hc
  rw [Buffer.cellAt, if_pos hc] at h
  exact Option.noConfusion h

/-- A successful cell read pins the row inside the stored grid. -/
theorem cellAt_some_row (b : Buffer) (row col : Int) (c0 : Cell)
    (h : b.cellAt row col = some c0) :
    row.toNat < b.cells.length ∧ (b.rowAt row).get? col.toNat = some c0 := by
  have hb := cellAt_some_bounds b row col c0 h
  have hrow0 : 0 ≤ row := by omega
  rw [Buffer.cellAt, if_neg hb] at h
  refine ⟨?_, h⟩
  by_contra hn
  rw [Buffer.rowAt, if_pos hrow0, List.get?_eq_none.2 (Nat.le_of_not_lt hn)] at h
  exact Option.noConfusion h

/-- `modifyCell` keeps the row count. -/
theorem modifyCell_rows (b : Buffer) (row col : Int) (f : Cell → Cell) :
    (b.modifyCell row col f).rows = b.rows := by
  unfold Buffer.modifyCell
  split <;> rfl

/-- `modifyCell` keeps the column count. -/
theorem modifyCell_cols (b : Buffer) (row col : Int) (f : Cell → Cell) :
    (b.modifyCell row col f).cols = b.cols := by
  unfold Buffer.modifyCell
  split <;> rfl

/-- The modified row, read back. -/
theorem rowAt_modifyCell_self (b : Buffer) (row col : Int) (f : Cell → Cell)
    (hrow0 : 0 ≤ row) (hcol0 : 0 ≤ col) (hrl : row.toNat < b.cells.length) :
    (b.modifyCell row col f).rowAt row = (b.rowAt row).modify f col.toNat := by
  rw [Buffer.modifyCell, if_pos ⟨hrow0, hcol0⟩]
  rw [Buffer.rowAt, if_pos hrow0]
  show ((b.cells.set row.toNat ((b.rowAt row).modify f col.toNat)).get? row.toNat).getD [] = _
  rw [List.get?_eq_getElem?, List.getElem?_set_self hrl]
  rfl

/-- The modified cell, read back. -/
theorem cellAt_modifyCell_self (b : Buffer) (row col : Int) (f : Cell → Cell) (c0 : Cell)
    (h : b.cellAt row col = some c0) :
    (b.modifyCell row col f).cellAt row col = some (f c0) := by
  have hb := cellAt_some_bounds b row col c0 h
  obtain ⟨hrl, hg⟩ := cellAt_some_row b row col c0 h
  have hrow0 : 0 ≤ row := by omega
  have hcol0 : 0 ≤ col := by omega
  rw [Buffer.cellAt, modifyCell_rows, modifyCell_cols, if_neg hb]
  rw [rowAt_modifyCell_self b row col f hrow0 hcol0 hrl]
  rw [List.get?_eq_getElem?, List.getElem?_modify_eq]
  rw [← List.get?_eq_getElem?, hg]
  rfl

/-- `MarkDirty` composed with a cell read. -/
theorem cellAt_markDirtyAt_self (b : Buffer) (row col : Int) (c0 : Cell)
    (h : b.cellAt row col = some c0) :
    (b.markDirtyAt row col).cellAt row col = some (Cell.markDirty c0) := by
  have hb := cellAt_some_bounds b row col c0 h
  rw [Buffer.markDirtyAt, if_neg hb]
  have hskip : ({ (b.modifyCell row col Cell.markDirty) with hasDirty := true } : Buffer).cellAt
      row col = (b.modifyCell row col Cell.markDirty).cellAt row col := rfl
  rw [hskip, cellAt_modifyCell_self b row col Cell.markDirty c0 h]

/-- The cell written by the input path, read back: `f` applied, then dirty. -/
theorem writeCell_cellAt_self (b : Buffer) (row col : Int) (f : Cell → Cell) (c0 : Cell)
    (h : b.cellAt row col = some c0) :
    (writeCell b row col f).cellAt row col = some (Cell.markDirty (f c0)) := by
  rw [writeCell, if_pos (by rw [h]; rfl)]
  exact cellAt_markDirtyAt_self _ row col _ (cellAt_modifyCell_self b row col f c0 h)

set_option maxHeartbeats 1600000 in
/-- **C8.** Writing a codepoint with `cursor.col + width > cols`, auto-resize
off and `LineWrap` unset (insert mode off, cursor row in range, at least one
column): a width-2 character is dropped entirely — the state is unchanged —
and a width-1 character clamps the cursor column to `cols - 1` and overwrites
that cell (charset-translated char, template colors and flags, current
hyperlink, wide flags cleared, marked dirty). -/
theorem input_no_wrap_overflow (t : Term) (r width : Nat)
    (har : t.autoResize = false) (hlw : t.modes.lineWrap = false)
    (hins : t.modes.insert = false)
    (hover : t.cols < t.cursor.col + (width : Int))
    (hrow0 : 0 ≤ t.cursor.row) (hrowlt : t.cursor.row < t.rows)
    (hcols : 1 ≤ t.cols) (c0 : Cell)
    (hcell : (t.activeBuf).cellAt t.cursor.row (t.cols - 1) = some c0) :
    (width = 2 → t.inputInternal r width = t) ∧
    (width = 1 →
      (t.inputInternal r width).cursor.row = t.cursor.row ∧
      (t.inputInternal r width).cursor.col = t.cols - 1 ∧
      ((t.inputInternal r width).activeBuf).cellAt t.cursor.row (t.cols - 1) =
        some (Cell.markDirty (Cell.clearFlag { c0 with
            char := (if 0 ≤ t.activeCharset ∧ t.activeCharset < 4 ∧
                t.charsetAt t.activeCharset = Charset.lineDrawing
              then translateLineDrawing r else r)
            fg := t.template.fg
            bg := t.template.bg
            underlineColor := t.template.underlineColor
            flags := t.template.flags
            hyperlink := t.currentHyperlink }
          (CellFlagWideChar ||| CellFlagWideCharSpacer)))) := by
  constructor
  · intro hw
    subst hw
    unfold Term.inputInternal
    rw [if_neg (by decide : ¬ (2 : Nat) = 0)]
    rw [if_pos ⟨hover, by simp [har], by simp [hlw], rfl⟩]
  · intro hw
    subst hw
    have h1 : ¬ ((1 : Nat) = 0) := by decide
    have h2 : ((1 : Nat) = 2) = False := by decide
    have v1 : (t.cursor.row < 0) = False := eq_false (by omega)
    have v2 : (t.rows ≤ t.cursor.row) = False := eq_false (by omega)
    have v3 : (t.cols - 1 < 0) = False := eq_false (by omega)
    have v4 : (t.cols - 1 < t.cols) = True := eq_true (by omega)
    have v5 : (t.cols ≤ t.cols - 1 + 1) = True := eq_true (by omega)
    have v6 : (t.cols < t.cursor.col + ((1 : Nat) : Int)) = True := eq_true hover
    have v7 : (t.cols < t.cursor.col + 1) = True := eq_true (by omega)
    have vA : (t.autoResize = true) = False := by simp [har]
    have key : t.inputInternal r 1 =
        { ({ t with cursor := { t.cursor with col := t.cols - 1 } } : Term).setActiveBuf
            (writeCell (({ t with cursor := { t.cursor with col := t.cols - 1 } } :
                Term).activeBuf) t.cursor.row (t.cols - 1) (fun c =>
              Cell.clearFlag { c with
                  char := (if 0 ≤ t.activeCharset ∧ t.activeCharset < 4 ∧
                      t.charsetAt t.activeCharset = Charset.lineDrawing
                    then translateLineDrawing r else r)
                  fg := t.template.fg
                  bg := t.template.bg
                  underlineColor := t.template.underlineColor
                  flags := t.template.flags
                  hyperlink := t.currentHyperlink }
                (CellFlagWideChar ||| CellFlagWideCharSpacer))) with
          cursor := { t.cursor with col := t.cols - 1 } } := by
      simp only [Term.inputInternal, vA, hlw, hins, h1, h2, v1, v2, v3, v4, v5, v6, v7,
        setActiveBuf_cursor, setActiveBuf_cols, setActiveBuf_rows, setActiveBuf_autoResize,
        setActiveBuf_modes, activeBuf_setCursor, if_true, if_false, ite_true, ite_false,
        and_false, false_and, and_true, true_and, or_false, false_or, Bool.false_eq_true,
        not_false_eq_true, Nat.cast_one, Nat.cast_ofNat]
    refine ⟨?_, ?_, ?_⟩
    · rw [key]
    · rw [key]
    · rw [key]
      show ((({ t with cursor := { t.cursor with col := t.cols - 1 } } : Term).setActiveBuf
          _).activeBuf).cellAt t.cursor.row (t.cols - 1) = _
      rw [setActiveBuf_activeBuf]
      exact writeCell_cellAt_self _ t.cursor.row (t.cols - 1) _ c0 hcell

/-- A 2×2 terminal with line wrap off and the cursor past the last column. -/
def c8t : Term :=
  { Term.new 2 2 0 with
      modes := { showCursor := true }
      cursor := { Cursor.new with col := 2 } }

/-- Witness for `input_no_wrap_overflow`: writing `a` (width 1) at the right
margin of the no-wrap 2×2 terminal lands the cursor on column `cols - 1`. -/
theorem input_no_wrap_overflow_witness :
    (c8t.inputInternal 97 1).cursor.col = c8t.cols - 1 :=
  ((input_no_wrap_overflow c8t 97 1 rfl rfl rfl (by decide) (by decide) (by decide)
      (by decide) Cell.new (by decide)).2 rfl).2.1

/-! ### C5: wide-character pairing -/

/-- The claimed pairing property, row-wise, as the spec words it: every
`WideChar` cell is immediately followed by a `WideCharSpacer` cell, and every
`WideCharSpacer` cell is immediately preceded by a `WideChar` cell. -/
def widePairedRow (row : List Cell) : Bool :=
  (List.range row.length).all (fun i =>
    (!(((row.get? i).getD Cell.new).isWide) ||
      (((row.get? (i + 1)).getD Cell.new).isWideSpacer)) &&
    (!(((row.get? i).getD Cell.new).isWideSpacer) ||
      (decide (0 < i) && (((row.get? (i - 1)).getD Cell.new).isWide))))

/-- The claimed pairing property over a whole buffer. -/
def widePaired (b : Buffer) : Bool := b.cells.all widePairedRow

/-- **C5 counterexample.** On a 1×4 terminal, writing `中` (width 2) yields a
properly paired buffer, but carriage return followed by an overwrite of the
base cell with `a` (width 1) clears only the written cell's wide flags,
orphaning the spacer at column 1: the pairing invariant does not survive
character overwrites. -/
theorem wide_pairing_counterexample :
    widePaired (((Term.new 1 4 0).inputInternal 20013 2).activeBuf) = true ∧
    widePaired ((((((Term.new 1 4 0).inputInternal 20013 2)).carriageReturnInternal
      ).inputInternal 97 1).activeBuf) = false := by
  exact ⟨by decide, by decide⟩

/-- `SetActiveBuffer` leaves the template cell alone. -/
theorem setActiveBuf_template (t : Term) (b : Buffer) :
    (t.setActiveBuf b).template = t.template := by
  by_cases h : t.altActive <;> simp [Term.setActiveBuf, h]

/-- `cellAt` ignores the dirty-tracking bit of the buffer. -/
theorem cellAt_hasDirty (b : Buffer) (v : Bool) (row col : Int) :
    ({ b with hasDirty := v } : Buffer).cellAt row col = b.cellAt row col := rfl

/-- `modifyCell` leaves the same row's other columns alone. -/
theorem cellAt_modifyCell_ne (b : Buffer) (row col col' : Int) (f : Cell → Cell)
    (hcol0 : 0 ≤ col) (hcol0' : 0 ≤ col') (hne : col ≠ col') :
    (b.modifyCell row col f).cellAt row col' = b.cellAt row col' := by
  by_cases hrow0 : 0 ≤ row
  · have hnat : col.toNat ≠ col'.toNat := by omega
    rw [Buffer.modifyCell, if_pos ⟨hrow0, hcol0⟩]
    simp only [Buffer.cellAt, Buffer.rowAt]
    by_cases hb : row < 0 ∨ row ≥ b.rows ∨ col' < 0 ∨ col' ≥ b.cols
    · rw [if_pos hb, if_pos hb]
    · rw [if_neg hb, if_neg hb, if_pos hrow0, if_pos hrow0]
      by_cases hlen : row.toNat < b.cells.length
      · simp only [List.get?_eq_getElem?]
        rw [List.getElem?_set_self hlen]
        simp only [Option.getD_some]
        rw [List.getElem?_modify_ne f _ hnat]
      · have hrnone : b.cells[row.toNat]? = none := List.getElem?_eq_none (by omega)
        simp only [List.get?_eq_getElem?]
        rw [List.getElem?_set_self', hrnone]
        rfl
  · rw [Buffer.modifyCell, if_neg (by omega)]

/-- `MarkDirty` leaves the same row's other columns alone. -/
theorem cellAt_markDirtyAt_ne (b : Buffer) (row col col' : Int)
    (hcol0 : 0 ≤ col) (hcol0' : 0 ≤ col') (hne : col ≠ col') :
    (b.markDirtyAt row col).cellAt row col' = b.cellAt row col' := by
  rw [Buffer.markDirtyAt]
  by_cases hb : row < 0 ∨ row ≥ b.rows ∨ col < 0 ∨ col ≥ b.cols
  · rw [if_pos hb]
  · rw [if_neg hb, cellAt_hasDirty,
      cellAt_modifyCell_ne b row col col' Cell.markDirty hcol0 hcol0' hne]

/-- The input write path leaves the same row's other columns alone. -/
theorem writeCell_cellAt_ne (b : Buffer) (row col col' : Int) (f : Cell → Cell)
    (hcol0 : 0 ≤ col) (hcol0' : 0 ≤ col') (hne : col ≠ col') :
    (writeCell b row col f).cellAt row col' = b.cellAt row col' := by
  rw [writeCell]
  by_cases hs : (b.cellAt row col).isSome = true
  · rw [if_pos hs, cellAt_markDirtyAt_ne _ row col col' hcol0 hcol0' hne,
      cellAt_modifyCell_ne b row col col' f hcol0 hcol0' hne]
  · rw [if_neg hs]

/-- A flag just set survives a further `or` and masks to nonzero. -/
theorem or_or_and_ne_zero (x y f i : Nat) (hf : f.testBit i = true) :
    ((x ||| f) ||| y) &&& f ≠ 0 := by
  intro h
  have hb : Nat.testBit (((x ||| f) ||| y) &&& f) i = false := by rw [h]; simp
  rw [Nat.testBit_and, Nat.testBit_or, Nat.testBit_or, hf] at hb
  simp at hb

/-- Setting `WideChar` then marking dirty leaves the cell wide. -/
theorem isWide_markDirty_setFlag (c : Cell) :
    Cell.isWide (Cell.markDirty (Cell.setFlag c CellFlagWideChar)) = true := by
  simp only [Cell.isWide, Cell.hasFlag, Cell.markDirty, Cell.setFlag,
    CellFlagWideChar, CellFlagDirty, bne_iff_ne]
  exact or_or_and_ne_zero c.flags 32768 8192 13 (by decide)

/-- Setting `WideCharSpacer` then marking dirty leaves the cell a spacer. -/
theorem isWideSpacer_markDirty_setFlag (c : Cell) :
    Cell.isWideSpacer (Cell.markDirty (Cell.setFlag c CellFlagWideCharSpacer)) = true := by
  simp only [Cell.isWideSpacer, Cell.hasFlag, Cell.markDirty, Cell.setFlag,
    CellFlagWideCharSpacer, CellFlagDirty, bne_iff_ne]
  exact or_or_and_ne_zero c.flags 32768 16384 14 (by decide)

set_option maxHeartbeats 1600000 in
/-- **C5 (amended).** A freshly written width-2 character is properly paired:
with insert mode off, the cursor in range and two columns of room, writing a
width-2 rune puts the translated character with the `WideChar` flag at
`(row, col)` and a reset spacer cell with the template's colors and the
`WideCharSpacer` flag at `(row, col + 1)`, both dirty; the base cell reads
back wide and the next cell reads back as a spacer.  (The pairing is only
guaranteed for the fresh write: a later one-column overwrite orphans the
partner cell, as `wide_pairing_counterexample` shows.) -/
theorem input_wide_pairs_fresh (t : Term) (r : Nat)
    (hins : t.modes.insert = false)
    (hrow0 : 0 ≤ t.cursor.row) (hrowlt : t.cursor.row < t.rows)
    (hcol0 : 0 ≤ t.cursor.col) (hfit : t.cursor.col + 2 < t.cols)
    (c0 c1 : Cell)
    (hcell0 : (t.activeBuf).cellAt t.cursor.row t.cursor.col = some c0)
    (hcell1 : (t.activeBuf).cellAt t.cursor.row (t.cursor.col + 1) = some c1) :
    ((t.inputInternal r 2).activeBuf).cellAt t.cursor.row t.cursor.col =
      some (Cell.markDirty (Cell.setFlag { c0 with
          char := (if 0 ≤ t.activeCharset ∧ t.activeCharset < 4 ∧
              t.charsetAt t.activeCharset = Charset.lineDrawing
            then translateLineDrawing r else r)
          fg := t.template.fg
          bg := t.template.bg
          underlineColor := t.template.underlineColor
          flags := t.template.flags
          hyperlink := t.currentHyperlink } CellFlagWideChar)) ∧
    ((t.inputInternal r 2).activeBuf).cellAt t.cursor.row (t.cursor.col + 1) =
      some (Cell.markDirty (Cell.setFlag { Cell.reset c1 with
          fg := t.template.fg
          bg := t.template.bg } CellFlagWideCharSpacer)) ∧
    Option.map Cell.isWide
        (((t.inputInternal r 2).activeBuf).cellAt t.cursor.row t.cursor.col) =
      some true ∧
    Option.map Cell.isWideSpacer
        (((t.inputInternal r 2).activeBuf).cellAt t.cursor.row (t.cursor.col + 1)) =
      some true := by
  have f0 : ((2 : Nat) = 0) = False := by decide
  have f22 : ((2 : Nat) = 2) = True := by decide
  have fwrapc : (t.cols < t.cursor.col + ((2 : Nat) : Int)) = False := eq_false (by omega)
  have fwrap : (t.cols < t.cursor.col + 2) = False := eq_false (by omega)
  have fv1 : (t.cursor.row < 0) = False := eq_false (by omega)
  have fv2 : (t.rows ≤ t.cursor.row) = False := eq_false (by omega)
  have fv3 : (t.cursor.col < 0) = False := eq_false (by omega)
  have fw1 : (t.cursor.col < t.cols) = True := eq_true (by omega)
  have fw2 : (t.cursor.col + 1 < t.cols) = True := eq_true (by omega)
  have fc1 : (t.cols ≤ t.cursor.col + 1 + 1) = False := eq_false (by omega)
  have fv4 : (t.cursor.col + 1 + 1 < 0) = False := eq_false (by omega)
  have key : (t.inputInternal r 2).activeBuf =
      writeCell (writeCell (t.activeBuf) t.cursor.row t.cursor.col (fun c =>
          Cell.setFlag { c with
              char := (if 0 ≤ t.activeCharset ∧ t.activeCharset < 4 ∧
                  t.charsetAt t.activeCharset = Charset.lineDrawing
                then translateLineDrawing r else r)
              fg := t.template.fg
              bg := t.template.bg
              underlineColor := t.template.underlineColor
              flags := t.template.flags
              hyperlink := t.currentHyperlink } CellFlagWideChar))
        t.cursor.row (t.cursor.col + 1) (fun c =>
          Cell.setFlag { Cell.reset c with
              fg := t.template.fg
              bg := t.template.bg } CellFlagWideCharSpacer) := by
    by_cases halt : t.altActive <;>
      simp only [Term.inputInternal, Term.setActiveBuf, Term.activeBuf, halt, hins, f0, f22,
        fwrapc, fwrap, fv1, fv2, fv3, fv4, fw1, fw2, fc1,
        if_true, if_false, ite_true, ite_false, and_true, true_and, and_false, false_and,
        or_false, false_or, Bool.false_eq_true, not_false_eq_true, Nat.cast_ofNat]
  have hB1 : (writeCell (t.activeBuf) t.cursor.row t.cursor.col (fun c =>
      Cell.setFlag { c with
          char := (if 0 ≤ t.activeCharset ∧ t.activeCharset < 4 ∧
              t.charsetAt t.activeCharset = Charset.lineDrawing
            then translateLineDrawing r else r)
          fg := t.template.fg
          bg := t.template.bg
          underlineColor := t.template.underlineColor
          flags := t.template.flags
          hyperlink := t.currentHyperlink } CellFlagWideChar)).cellAt
        t.cursor.row (t.cursor.col + 1) = some c1 := by
    rw [writeCell_cellAt_ne _ _ _ _ _ hcol0 (by omega) (by omega)]
    exact hcell1
  refine ⟨?_, ?_, ?_, ?_⟩
  · rw [key, writeCell_cellAt_ne _ _ _ _ _ (by omega) hcol0 (by omega)]
    exact writeCell_cellAt_self _ _ _ _ c0 hcell0
  · rw [key]
    exact writeCell_cellAt_self _ _ _ _ c1 hB1
  · rw [key, writeCell_cellAt_ne _ _ _ _ _ (by omega) hcol0 (by omega),
      writeCell_cellAt_self _ _ _ _ c0 hcell0]
    simp only [Option.map_some']
    rw [isWide_markDirty_setFlag]
  · rw [key, writeCell_cellAt_self _ _ _ _ c1 hB1]
    simp only [Option.map_some']
    rw [isWideSpacer_markDirty_setFlag]

/-- Witness for `input_wide_pairs_fresh`: writing `中` on a fresh 2×4
terminal leaves a wide cell at column 0 and a spacer at column 1. -/
theorem input_wide_pairs_fresh_witness :
    Option.map Cell.isWide
        ((((Term.new 2 4 0).inputInternal 20013 2).activeBuf).cellAt 0 0) = some true ∧
    Option.map Cell.isWideSpacer
        ((((Term.new 2 4 0).inputInternal 20013 2).activeBuf).cellAt 0 1) = some true :=
  ⟨(input_wide_pairs_fresh (Term.new 2 4 0) 20013 rfl (by decide) (by decide) (by decide)
      (by decide) Cell.new Cell.new (by decide) (by decide)).2.2.1,
   (input_wide_pairs_fresh (Term.new 2 4 0) 20013 rfl (by decide) (by decide) (by decide)
      (by decide) Cell.new Cell.new (by decide) (by decide)).2.2.2⟩

/-! ### C2: GetLastCommandOutput's mark pairing -/

/-- The claim's pairing rule, written from the spec's words: take the latest
`CommandFinished` mark, then the latest `CommandExecuted` mark at a strictly
smaller absolute row; extract between them, empty if no such pair. -/
def getLastCommandOutputSpec (t : Term) : List Nat :=
  match (t.promptMarks.reverse).find?
      (fun m => decide (m.type = MarkType.commandFinished)) with
  | none => []
  | some f =>
      match (t.promptMarks.reverse).find?
          (fun m => decide (m.type = MarkType.commandExecuted) &&
            decide (m.row < f.row)) with
      | none => []
      | some e => t.extractTextBetweenRows e.row f.row

/-- Prompt-mark history E(0), F(2), E(3), F(1), with `a` on row 0 and `b` on
row 1, built through the handlers of the model. -/
def c2t : Term :=
  let t := Term.new 4 4 0
  let t := t.inputInternal 97 1
  let t := t.gotoInternal 1 0
  let t := t.inputInternal 98 1
  let t := t.gotoInternal 0 0
  let t := t.shellIntegrationMarkInternal MarkType.commandExecuted 0
  let t := t.gotoInternal 2 0
  let t := t.shellIntegrationMarkInternal MarkType.commandFinished 0
  let t := t.gotoInternal 3 0
  let t := t.shellIntegrationMarkInternal MarkType.commandExecuted 0
  let t := t.gotoInternal 1 0
  let t := t.shellIntegrationMarkInternal MarkType.commandFinished 0
  t

/-- **C2 counterexample.** With marks E(0), F(2), E(3), F(1) the code's scan
first holds F(1) and E(3), finds them invalid, resets *both*, and settles on
the pair (E(0), F(2)), returning rows `[0, 2)` (`"a\nb"`); the claimed rule
pairs the latest finished F(1) with E(0) and would return row 0 alone
(`"a"`). -/
theorem lastCommandOutput_counterexample :
    Term.getLastCommandOutput c2t = [97, 10, 98] ∧
    getLastCommandOutputSpec c2t = [97] ∧
    Term.getLastCommandOutput c2t ≠ getLastCommandOutputSpec c2t := by
  exact ⟨by decide, by decide, by decide⟩

/-- A `find?` hit also survives a conjoined predicate it satisfies. -/
theorem find?_and_of_find? {α : Type} (p q : α → Bool) (l : List α) (e : α)
    (h : l.find? p = some e) (hq : q e = true) :
    l.find? (fun a => p a && q a) = some e := by
  induction l with
  | nil => simp at h
  | cons a as ih =>
    by_cases hp : p a = true
    · rw [List.find?_cons_of_pos as hp] at h
      injection h with h
      subst h
      rw [List.find?_cons_of_pos as (by rw [hp, hq]; rfl)]
    · rw [List.find?_cons_of_neg as (by simp [hp])] at h
      rw [List.find?_cons_of_neg as (by simp [hp])]
      exact ih h

/-- Scanning with a pending finished mark accepts the next executed mark
when its row is strictly below. -/
theorem scanPair_accF (l : List PromptMark) (f e : PromptMark)
    (he : l.find? (fun m => decide (m.type = MarkType.commandExecuted)) = some e)
    (hrow : e.row < f.row) :
    scanPair l (some f) none = some (e, f) := by
  induction l with
  | nil => simp at he
  | cons a as ih =>
    by_cases ha : a.type = MarkType.commandExecuted
    · rw [List.find?_cons_of_pos as (by simp [ha])] at he
      injection he with he
      subst he
      simp [scanPair, ha, hrow]
    · rw [List.find?_cons_of_neg as (by simp [ha])] at he
      have step : scanPair (a :: as) (some f) none = scanPair as (some f) none := by
        simp [scanPair, ha]
      rw [step]
      exact ih he

/-- Scanning with a pending executed mark accepts the next finished mark
when the executed row is strictly below. -/
theorem scanPair_accE (l : List PromptMark) (f e : PromptMark)
    (hf : l.find? (fun m => decide (m.type = MarkType.commandFinished)) = some f)
    (hrow : e.row < f.row) :
    scanPair l none (some e) = some (e, f) := by
  induction l with
  | nil => simp at hf
  | cons a as ih =>
    by_cases ha : a.type = MarkType.commandFinished
    · rw [List.find?_cons_of_pos as (by simp [ha])] at hf
      injection hf with hf
      subst hf
      simp [scanPair, ha, hrow]
    · rw [List.find?_cons_of_neg as (by simp [ha])] at hf
      have step : scanPair (a :: as) none (some e) = scanPair as none (some e) := by
        simp [scanPair, ha]
      rw [step]
      exact ih hf

/-- When the first finished and first executed marks of the reversed history
already form a valid pair, the scan returns exactly them. -/
theorem scanPair_firsts_valid (l : List PromptMark) (f e : PromptMark)
    (hf : l.find? (fun m => decide (m.type = MarkType.commandFinished)) = some f)
    (he : l.find? (fun m => decide (m.type = MarkType.commandExecuted)) = some e)
    (hrow : e.row < f.row) :
    scanPair l none none = some (e, f) := by
  induction l with
  | nil => simp at hf
  | cons a as ih =>
    by_cases haf : a.type = MarkType.commandFinished
    · rw [List.find?_cons_of_pos as (by simp [haf])] at hf
      injection hf with hf
      subst hf
      have hane : ¬ a.type = MarkType.commandExecuted := by rw [haf]; intro h; cases h
      rw [List.find?_cons_of_neg as (by simp [hane])] at he
      have step : scanPair (a :: as) none none = scanPair as (some a) none := by
        simp [scanPair, haf, hane]
      rw [step]
      exact scanPair_accF as a e he hrow
    · by_cases hae : a.type = MarkType.commandExecuted
      · rw [List.find?_cons_of_pos as (by simp [hae])] at he
        injection he with he
        subst he
        rw [List.find?_cons_of_neg as (by simp [haf])] at hf
        have step : scanPair (a :: as) none none = scanPair as none (some a) := by
          simp [scanPair, haf, hae]
        rw [step]
        exact scanPair_accE as f a hf hrow
      · rw [List.find?_cons_of_neg as (by simp [haf])] at hf
        rw [List.find?_cons_of_neg as (by simp [hae])] at he
        have step : scanPair (a :: as) none none = scanPair as none none := by
          simp [scanPair, haf, hae]
        rw [step]
        exact ih hf he

/-- **C2 (amended).** Whenever the *latest* finished mark and the *latest*
executed mark of the history already satisfy `executed.row < finished.row`,
the code returns the text between them and agrees with the claimed rule.
(When they do not, the scan discards both candidates and restarts — the
counterexample shows the results then diverge.) -/
theorem getLastCommandOutput_amended (t : Term) (f e : PromptMark)
    (hf : (t.promptMarks.reverse).find?
        (fun m => decide (m.type = MarkType.commandFinished)) = some f)
    (he : (t.promptMarks.reverse).find?
        (fun m => decide (m.type = MarkType.commandExecuted)) = some e)
    (hrow : e.row < f.row) :
    t.getLastCommandOutput = t.extractTextBetweenRows e.row f.row ∧
    t.getLastCommandOutput = getLastCommandOutputSpec t := by
  have hscan : scanPair t.promptMarks.reverse none none = some (e, f) :=
    scanPair_firsts_valid _ f e hf he hrow
  have hne : ¬ (t.promptMarks.length = 0) := by
    intro h0
    rw [List.length_eq_zero] at h0
    have hmem := List.mem_of_find?_eq_some hf
    rw [h0] at hmem
    simp at hmem
  constructor
  · rw [Term.getLastCommandOutput, if_neg hne, hscan]
  · have hfind : List.find?
        (fun m => decide (m.type = MarkType.commandExecuted) && decide (m.row < f.row))
        t.promptMarks.reverse = some e :=
      find?_and_of_find? _ _ _ e he (by simp [hrow])
    rw [Term.getLastCommandOutput, if_neg hne, hscan, getLastCommandOutputSpec, hf]
    simp only [hfind]

/-! ### C4: cursor containment -/

/-- The claim's cursor containment: row strictly inside, column at most
`cols`. -/
def cursorContained (t : Term) : Prop :=
  0 ≤ t.cursor.row ∧ t.cursor.row < t.rows ∧
  0 ≤ t.cursor.col ∧ t.cursor.col ≤ t.cols

/-- `SetActiveBuffer` leaves the scroll region alone. -/
theorem setActiveBuf_scrollTop (t : Term) (b : Buffer) :
    (t.setActiveBuf b).scrollTop = t.scrollTop := by
  by_cases h : t.altActive <;> simp [Term.setActiveBuf, h]

theorem setActiveBuf_scrollBottom (t : Term) (b : Buffer) :
    (t.setActiveBuf b).scrollBottom = t.scrollBottom := by
  by_cases h : t.altActive <;> simp [Term.setActiveBuf, h]

/-- `clamp` lands in `[lo, hi]` whenever `lo ≤ hi`. -/
theorem clampInt_mem (v lo hi : Int) (h : lo ≤ hi) :
    lo ≤ Term.clampInt v lo hi ∧ Term.clampInt v lo hi ≤ hi := by
  unfold Term.clampInt
  split
  · omega
  · split <;> omega

/-- `NextTabStop` lands in `[0, cols)` when there is at least one column. -/
theorem nextTabStop_mem (b : Buffer) (col : Int) (h : 1 ≤ b.cols) :
    0 ≤ b.nextTabStop col ∧ b.nextTabStop col < b.cols := by
  unfold Buffer.nextTabStop
  split
  · rename_i c hc
    have hmem := List.mem_of_find?_eq_some hc
    obtain ⟨a, ha, rfl⟩ : ∃ a : Nat, ((a : Int)) < b.cols ∧ c = ((a : Int)) := by
      simpa using hmem
    exact ⟨Int.natCast_nonneg a, ha⟩
  · omega

/-- `PrevTabStop` lands in `[0, cols)` when there is at least one column. -/
theorem prevTabStop_mem (b : Buffer) (col : Int) (h : 1 ≤ b.cols) :
    0 ≤ b.prevTabStop col ∧ b.prevTabStop col < b.cols := by
  unfold Buffer.prevTabStop
  split
  · rename_i c hc
    have hmem := List.mem_of_find?_eq_some hc
    obtain ⟨a, ha, rfl⟩ : ∃ a : Nat, ((a : Int)) < b.cols ∧ c = ((a : Int)) := by
      simpa using hmem
    exact ⟨Int.natCast_nonneg a, ha⟩
  · omega

/-- `GrowRows` adds exactly the requested rows. -/
theorem growRows_rows (b : Buffer) (n : Int) :
    (b.growRows n).rows = if n ≤ 0 then b.rows else b.rows + n := by
  unfold Buffer.growRows
  split <;> rfl

/-- `GrowCols` never narrows the buffer. -/
theorem growCols_cols_le (b : Buffer) (row m : Int) :
    b.cols ≤ (b.growCols row m).cols := by
  unfold Buffer.growCols
  split
  · omega
  · dsimp only
    split
    · omega
    · dsimp only
      split
      · simp
        omega
      · simp

/-- `ScrollUp` keeps the declared dimensions. -/
theorem scrollUp_fst_rows (b : Buffer) (top bottom n : Int) :
    (b.scrollUp top bottom n).1.rows = b.rows := by
  unfold Buffer.scrollUp
  split <;> rfl

/-- `GrowCols` keeps the row count. -/
theorem growCols_rows (b : Buffer) (row m : Int) :
    (b.growCols row m).rows = b.rows := by
  unfold Buffer.growCols
  split
  · rfl
  · dsimp only
    split
    · rfl
    · dsimp only
      split <;> rfl

/-- `ScrollDown` keeps the row count. -/
theorem scrollDown_rows (b : Buffer) (top bottom n : Int) :
    (b.scrollDown top bottom n).rows = b.rows := by
  unfold Buffer.scrollDown
  split <;> rfl

/-- `MarkDirty` keeps the dimensions. -/
theorem markDirtyAt_rows (b : Buffer) (row col : Int) :
    (b.markDirtyAt row col).rows = b.rows := by
  unfold Buffer.markDirtyAt
  split
  · rfl
  · simp [modifyCell_rows]

theorem markDirtyAt_cols (b : Buffer) (row col : Int) :
    (b.markDirtyAt row col).cols = b.cols := by
  unfold Buffer.markDirtyAt
  split
  · rfl
  · simp [modifyCell_cols]

/-- The input write path keeps the dimensions. -/
theorem writeCell_rows (b : Buffer) (row col : Int) (f : Cell → Cell) :
    (writeCell b row col f).rows = b.rows := by
  unfold writeCell
  split
  · rw [markDirtyAt_rows, modifyCell_rows]
  · rfl

theorem writeCell_cols (b : Buffer) (row col : Int) (f : Cell → Cell) :
    (writeCell b row col f).cols = b.cols := by
  unfold writeCell
  split
  · rw [markDirtyAt_cols, modifyCell_cols]
  · rfl

/-- `InsertBlanks` keeps the dimensions. -/
theorem insertBlanks_rows (b : Buffer) (row col n : Int) :
    (b.insertBlanks row col n).rows = b.rows := by
  unfold Buffer.insertBlanks
  split <;> rfl

theorem insertBlanks_cols (b : Buffer) (row col n : Int) :
    (b.insertBlanks row col n).cols = b.cols := by
  unfold Buffer.insertBlanks
  split <;> rfl

/-- `SetWrapped` keeps the dimensions. -/
theorem setWrapped_rows (b : Buffer) (row : Int) (w : Bool) :
    (b.setWrapped row w).rows = b.rows := by
  unfold Buffer.setWrapped
  split <;> rfl

theorem setWrapped_cols (b : Buffer) (row : Int) (w : Bool) :
    (b.setWrapped row w).cols = b.cols := by
  unfold Buffer.setWrapped
  split <;> rfl

/-- `SetActiveBuffer` leaves `altActive` alone. -/
theorem setActiveBuf_altActive (t : Term) (b : Buffer) :
    (t.setActiveBuf b).altActive = t.altActive := by
  by_cases h : t.altActive <;> simp [Term.setActiveBuf, h]

/-- Updating the row count and scroll bottom leaves the active buffer. -/
theorem activeBuf_setRowsSB (x : Term) (a c : Int) :
    ({ x with rows := a, scrollBottom := c } : Term).activeBuf = x.activeBuf := rfl

/-- `scrollIfNeeded` puts the row back in range, leaving the column and the
column count alone. -/
theorem scrollIfNeeded_contained (t : Term)
    (hst : 0 ≤ t.scrollTop) (hsb : t.scrollTop < t.scrollBottom)
    (hsr : t.scrollBottom ≤ t.rows) (hcr0 : 0 ≤ t.cursor.row)
    (hbufr : (t.activeBuf).rows = t.rows) :
    0 ≤ (t.scrollIfNeeded).cursor.row ∧
    (t.scrollIfNeeded).cursor.row < (t.scrollIfNeeded).rows ∧
    (t.scrollIfNeeded).cursor.col = t.cursor.col ∧
    (t.scrollIfNeeded).cols = t.cols ∧
    1 ≤ (t.scrollIfNeeded).rows ∧
    ((t.scrollIfNeeded).activeBuf).rows = (t.scrollIfNeeded).rows ∧
    (t.scrollIfNeeded).altActive = t.altActive := by
  unfold Term.scrollIfNeeded
  by_cases h1 : t.scrollBottom ≤ t.cursor.row
  · rw [if_pos h1]
    by_cases h2 : t.autoResize = true
    · rw [if_pos h2]
      have hk : ¬ (t.cursor.row - t.scrollBottom + 1 ≤ 0) := by omega
      have hrows : ((t.activeBuf).growRows (t.cursor.row - t.scrollBottom + 1)).rows =
          t.rows + (t.cursor.row - t.scrollBottom + 1) := by
        rw [growRows_rows, if_neg hk, hbufr]
      refine ⟨?_, ?_, ?_, ?_, ?_, ?_, ?_⟩
      · show 0 ≤ (t.setActiveBuf ((t.activeBuf).growRows
          (t.cursor.row - t.scrollBottom + 1))).cursor.row
        rw [setActiveBuf_cursor]
        exact hcr0
      · show (t.setActiveBuf ((t.activeBuf).growRows
            (t.cursor.row - t.scrollBottom + 1))).cursor.row <
          ((t.activeBuf).growRows (t.cursor.row - t.scrollBottom + 1)).rows
        rw [setActiveBuf_cursor, hrows]
        omega
      · show (t.setActiveBuf ((t.activeBuf).growRows
          (t.cursor.row - t.scrollBottom + 1))).cursor.col = t.cursor.col
        rw [setActiveBuf_cursor]
      · show (t.setActiveBuf ((t.activeBuf).growRows
          (t.cursor.row - t.scrollBottom + 1))).cols = t.cols
        rw [setActiveBuf_cols]
      · show 1 ≤ ((t.activeBuf).growRows (t.cursor.row - t.scrollBottom + 1)).rows
        rw [hrows]
        omega
      · show (((t.setActiveBuf ((t.activeBuf).growRows
            (t.cursor.row - t.scrollBottom + 1))).activeBuf)).rows =
          ((t.activeBuf).growRows (t.cursor.row - t.scrollBottom + 1)).rows
        rw [setActiveBuf_activeBuf]
      · show (t.setActiveBuf ((t.activeBuf).growRows
          (t.cursor.row - t.scrollBottom + 1))).altActive = t.altActive
        rw [setActiveBuf_altActive]
    · rw [if_neg h2]
      refine ⟨?_, ?_, ?_, ?_, ?_, ?_, ?_⟩
      · show 0 ≤ (t.setActiveBuf ((t.activeBuf).scrollUp t.scrollTop t.scrollBottom
          (t.cursor.row - t.scrollBottom + 1)).1).scrollBottom - 1
        rw [setActiveBuf_scrollBottom]
        omega
      · show (t.setActiveBuf ((t.activeBuf).scrollUp t.scrollTop t.scrollBottom
            (t.cursor.row - t.scrollBottom + 1)).1).scrollBottom - 1 <
          (t.setActiveBuf ((t.activeBuf).scrollUp t.scrollTop t.scrollBottom
            (t.cursor.row - t.scrollBottom + 1)).1).rows
        rw [setActiveBuf_scrollBottom, setActiveBuf_rows]
        omega
      · show (t.setActiveBuf ((t.activeBuf).scrollUp t.scrollTop t.scrollBottom
          (t.cursor.row - t.scrollBottom + 1)).1).cursor.col = t.cursor.col
        rw [setActiveBuf_cursor]
      · show (t.setActiveBuf ((t.activeBuf).scrollUp t.scrollTop t.scrollBottom
          (t.cursor.row - t.scrollBottom + 1)).1).cols = t.cols
        rw [setActiveBuf_cols]
      · show 1 ≤ (t.setActiveBuf ((t.activeBuf).scrollUp t.scrollTop t.scrollBottom
          (t.cursor.row - t.scrollBottom + 1)).1).rows
        rw [setActiveBuf_rows]
        omega
      · show (((t.setActiveBuf ((t.activeBuf).scrollUp t.scrollTop t.scrollBottom
            (t.cursor.row - t.scrollBottom + 1)).1).activeBuf)).rows =
          (t.setActiveBuf ((t.activeBuf).scrollUp t.scrollTop t.scrollBottom
            (t.cursor.row - t.scrollBottom + 1)).1).rows
        rw [setActiveBuf_activeBuf, setActiveBuf_rows, scrollUp_fst_rows, hbufr]
      · show (t.setActiveBuf ((t.activeBuf).scrollUp t.scrollTop t.scrollBottom
          (t.cursor.row - t.scrollBottom + 1)).1).altActive = t.altActive
        rw [setActiveBuf_altActive]
  · rw [if_neg h1]
    by_cases h3 : t.cursor.row < t.scrollTop
    · rw [if_pos h3]
      refine ⟨?_, ?_, ?_, ?_, ?_, ?_, ?_⟩
      · show 0 ≤ (t.setActiveBuf ((t.activeBuf).scrollDown t.scrollTop t.scrollBottom
          (t.scrollTop - t.cursor.row))).scrollTop
        rw [setActiveBuf_scrollTop]
        omega
      · show (t.setActiveBuf ((t.activeBuf).scrollDown t.scrollTop t.scrollBottom
            (t.scrollTop - t.cursor.row))).scrollTop <
          (t.setActiveBuf ((t.activeBuf).scrollDown t.scrollTop t.scrollBottom
            (t.scrollTop - t.cursor.row))).rows
        rw [setActiveBuf_scrollTop, setActiveBuf_rows]
        omega
      · show (t.setActiveBuf ((t.activeBuf).scrollDown t.scrollTop t.scrollBottom
          (t.scrollTop - t.cursor.row))).cursor.col = t.cursor.col
        rw [setActiveBuf_cursor]
      · show (t.setActiveBuf ((t.activeBuf).scrollDown t.scrollTop t.scrollBottom
          (t.scrollTop - t.cursor.row))).cols = t.cols
        rw [setActiveBuf_cols]
      · show 1 ≤ (t.setActiveBuf ((t.activeBuf).scrollDown t.scrollTop t.scrollBottom
          (t.scrollTop - t.cursor.row))).rows
        rw [setActiveBuf_rows]
        omega
      · show (((t.setActiveBuf ((t.activeBuf).scrollDown t.scrollTop t.scrollBottom
            (t.scrollTop - t.cursor.row))).activeBuf)).rows =
          (t.setActiveBuf ((t.activeBuf).scrollDown t.scrollTop t.scrollBottom
            (t.scrollTop - t.cursor.row))).rows
        rw [setActiveBuf_activeBuf, setActiveBuf_rows, scrollDown_rows, hbufr]
      · show (t.setActiveBuf ((t.activeBuf).scrollDown t.scrollTop t.scrollBottom
          (t.scrollTop - t.cursor.row))).altActive = t.altActive
        rw [setActiveBuf_altActive]
    · rw [if_neg h3]
      exact ⟨hcr0, by omega, rfl, rfl, by omega, hbufr, rfl⟩

/-- A history with one executed mark at row 0 and one finished mark at
row 1. -/
def c2w : Term :=
  (((Term.new 2 2 0).shellIntegrationMarkInternal MarkType.commandExecuted 0
    ).lineFeedInternal).shellIntegrationMarkInternal MarkType.commandFinished 0

/-- Witness for `getLastCommandOutput_amended` on the valid pair E(0), F(1). -/
theorem getLastCommandOutput_amended_witness :
    c2w.getLastCommandOutput = c2w.extractTextBetweenRows 0 1 :=
  (getLastCommandOutput_amended c2w ⟨MarkType.commandFinished, 1, 0⟩
    ⟨MarkType.commandExecuted, 0, 0⟩ (by decide) (by decide) (by decide)).1

/-- The wrap/grow/clamp stage of `inputInternal` (verbatim slice). -/
def inputWrapStage (t : Term) (width : Nat) : Term :=
  if t.cols < t.cursor.col + (width : Int) then
    if t.autoResize then
      let b := (t.activeBuf).growCols t.cursor.row (t.cursor.col + (width : Int))
      let t : Term := t.setActiveBuf b
      let t : Term := { t with cols := b.cols }
      if t.cols ≤ t.cursor.col then
        { t with cursor := { t.cursor with col := t.cols - 1 } }
      else t
    else if t.modes.lineWrap then
      let t : Term := t.setActiveBuf ((t.activeBuf).setWrapped t.cursor.row true)
      let t : Term := { t with cursor := { t.cursor with col := 0, row := t.cursor.row + 1 } }
      if t.rows ≤ t.cursor.row then t.scrollIfNeeded else t
    else
      { t with cursor := { t.cursor with col := t.cols - 1 } }
  else t

/-- The write/advance/spacer stage of `inputInternal` (verbatim slice);
`r'` is the already-translated rune. -/
def inputWriteStage (t : Term) (r' width : Nat) : Term :=
  let t : Term :=
    if t.cursor.col < t.cols then
      t.setActiveBuf (writeCell (t.activeBuf) t.cursor.row t.cursor.col (fun c =>
        let c := { c with char := r'
                          fg := t.template.fg
                          bg := t.template.bg
                          underlineColor := t.template.underlineColor
                          flags := t.template.flags
                          hyperlink := t.currentHyperlink }
        if width = 2 then c.setFlag CellFlagWideChar
        else c.clearFlag (CellFlagWideChar ||| CellFlagWideCharSpacer)))
    else t
  let t : Term := { t with cursor := { t.cursor with col := t.cursor.col + 1 } }
  if width = 2 ∧ t.cursor.col < t.cols then
    let t : Term := t.setActiveBuf (writeCell (t.activeBuf) t.cursor.row t.cursor.col (fun c =>
      let c := Cell.reset c
      let c := { c with fg := t.template.fg, bg := t.template.bg }
      c.setFlag CellFlagWideCharSpacer))
    { t with cursor := { t.cursor with col := t.cursor.col + 1 } }
  else t

/-- The final safety clamps of `inputInternal` (verbatim slice). -/
def inputClampStage (t : Term) : Term :=
  let t : Term :=
    if t.cols ≤ t.cursor.col ∧ ¬ t.autoResize ∧ ¬ t.modes.lineWrap then
      { t with cursor := { t.cursor with col := t.cols - 1 } }
    else t
  let t : Term :=
    if t.rows ≤ t.cursor.row ∧ ¬ t.autoResize then
      if (t.activeBuf).rows ≤ t.cursor.row then
        { t with cursor := { t.cursor with row := (t.activeBuf).rows - 1 } }
      else t
    else t
  let t : Term := if t.cursor.col < 0 then { t with cursor := { t.cursor with col := 0 } } else t
  if t.cursor.row < 0 then { t with cursor := { t.cursor with row := 0 } } else t

/-- The insert/validate/write/clamp tail of `inputInternal` (verbatim slice). -/
def inputTail (t : Term) (r' width : Nat) : Term :=
  let t : Term :=
    if t.modes.insert then
      t.setActiveBuf ((t.activeBuf).insertBlanks t.cursor.row t.cursor.col (width : Int))
    else t
  if t.cursor.row < 0 ∨ t.rows ≤ t.cursor.row ∨ t.cursor.col < 0 then t
  else inputClampStage (inputWriteStage t r' width)

/-- `inputInternal` is exactly the staged pipeline. -/
theorem inputInternal_eq (t : Term) (r0 width : Nat) :
    Term.inputInternal t r0 width =
      (if width = 0 then t
       else if t.cols < t.cursor.col + (width : Int) ∧ ¬ t.autoResize ∧
           ¬ t.modes.lineWrap ∧ width = 2 then t
       else inputTail (inputWrapStage t width)
         (if 0 ≤ t.activeCharset ∧ t.activeCharset < 4 ∧
             t.charsetAt t.activeCharset = Charset.lineDrawing
           then translateLineDrawing r0 else r0) width) := rfl

/-- The write stage keeps row, rows and cols, and advances the column by one
or (for a fitting wide character) two. -/
theorem inputWriteStage_basic (t : Term) (r' width : Nat) :
    (inputWriteStage t r' width).cursor.row = t.cursor.row ∧
    (inputWriteStage t r' width).rows = t.rows ∧
    (inputWriteStage t r' width).cols = t.cols ∧
    ((inputWriteStage t r' width).cursor.col = t.cursor.col + 1 ∨
      ((inputWriteStage t r' width).cursor.col = t.cursor.col + 2 ∧
        t.cursor.col + 2 ≤ t.cols)) := by
  unfold inputWriteStage
  by_cases h1 : t.cursor.col < t.cols
  · rw [if_pos h1]
    dsimp only
    simp only [setActiveBuf_cursor, setActiveBuf_rows, setActiveBuf_cols]
    by_cases h2 : width = 2 ∧ t.cursor.col + 1 < t.cols
    · rw [if_pos h2]
      dsimp only
      simp only [setActiveBuf_cursor, setActiveBuf_rows, setActiveBuf_cols]
      exact ⟨trivial, trivial, trivial, Or.inr ⟨by omega, by omega⟩⟩
    · rw [if_neg h2]
      exact ⟨rfl, rfl, rfl, Or.inl rfl⟩
  · rw [if_neg h1]
    dsimp only
    by_cases h2 : width = 2 ∧ t.cursor.col + 1 < t.cols
    · rw [if_pos h2]
      dsimp only
      simp only [setActiveBuf_cursor, setActiveBuf_rows, setActiveBuf_cols]
      exact ⟨trivial, trivial, trivial, Or.inr ⟨by omega, by omega⟩⟩
    · rw [if_neg h2]
      exact ⟨rfl, rfl, rfl, Or.inl rfl⟩

/-- The safety clamps keep an in-range row in range and keep a column in
`[0, cols]` contained. -/
theorem inputClampStage_contained (t : Term)
    (h0 : 0 ≤ t.cursor.row) (h1 : t.cursor.row < t.rows)
    (h2 : 0 ≤ t.cursor.col) (h3 : t.cursor.col ≤ t.cols) (hc1 : 1 ≤ t.cols) :
    cursorContained (inputClampStage t) := by
  unfold inputClampStage cursorContained
  by_cases c1 : t.cols ≤ t.cursor.col ∧ ¬ t.autoResize = true ∧ ¬ t.modes.lineWrap = true
  · rw [if_pos c1]
    dsimp only
    have c2 : ¬ (t.rows ≤ t.cursor.row ∧ ¬ t.autoResize = true) :=
      fun hh => absurd hh.1 (by omega)
    rw [if_neg c2]
    dsimp only
    have c3 : ¬ (t.cols - 1 < 0) := by omega
    rw [if_neg c3]
    dsimp only
    have c4 : ¬ (t.cursor.row < 0) := by omega
    rw [if_neg c4]
    dsimp only
    refine ⟨?_, ?_, ?_, ?_⟩ <;> omega
  · rw [if_neg c1]
    dsimp only
    have c2 : ¬ (t.rows ≤ t.cursor.row ∧ ¬ t.autoResize = true) :=
      fun hh => absurd hh.1 (by omega)
    rw [if_neg c2]
    have c3 : ¬ (t.cursor.col < 0) := by omega
    rw [if_neg c3]
    have c4 : ¬ (t.cursor.row < 0) := by omega
    rw [if_neg c4]
    exact ⟨h0, h1, h2, h3⟩

/-- Write plus clamps starting strictly inside the grid stays contained. -/
theorem inputTailCore_contained (s : Term) (r' width : Nat)
    (hrow0 : 0 ≤ s.cursor.row) (hrow : s.cursor.row < s.rows)
    (hcol0 : 0 ≤ s.cursor.col) (hcol : s.cursor.col < s.cols) (hc1 : 1 ≤ s.cols) :
    cursorContained (inputClampStage (inputWriteStage s r' width)) := by
  obtain ⟨e1, e2, e3, e4⟩ := inputWriteStage_basic s r' width
  refine inputClampStage_contained _ ?_ ?_ ?_ ?_ ?_
  · rw [e1]; exact hrow0
  · rw [e1, e2]; exact hrow
  · rcases e4 with h | ⟨h, hb⟩ <;> rw [h] <;> omega
  · rcases e4 with h | ⟨h, hb⟩ <;> rw [h, e3] <;> omega
  · rw [e3]; exact hc1

/-- The whole input tail starting strictly inside the grid stays contained. -/
theorem inputTail_contained (s : Term) (r' width : Nat)
    (hrow0 : 0 ≤ s.cursor.row) (hrow : s.cursor.row < s.rows)
    (hcol0 : 0 ≤ s.cursor.col) (hcol : s.cursor.col < s.cols) (hc1 : 1 ≤ s.cols) :
    cursorContained (inputTail s r' width) := by
  unfold inputTail
  have hval : ¬ (s.cursor.row < 0 ∨ s.rows ≤ s.cursor.row ∨ s.cursor.col < 0) := by omega
  by_cases hins : s.modes.insert = true
  · rw [if_pos hins]
    dsimp only
    simp only [setActiveBuf_cursor, setActiveBuf_rows, setActiveBuf_cols]
    rw [if_neg hval]
    refine inputTailCore_contained _ r' width ?_ ?_ ?_ ?_ ?_ <;>
      simp only [setActiveBuf_cursor, setActiveBuf_rows, setActiveBuf_cols] <;>
      omega
  · rw [if_neg hins]
    dsimp only
    rw [if_neg hval]
    exact inputTailCore_contained s r' width hrow0 hrow hcol0 hcol hc1

/-- The `scrollIfNeeded` guard at the end of a line wrap keeps the cursor
contained and the column count positive. -/
theorem scrollGuard_contained (u : Term)
    (hst : 0 ≤ u.scrollTop) (hsb : u.scrollTop < u.scrollBottom)
    (hsr : u.scrollBottom ≤ u.rows) (hbufr : (u.activeBuf).rows = u.rows)
    (hcr0 : 0 ≤ u.cursor.row) (hcc0 : 0 ≤ u.cursor.col) (hccl : u.cursor.col < u.cols) :
    0 ≤ (if u.rows ≤ u.cursor.row then u.scrollIfNeeded else u).cursor.row ∧
    (if u.rows ≤ u.cursor.row then u.scrollIfNeeded else u).cursor.row <
      (if u.rows ≤ u.cursor.row then u.scrollIfNeeded else u).rows ∧
    0 ≤ (if u.rows ≤ u.cursor.row then u.scrollIfNeeded else u).cursor.col ∧
    (if u.rows ≤ u.cursor.row then u.scrollIfNeeded else u).cursor.col <
      (if u.rows ≤ u.cursor.row then u.scrollIfNeeded else u).cols ∧
    1 ≤ (if u.rows ≤ u.cursor.row then u.scrollIfNeeded else u).cols := by
  by_cases h : u.rows ≤ u.cursor.row
  · rw [if_pos h]
    obtain ⟨p1, p2, p3, p4, p5, p6, p7⟩ := scrollIfNeeded_contained u hst hsb hsr hcr0 hbufr
    refine ⟨p1, p2, ?_, ?_, ?_⟩
    · rw [p3]; omega
    · rw [p3, p4]; omega
    · rw [p4]; omega
  · rw [if_neg h]
    exact ⟨hcr0, by omega, hcc0, hccl, by omega⟩

/-- The wrap/grow/clamp stage of `inputInternal` puts the cursor strictly
inside the (possibly grown) grid, given that a non-fitting wide character
was not dropped. -/
theorem inputWrapStage_contained (t : Term) (width : Nat)
    (hr1 : 1 ≤ t.rows) (hc1 : 1 ≤ t.cols)
    (hst : 0 ≤ t.scrollTop) (hsb : t.scrollTop < t.scrollBottom)
    (hsr : t.scrollBottom ≤ t.rows)
    (hcr0 : 0 ≤ t.cursor.row) (hcr : t.cursor.row < t.rows)
    (hcc0 : 0 ≤ t.cursor.col) (hcc : t.cursor.col ≤ t.cols)
    (hbufr : (t.activeBuf).rows = t.rows) (hbufc : (t.activeBuf).cols = t.cols)
    (hw1 : 1 ≤ width)
    (hnd : ¬ (t.cols < t.cursor.col + (width : Int) ∧ ¬ t.autoResize ∧
      ¬ t.modes.lineWrap ∧ width = 2)) :
    0 ≤ (inputWrapStage t width).cursor.row ∧
    (inputWrapStage t width).cursor.row < (inputWrapStage t width).rows ∧
    0 ≤ (inputWrapStage t width).cursor.col ∧
    (inputWrapStage t width).cursor.col < (inputWrapStage t width).cols ∧
    1 ≤ (inputWrapStage t width).cols := by
  unfold inputWrapStage
  by_cases h1 : t.cols < t.cursor.col + (width : Int)
  · rw [if_pos h1]
    by_cases h2 : t.autoResize = true
    · rw [if_pos h2]
      dsimp only
      simp only [setActiveBuf_cursor, setActiveBuf_rows, setActiveBuf_cols]
      have hbc := growCols_cols_le (t.activeBuf) t.cursor.row (t.cursor.col + (width : Int))
      by_cases h3 : ((t.activeBuf).growCols t.cursor.row
          (t.cursor.col + (width : Int))).cols ≤ t.cursor.col
      · rw [if_pos h3]
        dsimp only
        refine ⟨hcr0, hcr, ?_, ?_, ?_⟩ <;> omega
      · rw [if_neg h3]
        dsimp only
        refine ⟨hcr0, hcr, hcc0, ?_, ?_⟩ <;> omega
    · rw [if_neg h2]
      by_cases h4 : t.modes.lineWrap = true
      · rw [if_pos h4]
        refine scrollGuard_contained _ ?_ ?_ ?_ ?_ ?_ ?_ ?_
        · simp only [setActiveBuf_scrollTop]; omega
        · simp only [setActiveBuf_scrollTop, setActiveBuf_scrollBottom]; omega
        · simp only [setActiveBuf_scrollBottom, setActiveBuf_rows]; omega
        · show ((t.setActiveBuf ((t.activeBuf).setWrapped t.cursor.row true)).activeBuf).rows =
            (t.setActiveBuf ((t.activeBuf).setWrapped t.cursor.row true)).rows
          rw [setActiveBuf_activeBuf, setWrapped_rows, hbufr, setActiveBuf_rows]
        · simp only [setActiveBuf_cursor]; omega
        · simp only [setActiveBuf_cursor]; omega
        · simp only [setActiveBuf_cursor, setActiveBuf_cols]; omega
      · rw [if_neg h4]
        refine ⟨hcr0, hcr, ?_, ?_, ?_⟩ <;> dsimp only <;> omega
  · rw [if_neg h1]
    exact ⟨hcr0, hcr, hcc0, by omega, hc1⟩

/-- `inputInternal` keeps a contained cursor contained (buffer dimensions
agreeing with the terminal's and a sane scroll region). -/
theorem inputInternal_contained (t : Term) (r0 width : Nat)
    (hr1 : 1 ≤ t.rows) (hc1 : 1 ≤ t.cols)
    (hst : 0 ≤ t.scrollTop) (hsb : t.scrollTop < t.scrollBottom)
    (hsr : t.scrollBottom ≤ t.rows)
    (hcr0 : 0 ≤ t.cursor.row) (hcr : t.cursor.row < t.rows)
    (hcc0 : 0 ≤ t.cursor.col) (hcc : t.cursor.col ≤ t.cols)
    (hbufr : (t.activeBuf).rows = t.rows) (hbufc : (t.activeBuf).cols = t.cols) :
    cursorContained (Term.inputInternal t r0 width) := by
  rw [inputInternal_eq]
  by_cases h0 : width = 0
  · rw [if_pos h0]; exact ⟨hcr0, hcr, hcc0, hcc⟩
  · rw [if_neg h0]
    by_cases hdrop : t.cols < t.cursor.col + (width : Int) ∧ ¬ t.autoResize ∧
        ¬ t.modes.lineWrap ∧ width = 2
    · rw [if_pos hdrop]; exact ⟨hcr0, hcr, hcc0, hcc⟩
    · rw [if_neg hdrop]
      obtain ⟨w1, w2, w3, w4, w5⟩ := inputWrapStage_contained t width hr1 hc1 hst hsb hsr
        hcr0 hcr hcc0 hcc hbufr hbufc (by omega) hdrop
      exact inputTail_contained _ _ width w1 w2 w3 w4 w5

/-- A fold step that preserves `P` preserves it over the whole fold. -/
theorem foldl_pres {α : Type} (P : Term → Prop) (f : Term → α → Term)
    (hf : ∀ x a, P x → P (f x a)) :
    ∀ (l : List α) (t : Term), P t → P (l.foldl f t) := by
  intro l
  induction l with
  | nil => intro t h; exact h
  | cons a l ih => intro t h; exact ih _ (hf _ _ h)

/-- Swapping in a buffer keeps a contained cursor contained. -/
theorem setActiveBuf_contained (t : Term) (b : Buffer)
    (hcr0 : 0 ≤ t.cursor.row) (hcr : t.cursor.row < t.rows)
    (hcc0 : 0 ≤ t.cursor.col) (hcc : t.cursor.col ≤ t.cols) :
    cursorContained (t.setActiveBuf b) := by
  refine ⟨?_, ?_, ?_, ?_⟩ <;>
    simp only [setActiveBuf_cursor, setActiveBuf_rows, setActiveBuf_cols] <;> omega

/-- Tab stops land the column strictly inside the grid. -/
theorem tabInternal_contained (t : Term) (n : Int)
    (hcr0 : 0 ≤ t.cursor.row) (hcr : t.cursor.row < t.rows)
    (hcc0 : 0 ≤ t.cursor.col) (hcc : t.cursor.col ≤ t.cols) (hc1 : 1 ≤ t.cols)
    (hbufc : (t.activeBuf).cols = t.cols) :
    cursorContained (t.tabInternal n) := by
  unfold Term.tabInternal
  have hstep : ∀ (x : Term) (a : Nat),
      ((0 ≤ x.cursor.row ∧ x.cursor.row < x.rows ∧ 0 ≤ x.cursor.col ∧
        x.cursor.col ≤ x.cols) ∧ x.activeBuf = t.activeBuf ∧ x.cols = t.cols) →
      ((0 ≤ ({ x with cursor := { x.cursor with
            col := (x.activeBuf).nextTabStop x.cursor.col } } : Term).cursor.row ∧
        ({ x with cursor := { x.cursor with
            col := (x.activeBuf).nextTabStop x.cursor.col } } : Term).cursor.row <
          ({ x with cursor := { x.cursor with
            col := (x.activeBuf).nextTabStop x.cursor.col } } : Term).rows ∧
        0 ≤ ({ x with cursor := { x.cursor with
            col := (x.activeBuf).nextTabStop x.cursor.col } } : Term).cursor.col ∧
        ({ x with cursor := { x.cursor with
            col := (x.activeBuf).nextTabStop x.cursor.col } } : Term).cursor.col ≤
          ({ x with cursor := { x.cursor with
            col := (x.activeBuf).nextTabStop x.cursor.col } } : Term).cols) ∧
        ({ x with cursor := { x.cursor with
            col := (x.activeBuf).nextTabStop x.cursor.col } } : Term).activeBuf =
          t.activeBuf ∧
        ({ x with cursor := { x.cursor with
            col := (x.activeBuf).nextTabStop x.cursor.col } } : Term).cols = t.cols) := by
    intro x a hx
    obtain ⟨⟨p1, p2, p3, p4⟩, pb, pc⟩ := hx
    have hm := nextTabStop_mem (x.activeBuf) x.cursor.col (by rw [pb, hbufc]; omega)
    rw [pb, hbufc] at hm
    refine ⟨⟨?_, ?_, ?_, ?_⟩, ?_, ?_⟩
    · exact p1
    · exact p2
    · (try dsimp only); rw [pb]; omega
    · (try dsimp only); rw [pb]; omega
    · rw [activeBuf_setCursor]; exact pb
    · (try dsimp only); exact pc
  have h := foldl_pres
    (fun x => (0 ≤ x.cursor.row ∧ x.cursor.row < x.rows ∧ 0 ≤ x.cursor.col ∧
      x.cursor.col ≤ x.cols) ∧ x.activeBuf = t.activeBuf ∧ x.cols = t.cols)
    (fun x _ => { x with cursor := { x.cursor with
      col := (x.activeBuf).nextTabStop x.cursor.col } })
    hstep (List.range (max n 0).toNat) t ⟨⟨hcr0, hcr, hcc0, hcc⟩, rfl, rfl⟩
  exact h.1

/-- Backward tab stops land the column strictly inside the grid. -/
theorem moveBackwardTabs_contained (t : Term) (n : Int)
    (hcr0 : 0 ≤ t.cursor.row) (hcr : t.cursor.row < t.rows)
    (hcc0 : 0 ≤ t.cursor.col) (hcc : t.cursor.col ≤ t.cols) (hc1 : 1 ≤ t.cols)
    (hbufc : (t.activeBuf).cols = t.cols) :
    cursorContained (t.moveBackwardTabsInternal n) := by
  unfold Term.moveBackwardTabsInternal
  have hstep : ∀ (x : Term) (a : Nat),
      ((0 ≤ x.cursor.row ∧ x.cursor.row < x.rows ∧ 0 ≤ x.cursor.col ∧
        x.cursor.col ≤ x.cols) ∧ x.activeBuf = t.activeBuf ∧ x.cols = t.cols) →
      ((0 ≤ ({ x with cursor := { x.cursor with
            col := (x.activeBuf).prevTabStop x.cursor.col } } : Term).cursor.row ∧
        ({ x with cursor := { x.cursor with
            col := (x.activeBuf).prevTabStop x.cursor.col } } : Term).cursor.row <
          ({ x with cursor := { x.cursor with
            col := (x.activeBuf).prevTabStop x.cursor.col } } : Term).rows ∧
        0 ≤ ({ x with cursor := { x.cursor with
            col := (x.activeBuf).prevTabStop x.cursor.col } } : Term).cursor.col ∧
        ({ x with cursor := { x.cursor with
            col := (x.activeBuf).prevTabStop x.cursor.col } } : Term).cursor.col ≤
          ({ x with cursor := { x.cursor with
            col := (x.activeBuf).prevTabStop x.cursor.col } } : Term).cols) ∧
        ({ x with cursor := { x.cursor with
            col := (x.activeBuf).prevTabStop x.cursor.col } } : Term).activeBuf =
          t.activeBuf ∧
        ({ x with cursor := { x.cursor with
            col := (x.activeBuf).prevTabStop x.cursor.col } } : Term).cols = t.cols) := by
    intro x a hx
    obtain ⟨⟨p1, p2, p3, p4⟩, pb, pc⟩ := hx
    have hm := prevTabStop_mem (x.activeBuf) x.cursor.col (by rw [pb, hbufc]; omega)
    rw [pb, hbufc] at hm
    refine ⟨⟨?_, ?_, ?_, ?_⟩, ?_, ?_⟩
    · exact p1
    · exact p2
    · (try dsimp only); rw [pb]; omega
    · (try dsimp only); rw [pb]; omega
    · rw [activeBuf_setCursor]; exact pb
    · (try dsimp only); exact pc
  have h := foldl_pres
    (fun x => (0 ≤ x.cursor.row ∧ x.cursor.row < x.rows ∧ 0 ≤ x.cursor.col ∧
      x.cursor.col ≤ x.cols) ∧ x.activeBuf = t.activeBuf ∧ x.cols = t.cols)
    (fun x _ => { x with cursor := { x.cursor with
      col := (x.activeBuf).prevTabStop x.cursor.col } })
    hstep (List.range (max n 0).toNat) t ⟨⟨hcr0, hcr, hcc0, hcc⟩, rfl, rfl⟩
  exact h.1

/-- Stamping image references never moves the cursor or the dimensions. -/
theorem assignImageToCells_frame (t : Term) (a b : Nat) (p : ImagePlacement) :
    (Term.assignImageToCells t a b p).cursor = t.cursor ∧
    (Term.assignImageToCells t a b p).rows = t.rows ∧
    (Term.assignImageToCells t a b p).cols = t.cols := by
  unfold Term.assignImageToCells
  refine foldl_pres (fun x => x.cursor = t.cursor ∧ x.rows = t.rows ∧ x.cols = t.cols)
    _ ?_ _ _ ⟨rfl, rfl, rfl⟩
  intro x i hx
  refine foldl_pres (fun x => x.cursor = t.cursor ∧ x.rows = t.rows ∧ x.cols = t.cols)
    _ ?_ _ _ hx
  intro y j hy
  (try dsimp only)
  split
  · exact hy
  · exact ⟨by rw [setActiveBuf_cursor]; exact hy.1,
      by rw [setActiveBuf_rows]; exact hy.2.1,
      by rw [setActiveBuf_cols]; exact hy.2.2⟩

theorem assignImageToCells_cursor (t : Term) (a b : Nat) (p : ImagePlacement) :
    (Term.assignImageToCells t a b p).cursor = t.cursor :=
  (assignImageToCells_frame t a b p).1

theorem assignImageToCells_rows (t : Term) (a b : Nat) (p : ImagePlacement) :
    (Term.assignImageToCells t a b p).rows = t.rows :=
  (assignImageToCells_frame t a b p).2.1

theorem assignImageToCells_cols (t : Term) (a b : Nat) (p : ImagePlacement) :
    (Term.assignImageToCells t a b p).cols = t.cols :=
  (assignImageToCells_frame t a b p).2.2

/-- Kitty transmission only touches the image store. -/
theorem kittyTransmit_frame (t : Term) (more : Bool) (imageID : Nat)
    (payload : List Nat) (decoded : Option (Nat × Nat × List Nat)) (now : Nat) :
    (t.kittyTransmit more imageID payload decoded now).2.cursor = t.cursor ∧
    (t.kittyTransmit more imageID payload decoded now).2.rows = t.rows ∧
    (t.kittyTransmit more imageID payload decoded now).2.cols = t.cols := by
  cases decoded with
  | none =>
    unfold Term.kittyTransmit
    (try dsimp only)
    split_ifs <;> exact ⟨rfl, rfl, rfl⟩
  | some v =>
    obtain ⟨w, h, data⟩ := v
    unfold Term.kittyTransmit
    (try dsimp only)
    split_ifs <;> exact ⟨rfl, rfl, rfl⟩

/-- Both components of the effective cell size are positive. -/
theorem getCellSizePixels_pos (pw ph : Int) :
    1 ≤ (Term.getCellSizePixels pw ph).1 ∧ 1 ≤ (Term.getCellSizePixels pw ph).2 := by
  unfold Term.getCellSizePixels
  split <;> constructor <;> omega

/-- The cursor advance at the end of `kittyDisplay` stays contained. -/
theorem kittyAdvance_contained (u : Term) (k : Int) (hk : 0 ≤ k)
    (hr1 : 1 ≤ u.rows) (hc1 : 1 ≤ u.cols)
    (hcr0 : 0 ≤ u.cursor.row) (hcr : u.cursor.row < u.rows)
    (hcc0 : 0 ≤ u.cursor.col) :
    cursorContained (
      let v : Term := { u with cursor := { u.cursor with col := u.cursor.col + k } }
      if v.cols ≤ v.cursor.col then
        let v : Term := { v with cursor := { v.cursor with col := 0, row := v.cursor.row + 1 } }
        if v.rows ≤ v.cursor.row then
          { v with cursor := { v.cursor with row := v.rows - 1 } }
        else v
      else v) := by
  unfold cursorContained
  (try dsimp only)
  by_cases h1 : u.cols ≤ u.cursor.col + k
  · rw [if_pos h1]
    (try dsimp only)
    by_cases h2 : u.rows ≤ u.cursor.row + 1
    · rw [if_pos h2]
      refine ⟨?_, ?_, ?_, ?_⟩ <;> (try dsimp only) <;> omega
    · rw [if_neg h2]
      refine ⟨?_, ?_, ?_, ?_⟩ <;> (try dsimp only) <;> omega
  · rw [if_neg h1]
    refine ⟨?_, ?_, ?_, ?_⟩ <;> (try dsimp only) <;> omega

/-- The cursor advance at the end of the Sixel handler stays contained. -/
theorem rowAdvance_contained (u : Term) (k : Int) (hk : 0 ≤ k)
    (hr1 : 1 ≤ u.rows) (hcr0 : 0 ≤ u.cursor.row)
    (hcc0 : 0 ≤ u.cursor.col) (hcc : u.cursor.col ≤ u.cols) :
    cursorContained (
      let v : Term := { u with cursor := { u.cursor with row := u.cursor.row + k } }
      if v.rows ≤ v.cursor.row then { v with cursor := { v.cursor with row := v.rows - 1 } }
      else v) := by
  unfold cursorContained
  (try dsimp only)
  by_cases h1 : u.rows ≤ u.cursor.row + k
  · rw [if_pos h1]
    refine ⟨?_, ?_, ?_, ?_⟩ <;> (try dsimp only) <;> omega
  · rw [if_neg h1]
    refine ⟨?_, ?_, ?_, ?_⟩ <;> (try dsimp only) <;> omega

/-- `kittyDisplay` keeps the cursor contained. -/
theorem kittyDisplay_contained (t : Term) (info : KittyInfo) (pw ph : Int) (now : Nat)
    (hr1 : 1 ≤ t.rows) (hc1 : 1 ≤ t.cols)
    (hcr0 : 0 ≤ t.cursor.row) (hcr : t.cursor.row < t.rows)
    (hcc0 : 0 ≤ t.cursor.col) (hcc : t.cursor.col ≤ t.cols) :
    cursorContained (t.kittyDisplay info pw ph now) := by
  unfold Term.kittyDisplay
  cases hL : ImageManager.lookup t.images.images info.imageID with
  | none => exact ⟨hcr0, hcr, hcc0, hcc⟩
  | some img =>
    (try dsimp only)
    have hcw := getCellSizePixels_pos pw ph
    by_cases hmov : info.doNotMoveCursor = true
    · rw [if_pos hmov]
      refine ⟨?_, ?_, ?_, ?_⟩ <;>
        simp only [assignImageToCells_cursor, assignImageToCells_rows,
          assignImageToCells_cols] <;>
        (try dsimp only) <;> omega
    · rw [if_neg hmov]
      refine kittyAdvance_contained _ _ ?_ ?_ ?_ ?_ ?_ ?_
      · by_cases hic : info.cols = 0
        · rw [if_pos hic]
          refine Int.ediv_nonneg ?_ ?_ <;> omega
        · rw [if_neg hic]; omega
      · simp only [assignImageToCells_rows]; (try dsimp only); omega
      · simp only [assignImageToCells_cols]; (try dsimp only); omega
      · simp only [assignImageToCells_cursor]; (try dsimp only); omega
      · simp only [assignImageToCells_cursor, assignImageToCells_rows]; (try dsimp only); omega
      · simp only [assignImageToCells_cursor]; (try dsimp only); omega

/-- The Sixel handler keeps the cursor contained. -/
theorem sixelReceived_contained (t : Term) (img : Option (Nat × Nat × List Nat))
    (pw ph : Int) (now : Nat)
    (hr1 : 1 ≤ t.rows) (hc1 : 1 ≤ t.cols)
    (hcr0 : 0 ≤ t.cursor.row) (hcr : t.cursor.row < t.rows)
    (hcc0 : 0 ≤ t.cursor.col) (hcc : t.cursor.col ≤ t.cols) :
    cursorContained (t.sixelReceivedInternal img pw ph now) := by
  unfold Term.sixelReceivedInternal
  cases img with
  | none => exact ⟨hcr0, hcr, hcc0, hcc⟩
  | some v =>
    obtain ⟨w, h, data⟩ := v
    (try dsimp only)
    have hcw := getCellSizePixels_pos pw ph
    by_cases h0 : w = 0 ∨ h = 0
    · rw [if_pos h0]; exact ⟨hcr0, hcr, hcc0, hcc⟩
    · rw [if_neg h0]
      refine rowAdvance_contained _ _ ?_ ?_ ?_ ?_ ?_
      · refine Int.ediv_nonneg ?_ ?_ <;> omega
      · simp only [assignImageToCells_rows]; (try dsimp only); omega
      · simp only [assignImageToCells_cursor]; (try dsimp only); omega
      · simp only [assignImageToCells_cursor]; (try dsimp only); omega
      · simp only [assignImageToCells_cursor, assignImageToCells_cols]; (try dsimp only); omega

/-- The line-feed tail: bumping the row then `scrollIfNeeded` stays contained. -/
theorem lineFeedTail_contained (u : Term)
    (hst : 0 ≤ u.scrollTop) (hsb : u.scrollTop < u.scrollBottom)
    (hsr : u.scrollBottom ≤ u.rows) (hbufr : (u.activeBuf).rows = u.rows)
    (hcr0 : 0 ≤ u.cursor.row) (hcc0 : 0 ≤ u.cursor.col) (hcc : u.cursor.col ≤ u.cols) :
    cursorContained (({ u with cursor := { u.cursor with
      row := u.cursor.row + 1 } } : Term).scrollIfNeeded) := by
  obtain ⟨p1, p2, p3, p4, p5, p6, p7⟩ := scrollIfNeeded_contained
    ({ u with cursor := { u.cursor with row := u.cursor.row + 1 } })
    (by (try dsimp only); exact hst) (by (try dsimp only); exact hsb) (by (try dsimp only); exact hsr)
    (by (try dsimp only); omega)
    (by rw [activeBuf_setCursor]; (try dsimp only); exact hbufr)
  refine ⟨p1, p2, ?_, ?_⟩
  · rw [p3]; (try dsimp only); omega
  · rw [p3, p4]; (try dsimp only); omega

/-- `setModeLocked` keeps the cursor contained (a sane scroll region for the
origin-mode homing, an in-bounds saved cursor for the 1049 restore). -/
theorem setModeLocked_contained (t : Term) (m : AnsiMode) (set : Bool)
    (hr1 : 1 ≤ t.rows) (hc1 : 1 ≤ t.cols)
    (hst : 0 ≤ t.scrollTop) (hsb : t.scrollTop < t.scrollBottom)
    (hsr : t.scrollBottom ≤ t.rows)
    (hcr0 : 0 ≤ t.cursor.row) (hcr : t.cursor.row < t.rows)
    (hcc0 : 0 ≤ t.cursor.col) (hcc : t.cursor.col ≤ t.cols)
    (hsv : ∀ s, t.savedCursor = some s →
      0 ≤ s.row ∧ s.row < t.rows ∧ 0 ≤ s.col ∧ s.col ≤ t.cols) :
    cursorContained (t.setModeLocked m set) := by
  unfold Term.setModeLocked
  cases m <;> try exact ⟨hcr0, hcr, hcc0, hcc⟩
  case origin =>
    (try dsimp only)
    by_cases hs : set = true
    · rw [if_pos hs]
      refine ⟨?_, ?_, ?_, ?_⟩ <;> (try dsimp only) <;> omega
    · rw [if_neg hs]
      exact ⟨hcr0, hcr, hcc0, hcc⟩
  case swapScreenAndSetRestoreCursor =>
    (try dsimp only)
    by_cases hs : set = true
    · rw [if_pos hs]
      exact ⟨hcr0, hcr, hcc0, hcc⟩
    · rw [if_neg hs]
      (try dsimp only)
      unfold Term.restoreCursorPositionLocked
      (try dsimp only)
      cases hsc : t.savedCursor with
      | none => exact ⟨hcr0, hcr, hcc0, hcc⟩
      | some s =>
        have hb := hsv s hsc
        exact ⟨hb.1, hb.2.1, hb.2.2.1, hb.2.2.2⟩

/-- `setScrollingRegionInternal` keeps the cursor contained. -/
theorem setScrollingRegion_contained (t : Term) (top bottom : Int)
    (hr1 : 1 ≤ t.rows) (hc1 : 1 ≤ t.cols)
    (hcr0 : 0 ≤ t.cursor.row) (hcr : t.cursor.row < t.rows)
    (hcc0 : 0 ≤ t.cursor.col) (hcc : t.cursor.col ≤ t.cols) :
    cursorContained (t.setScrollingRegionInternal top bottom) := by
  unfold Term.setScrollingRegionInternal
  (try dsimp only)
  have hT : 0 ≤ (if top - 1 < 0 then 0 else top - 1) := by split <;> omega
  have hB : (if bottom - 1 ≤ 0 ∨ t.rows < bottom - 1 then t.rows else bottom - 1) ≤
      t.rows := by split <;> omega
  by_cases hb : (if bottom - 1 ≤ 0 ∨ t.rows < bottom - 1 then t.rows else bottom - 1) ≤
      (if top - 1 < 0 then 0 else top - 1)
  · rw [if_pos hb]; exact ⟨hcr0, hcr, hcc0, hcc⟩
  · rw [if_neg hb]
    (try dsimp only)
    by_cases ho : t.modes.origin = true
    · rw [if_pos ho]
      refine ⟨?_, ?_, ?_, ?_⟩ <;> (try dsimp only) <;> omega
    · rw [if_neg ho]
      refine ⟨?_, ?_, ?_, ?_⟩ <;> (try dsimp only) <;> omega

/-- `lineFeedInternal` keeps the cursor contained. -/
theorem lineFeed_contained (t : Term)
    (hst : 0 ≤ t.scrollTop) (hsb : t.scrollTop < t.scrollBottom)
    (hsr : t.scrollBottom ≤ t.rows) (hbufr : (t.activeBuf).rows = t.rows)
    (hc1 : 1 ≤ t.cols)
    (hcr0 : 0 ≤ t.cursor.row) (hcc0 : 0 ≤ t.cursor.col) (hcc : t.cursor.col ≤ t.cols) :
    cursorContained (t.lineFeedInternal) := by
  unfold Term.lineFeedInternal
  dsimp only
  by_cases hlf : (t.setActiveBuf ((t.activeBuf).setWrapped t.cursor.row
      false)).modes.lineFeedNewLine = true
  · rw [if_pos hlf]
    exact lineFeedTail_contained
      ({ t.setActiveBuf ((t.activeBuf).setWrapped t.cursor.row false) with
        cursor := { (t.setActiveBuf ((t.activeBuf).setWrapped t.cursor.row
          false)).cursor with col := 0 } })
      (by (try dsimp only); rw [setActiveBuf_scrollTop]; exact hst)
      (by (try dsimp only); rw [setActiveBuf_scrollTop, setActiveBuf_scrollBottom]; exact hsb)
      (by (try dsimp only); rw [setActiveBuf_scrollBottom, setActiveBuf_rows]; exact hsr)
      (by rw [activeBuf_setCursor, setActiveBuf_activeBuf, setWrapped_rows, hbufr]
          (try dsimp only)
          rw [setActiveBuf_rows])
      (by (try dsimp only); rw [setActiveBuf_cursor]; omega)
      (by (try dsimp only); omega)
      (by (try dsimp only); rw [setActiveBuf_cols]; omega)
  · rw [if_neg hlf]
    exact lineFeedTail_contained
      (t.setActiveBuf ((t.activeBuf).setWrapped t.cursor.row false))
      (by rw [setActiveBuf_scrollTop]; exact hst)
      (by rw [setActiveBuf_scrollTop, setActiveBuf_scrollBottom]; exact hsb)
      (by rw [setActiveBuf_scrollBottom, setActiveBuf_rows]; exact hsr)
      (by rw [setActiveBuf_activeBuf, setWrapped_rows, hbufr, setActiveBuf_rows])
      (by rw [setActiveBuf_cursor]; omega)
      (by rw [setActiveBuf_cursor]; omega)
      (by rw [setActiveBuf_cursor, setActiveBuf_cols]; omega)

set_option maxHeartbeats 1000000 in
/-- **C4** (amended).  For every terminal state with a sane geometry
(`1 ≤ rows`, `1 ≤ cols`, `0 ≤ scrollTop < scrollBottom ≤ rows`), a cursor
satisfying `0 ≤ row < rows` and `0 ≤ col ≤ cols`, a saved cursor (if any)
within the same bounds, and an active buffer whose dimensions agree with the
terminal's, every handler call leaves the cursor with `0 ≤ row < rows` and
`0 ≤ col ≤ cols`.  The original claim over all reachable states fails:
`Terminal.Resize` clamps the live cursor but not the saved one, so a
subsequent `restoreCursorPosition` escapes the row bound. -/
theorem step_contained (t : Term) (c : Term.HCall)
    (hr1 : 1 ≤ t.rows) (hc1 : 1 ≤ t.cols)
    (hst : 0 ≤ t.scrollTop) (hsb : t.scrollTop < t.scrollBottom)
    (hsr : t.scrollBottom ≤ t.rows)
    (hcr0 : 0 ≤ t.cursor.row) (hcr : t.cursor.row < t.rows)
    (hcc0 : 0 ≤ t.cursor.col) (hcc : t.cursor.col ≤ t.cols)
    (hsv : ∀ s, t.savedCursor = some s →
      0 ≤ s.row ∧ s.row < t.rows ∧ 0 ≤ s.col ∧ s.col ≤ t.cols)
    (hbufr : (t.activeBuf).rows = t.rows) (hbufc : (t.activeBuf).cols = t.cols) :
    cursorContained (t.step c) := by
  cases c <;> dsimp only [Term.step]
  case input r width =>
    exact inputInternal_contained t r width hr1 hc1 hst hsb hsr hcr0 hcr hcc0 hcc hbufr hbufc
  case responseOnly => exact ⟨hcr0, hcr, hcc0, hcc⟩
  case backspace =>
    unfold Term.backspaceInternal
    by_cases hb : 0 < t.cursor.col
    · rw [if_pos hb]
      refine ⟨hcr0, hcr, ?_, ?_⟩ <;> (try dsimp only) <;> omega
    · rw [if_neg hb]; exact ⟨hcr0, hcr, hcc0, hcc⟩
  case carriageReturn =>
    unfold Term.carriageReturnInternal
    refine ⟨hcr0, hcr, ?_, ?_⟩ <;> (try dsimp only) <;> omega
  case lineFeed => exact lineFeed_contained t hst hsb hsr hbufr hc1 hcr0 hcc0 hcc
  case tab n => exact tabInternal_contained t n hcr0 hcr hcc0 hcc hc1 hbufc
  case horizontalTabSet =>
    unfold Term.horizontalTabSetInternal
    exact setActiveBuf_contained _ _ hcr0 hcr hcc0 hcc
  case clearLine m =>
    unfold Term.clearLineInternal
    cases m <;> exact setActiveBuf_contained _ _ hcr0 hcr hcc0 hcc
  case clearScreen m =>
    unfold Term.clearScreenInternal
    cases m <;> exact setActiveBuf_contained _ _ hcr0 hcr hcc0 hcc
  case clearTabs m =>
    unfold Term.clearTabsInternal
    cases m <;> exact setActiveBuf_contained _ _ hcr0 hcr hcc0 hcc
  case goto row col =>
    unfold Term.gotoInternal
    obtain ⟨a1, a2⟩ := clampInt_mem (t.effectiveRow row) 0 (t.rows - 1) (by omega)
    obtain ⟨b1, b2⟩ := clampInt_mem col 0 (t.cols - 1) (by omega)
    refine ⟨a1, ?_, b1, ?_⟩ <;> (try dsimp only) <;> omega
  case gotoLine row =>
    unfold Term.gotoLineInternal
    obtain ⟨a1, a2⟩ := clampInt_mem (t.effectiveRow row) 0 (t.rows - 1) (by omega)
    refine ⟨a1, ?_, ?_, ?_⟩ <;> (try dsimp only) <;> omega
  case gotoCol col =>
    unfold Term.gotoColInternal
    obtain ⟨b1, b2⟩ := clampInt_mem col 0 (t.cols - 1) (by omega)
    refine ⟨?_, ?_, b1, ?_⟩ <;> (try dsimp only) <;> omega
  case moveUp n =>
    unfold Term.moveUpInternal
    obtain ⟨a1, a2⟩ := clampInt_mem (t.cursor.row - n) 0 (t.rows - 1) (by omega)
    refine ⟨a1, ?_, ?_, ?_⟩ <;> (try dsimp only) <;> omega
  case moveDown n =>
    unfold Term.moveDownInternal
    obtain ⟨a1, a2⟩ := clampInt_mem (t.cursor.row + n) 0 (t.rows - 1) (by omega)
    refine ⟨a1, ?_, ?_, ?_⟩ <;> (try dsimp only) <;> omega
  case moveForward n =>
    unfold Term.moveForwardInternal
    obtain ⟨b1, b2⟩ := clampInt_mem (t.cursor.col + n) 0 (t.cols - 1) (by omega)
    refine ⟨?_, ?_, b1, ?_⟩ <;> (try dsimp only) <;> omega
  case moveBackward n =>
    unfold Term.moveBackwardInternal
    obtain ⟨b1, b2⟩ := clampInt_mem (t.cursor.col - n) 0 (t.cols - 1) (by omega)
    refine ⟨?_, ?_, b1, ?_⟩ <;> (try dsimp only) <;> omega
  case moveUpCr n =>
    unfold Term.moveUpCrInternal
    obtain ⟨a1, a2⟩ := clampInt_mem (t.cursor.row - n) 0 (t.rows - 1) (by omega)
    refine ⟨a1, ?_, ?_, ?_⟩ <;> (try dsimp only) <;> omega
  case moveDownCr n =>
    unfold Term.moveDownCrInternal
    obtain ⟨a1, a2⟩ := clampInt_mem (t.cursor.row + n) 0 (t.rows - 1) (by omega)
    refine ⟨a1, ?_, ?_, ?_⟩ <;> (try dsimp only) <;> omega
  case moveForwardTabs n => exact tabInternal_contained t n hcr0 hcr hcc0 hcc hc1 hbufc
  case moveBackwardTabs n =>
    exact moveBackwardTabs_contained t n hcr0 hcr hcc0 hcc hc1 hbufc
  case insertBlank n =>
    unfold Term.insertBlankInternal
    exact setActiveBuf_contained _ _ hcr0 hcr hcc0 hcc
  case insertBlankLines n =>
    unfold Term.insertBlankLinesInternal
    split
    · exact setActiveBuf_contained _ _ hcr0 hcr hcc0 hcc
    · exact ⟨hcr0, hcr, hcc0, hcc⟩
  case deleteChars n =>
    unfold Term.deleteCharsInternal
    exact setActiveBuf_contained _ _ hcr0 hcr hcc0 hcc
  case deleteLines n =>
    unfold Term.deleteLinesInternal
    split
    · exact setActiveBuf_contained _ _ hcr0 hcr hcc0 hcc
    · exact ⟨hcr0, hcr, hcc0, hcc⟩
  case eraseChars n =>
    unfold Term.eraseCharsInternal
    exact setActiveBuf_contained _ _ hcr0 hcr hcc0 hcc
  case scrollUp n =>
    unfold Term.scrollUpInternal
    exact setActiveBuf_contained _ _ hcr0 hcr hcc0 hcc
  case scrollDown n =>
    unfold Term.scrollDownInternal
    exact setActiveBuf_contained _ _ hcr0 hcr hcc0 hcc
  case setScrollingRegion top bottom =>
    exact setScrollingRegion_contained t top bottom hr1 hc1 hcr0 hcr hcc0 hcc
  case setMode m =>
    exact setModeLocked_contained t m true hr1 hc1 hst hsb hsr hcr0 hcr hcc0 hcc hsv
  case unsetMode m =>
    exact setModeLocked_contained t m false hr1 hc1 hst hsb hsr hcr0 hcr hcc0 hcc hsv
  case setCharAttribute a =>
    unfold Term.setTerminalCharAttributeInternal
    cases a <;> exact ⟨hcr0, hcr, hcc0, hcc⟩
  case saveCursorPosition => exact ⟨hcr0, hcr, hcc0, hcc⟩
  case restoreCursorPosition =>
    unfold Term.restoreCursorPositionLocked
    cases hsc : t.savedCursor with
    | none => exact ⟨hcr0, hcr, hcc0, hcc⟩
    | some s =>
      have hb := hsv s hsc
      exact ⟨hb.1, hb.2.1, hb.2.2.1, hb.2.2.2⟩
  case reverseIndex =>
    unfold Term.reverseIndexInternal
    by_cases h1 : t.cursor.row = t.scrollTop
    · rw [if_pos h1]
      exact setActiveBuf_contained _ _ hcr0 hcr hcc0 hcc
    · rw [if_neg h1]
      by_cases h2 : 0 < t.cursor.row
      · rw [if_pos h2]
        refine ⟨?_, ?_, hcc0, hcc⟩ <;> (try dsimp only) <;> omega
      · rw [if_neg h2]
        exact ⟨hcr0, hcr, hcc0, hcc⟩
  case resetState =>
    unfold Term.resetStateInternal
    refine ⟨?_, ?_, ?_, ?_⟩ <;>
      simp only [setActiveBuf_rows, setActiveBuf_cols] <;> omega
  case substitute =>
    unfold Term.substituteInternal
    split
    · exact setActiveBuf_contained _ _ hcr0 hcr hcc0 hcc
    · exact ⟨hcr0, hcr, hcc0, hcc⟩
  case decaln =>
    unfold Term.decalnInternal
    exact setActiveBuf_contained _ _ hcr0 hcr hcc0 hcc
  case configureCharset index cs =>
    unfold Term.configureCharsetInternal
    split
    · exact ⟨hcr0, hcr, hcc0, hcc⟩
    · exact ⟨hcr0, hcr, hcc0, hcc⟩
  case setActiveCharset n =>
    unfold Term.setActiveCharsetInternal
    split
    · exact ⟨hcr0, hcr, hcc0, hcc⟩
    · exact ⟨hcr0, hcr, hcc0, hcc⟩
  case setKeypadApplicationMode => exact ⟨hcr0, hcr, hcc0, hcc⟩
  case unsetKeypadApplicationMode => exact ⟨hcr0, hcr, hcc0, hcc⟩
  case setColor index c => exact ⟨hcr0, hcr, hcc0, hcc⟩
  case resetColor index => exact ⟨hcr0, hcr, hcc0, hcc⟩
  case setHyperlink h => exact ⟨hcr0, hcr, hcc0, hcc⟩
  case setTitle s => exact ⟨hcr0, hcr, hcc0, hcc⟩
  case pushTitle => exact ⟨hcr0, hcr, hcc0, hcc⟩
  case popTitle =>
    unfold Term.popTitleInternal
    split
    · exact ⟨hcr0, hcr, hcc0, hcc⟩
    · exact ⟨hcr0, hcr, hcc0, hcc⟩
  case pushKeyboardMode mode => exact ⟨hcr0, hcr, hcc0, hcc⟩
  case popKeyboardMode n => exact ⟨hcr0, hcr, hcc0, hcc⟩
  case setKeyboardMode mode behavior =>
    unfold Term.setKeyboardModeInternal
    by_cases hl : t.keyboardModes.length = 0
    · rw [if_pos hl]; exact ⟨hcr0, hcr, hcc0, hcc⟩
    · rw [if_neg hl]; exact ⟨hcr0, hcr, hcc0, hcc⟩
  case setModifyOtherKeys modify => exact ⟨hcr0, hcr, hcc0, hcc⟩
  case setCursorStyle style => exact ⟨hcr0, hcr, hcc0, hcc⟩
  case shellIntegrationMark mark exitCode => exact ⟨hcr0, hcr, hcc0, hcc⟩
  case setWorkingDirectory uri => exact ⟨hcr0, hcr, hcc0, hcc⟩
  case sixelReceived img pw ph now =>
    exact sixelReceived_contained t img pw ph now hr1 hc1 hcr0 hcr hcc0 hcc
  case kittyTransmit more imageID payload decoded now =>
    obtain ⟨f1, f2, f3⟩ := kittyTransmit_frame t more imageID payload decoded now
    refine ⟨?_, ?_, ?_, ?_⟩
    · rw [f1]; exact hcr0
    · rw [f1, f2]; exact hcr
    · rw [f1]; exact hcc0
    · rw [f1, f3]; exact hcc
  case kittyTransmitDisplay more payload decoded info pw ph now =>
    obtain ⟨f1, f2, f3⟩ := kittyTransmit_frame t more info.imageID payload decoded now
    by_cases hm : more = true
    · rw [if_pos hm]
      refine ⟨?_, ?_, ?_, ?_⟩
      · rw [f1]; exact hcr0
      · rw [f1, f2]; exact hcr
      · rw [f1]; exact hcc0
      · rw [f1, f3]; exact hcc
    · rw [if_neg hm]
      refine kittyDisplay_contained _ _ _ _ _ ?_ ?_ ?_ ?_ ?_ ?_
      · rw [f2]; exact hr1
      · rw [f3]; exact hc1
      · rw [f1]; exact hcr0
      · rw [f1, f2]; exact hcr
      · rw [f1]; exact hcc0
      · rw [f1, f3]; exact hcc
  case kittyDisplay info pw ph now =>
    exact kittyDisplay_contained t info pw ph now hr1 hc1 hcr0 hcr hcc0 hcc
  case kittyDelete kind =>
    unfold Term.kittyDelete
    cases kind <;> try exact ⟨hcr0, hcr, hcc0, hcc⟩
    case byID withData imageID =>
      dsimp only
      split
      · exact ⟨hcr0, hcr, hcc0, hcc⟩
      · exact ⟨hcr0, hcr, hcc0, hcc⟩
  case kittyQuery => exact ⟨hcr0, hcr, hcc0, hcc⟩

/-- Witness for C4: one ordinary printable input on a fresh 2x3 terminal. -/
theorem step_contained_witness :
    cursorContained ((Term.new 2 3 0).step (Term.HCall.input 65 1)) :=
  step_contained (Term.new 2 3 0) (Term.HCall.input 65 1) (by decide) (by decide)
    (by decide) (by decide) (by decide) (by decide) (by decide) (by decide) (by decide)
    (fun s hs => Option.noConfusion hs) (by decide) (by decide)

/-- **C4** counterexample.  On a 3x2 terminal, move the cursor to row 2, save
it, shrink the terminal to one row (`Terminal.Resize` clamps the live cursor
but not the saved one), then restore: the cursor lands on row 2 of a 1-row
terminal, violating `0 ≤ row < rows`. -/
theorem restore_escapes_bounds :
    ¬ cursorContained ((((Term.new 3 2 0).gotoInternal 2 0).saveCursorPositionLocked.resize
      1 2).step Term.HCall.restoreCursorPosition) := by
  intro h
  exact absurd h.2.1 (by decide)

end Claims

end HeadlessTerm
